import Mathlib

/-!
Shallow embedding of the 2D vector-path geometry kernel (package `canvas`):
the packed path command model and its mutators, bounds, winding queries,
reversal, the curve mathematics, the segment intersection engine and the SVG
path parser, together with proofs settling the specification claims.

Floating-point numbers are embedded as real numbers; Go's `NaN` results of the
root solvers are embedded as `Option` (`none` = absent root), and Go `panic`s
are embedded as `Except.error`.  Utility code of the repository that is not
part of the given sources (the shared tolerance predicate, point algebra, the
root solvers) is modelled from the spec, with its behaviour pinned by the
repository's own unit tests; every such definition is marked
`Modelled from the spec`.
-/

noncomputable section

open scoped Classical

namespace Canvas

/-- Modelled from the spec: the process-wide mutable equality tolerance
("Epsilon"); all equality/ordering comparisons use this shared tolerance. -/
def Epsilon : ℝ := 1e-10

/-- Modelled from the spec: the shared tolerance equality predicate on floats. -/
def Equal (a b : ℝ) : Prop := |a - b| ≤ Epsilon

/-- Modelled from the spec: `f` lies in the closed interval between `lower` and
`upper` (which may be interchanged), widened by Epsilon on both sides. -/
def Interval (f lower upper : ℝ) : Prop :=
  min lower upper - Epsilon ≤ f ∧ f ≤ max lower upper + Epsilon

/-- Modelled from the spec: strict interior of the interval between `lower` and
`upper`, shrunk by Epsilon on both sides. -/
def IntervalExclusive (f lower upper : ℝ) : Prop :=
  min lower upper + Epsilon < f ∧ f < max lower upper - Epsilon

/-- Modelled from the spec: (x,y) value type with vector algebra. -/
structure Point where
  X : ℝ
  Y : ℝ

def Origin : Point := ⟨0, 0⟩

def Point.Add (p q : Point) : Point := ⟨p.X + q.X, p.Y + q.Y⟩

def Point.Sub (p q : Point) : Point := ⟨p.X - q.X, p.Y - q.Y⟩

def Point.Mul (p : Point) (f : ℝ) : Point := ⟨f * p.X, f * p.Y⟩

def Point.Div (p : Point) (f : ℝ) : Point := ⟨p.X / f, p.Y / f⟩

def Point.Dot (p q : Point) : ℝ := p.X * q.X + p.Y * q.Y

/-- Modelled from the spec: perp-dot (2D cross) product. -/
def Point.PerpDot (p q : Point) : ℝ := p.X * q.Y - p.Y * q.X

def Point.Length (p : Point) : ℝ := Real.sqrt (p.X ^ 2 + p.Y ^ 2)

/-- Modelled from the spec: coordinatewise tolerance equality of points. -/
def Point.Equals (p q : Point) : Prop := Equal p.X q.X ∧ Equal p.Y q.Y

def Point.Interpolate (p q : Point) (t : ℝ) : Point :=
  ⟨p.X + t * (q.X - p.X), p.Y + t * (q.Y - p.Y)⟩

def Point.Rot90CW (p : Point) : Point := ⟨p.Y, -p.X⟩

def Point.Rot90CCW (p : Point) : Point := ⟨-p.Y, p.X⟩

/-- Modelled from the spec: two-argument arctangent (math.Atan2 conventions),
valued in (-pi, pi]. -/
def atan2 (y x : ℝ) : ℝ :=
  if 0 < x then Real.arctan (y / x)
  else if x < 0 then
    (if y < 0 then Real.arctan (y / x) - Real.pi else Real.arctan (y / x) + Real.pi)
  else if 0 < y then Real.pi / 2
  else if y < 0 then -(Real.pi / 2)
  else 0

def Point.Angle (p : Point) : ℝ := atan2 p.Y p.X

/-- Modelled from the spec: the signed angle from `p` to `q`. -/
def Point.AngleBetween (p q : Point) : ℝ := atan2 (p.PerpDot q) (p.Dot q)

/-- Modelled from the spec: scale `p` to the given length; the zero vector
(within tolerance) is mapped to the origin. -/
def Point.Norm (p : Point) (d : ℝ) : Point :=
  if Equal p.Length 0 then ⟨0, 0⟩
  else ⟨p.X / p.Length * d, p.Y / p.Length * d⟩

/-- Modelled from the spec: rotate `p` by `rot` radians counter-clockwise
about `p0`. -/
def Point.Rot (p : Point) (rot : ℝ) (p0 : Point) : Point :=
  ⟨p0.X + (p.X - p0.X) * Real.cos rot - (p.Y - p0.Y) * Real.sin rot,
   p0.Y + (p.X - p0.X) * Real.sin rot + (p.Y - p0.Y) * Real.cos rot⟩

/-- Modelled from the spec: normalise an angle into [0, 2*pi). -/
def angleNorm (theta : ℝ) : ℝ :=
  theta - 2 * Real.pi * ⌊theta / (2 * Real.pi)⌋

/-- Modelled from the spec: whether angle `theta` lies on the arc from `lower`
to `upper` (interchangeable), widened by Epsilon. -/
def angleBetween (theta lower upper : ℝ) : Prop :=
  angleNorm (theta - min lower upper + Epsilon) ≤
    angleNorm (max lower upper - min lower upper + 2 * Epsilon)

/-- Modelled from the spec: strict version of `angleBetween`. -/
def angleBetweenExclusive (theta lower upper : ℝ) : Prop :=
  0 < angleNorm (theta - min lower upper) ∧
    angleNorm (theta - min lower upper) < angleNorm (max lower upper - min lower upper)

/-- Modelled from the spec: tolerance equality of angles modulo 2*pi. -/
def angleEqual (a b : ℝ) : Prop := angleBetween a b b

/-- Modelled from the spec: the fraction at which angle `theta` lies along the
arc from `lower` to `upper` (0 at `lower`, 1 at `upper`). -/
def angleTime (theta lower upper : ℝ) : ℝ :=
  let t := (angleNorm (theta - min lower upper + Epsilon) - Epsilon) /
    (max lower upper - min lower upper)
  if upper < lower then 1 - t else t

/-- Modelled from the spec: closed-form quadratic solver; reports up to two
real roots (`none` embeds Go's NaN for an absent root), with degree reduction
and the numerically stable branch selection pinned by the unit tests. -/
def solveQuadraticFormula (a b c : ℝ) : Option ℝ × Option ℝ :=
  if a = 0 then
    if b = 0 then
      (if c = 0 then (some 0, none) else (none, none))
    else (some (-c / b), none)
  else
    let discriminant := b * b - 4 * a * c
    if discriminant < 0 then (none, none)
    else if discriminant = 0 then (some (-b / (2 * a)), none)
    else
      let q0 := Real.sqrt discriminant
      let q := if b < 0 then -(b + -q0) / 2 else -(b + q0) / 2
      (some (c / q), some (q / a))

/-- Modelled from the spec: closed-form cubic solver; reports up to three real
roots (`none` embeds Go's NaN), absent roots sorted last.  Only its type and
the degree-reduction case are relied upon; it is modelled as the sorted list
of distinct real roots of the polynomial. -/
def solveCubicFormula (a b c d : ℝ) : Option ℝ × Option ℝ × Option ℝ :=
  if a = 0 then
    let q := solveQuadraticFormula b c d
    (q.1, q.2, none)
  else
    let rs := ((Polynomial.C a * Polynomial.X ^ 3 + Polynomial.C b * Polynomial.X ^ 2 +
      Polynomial.C c * Polynomial.X + Polynomial.C d).roots.toFinset.sort (· ≤ ·))
    (rs.head?, rs.tail.head?, rs.tail.tail.head?)

/-! ### Curve math (from `path_util.go`) -/

def EllipsePos (rx ry phi cx cy theta : ℝ) : Point :=
  ⟨cx + rx * Real.cos theta * Real.cos phi - ry * Real.sin theta * Real.sin phi,
   cy + rx * Real.cos theta * Real.sin phi + ry * Real.sin theta * Real.cos phi⟩

def ellipseDeriv (rx ry phi : ℝ) (sweep : Bool) (theta : ℝ) : Point :=
  let dx := -rx * Real.sin theta * Real.cos phi - ry * Real.cos theta * Real.sin phi
  let dy := -rx * Real.sin theta * Real.sin phi + ry * Real.cos theta * Real.cos phi
  if !sweep then ⟨-dx, -dy⟩ else ⟨dx, dy⟩

/-- `ellipseToCenter` converts an endpoint-parametrised arc to the center arc
format, returning (centerX, centerY, angleFrom, angleTo); radians, including
the radius-correction rule and the half-circle fast path. -/
def ellipseToCenter (x1 y1 rx ry phi : ℝ) (large sweep : Bool) (x2 y2 : ℝ) :
    ℝ × ℝ × ℝ × ℝ :=
  if Equal x1 x2 ∧ Equal y1 y2 then (x1, y1, 0, 0)
  else if Equal |x2 - x1| rx ∧ Equal y1 y2 ∧ Equal phi 0 then
    let cx := x1 + (x2 - x1) / 2
    let theta := if x1 < x2 then Real.pi else 0
    let delta := if !sweep then -Real.pi else Real.pi
    (cx, y1, theta, theta + delta)
  else
    let sinphi := Real.sin phi
    let cosphi := Real.cos phi
    let x1p := cosphi * (x1 - x2) / 2 + sinphi * (y1 - y2) / 2
    let y1p := -sinphi * (x1 - x2) / 2 + cosphi * (y1 - y2) / 2
    let radiiCheck := x1p * x1p / rx / rx + y1p * y1p / ry / ry
    let rx := if 1 < radiiCheck then rx * Real.sqrt radiiCheck else rx
    let ry := if 1 < radiiCheck then ry * Real.sqrt radiiCheck else ry
    let sq0 := (rx * rx * ry * ry - rx * rx * y1p * y1p - ry * ry * x1p * x1p) /
      (rx * rx * y1p * y1p + ry * ry * x1p * x1p)
    let sq := if sq0 ≤ Epsilon then 0 else sq0
    let coef := if large = sweep then -Real.sqrt sq else Real.sqrt sq
    let cxp := coef * rx * y1p / ry
    let cyp := coef * (-ry) * x1p / rx
    let cx := cosphi * cxp - sinphi * cyp + (x1 + x2) / 2
    let cy := sinphi * cxp + cosphi * cyp + (y1 + y2) / 2
    let ux := (x1p - cxp) / rx
    let uy := (y1p - cyp) / ry
    let vx := -(x1p + cxp) / rx
    let vy := -(y1p + cyp) / ry
    let theta0 := Real.arccos (ux / Real.sqrt (ux * ux + uy * uy))
    let theta := angleNorm (if uy < 0 then -theta0 else theta0)
    let deltaAcos := min 1 (max (-1)
      ((ux * vx + uy * vy) / Real.sqrt ((ux * ux + uy * uy) * (vx * vx + vy * vy))))
    let delta0 := Real.arccos deltaAcos
    let delta1 := if ux * vy - uy * vx < 0 then -delta0 else delta0
    let delta := if ¬sweep ∧ 0 < delta1 then delta1 - 2 * Real.pi
      else if sweep ∧ delta1 < 0 then delta1 + 2 * Real.pi
      else delta1
    (cx, cy, theta, theta + delta)

/-- Scale factor for ellipse radii that are too small for the chord
(SVG arc-correction rule). -/
def ellipseRadiiCorrection (start : Point) (rx ry phi : ℝ) (endp : Point) : ℝ :=
  let diff := start.Sub endp
  let sinphi := Real.sin phi
  let cosphi := Real.cos phi
  let x1p := (cosphi * diff.X + sinphi * diff.Y) / 2
  let y1p := (-sinphi * diff.X + cosphi * diff.Y) / 2
  Real.sqrt (x1p * x1p / rx / rx + y1p * y1p / ry / ry)

def quadraticBezierPos (p0 p1 p2 : Point) (t : ℝ) : Point :=
  ((p0.Mul (1 - 2 * t + t * t)).Add (p1.Mul (2 * t - 2 * t * t))).Add
    (p2.Mul (t * t))

def quadraticBezierDeriv (p0 p1 p2 : Point) (t : ℝ) : Point :=
  ((p0.Mul (-2 + 2 * t)).Add (p1.Mul (2 - 4 * t))).Add (p2.Mul (2 * t))

def quadraticBezierDeriv2 (p0 p1 p2 : Point) : Point :=
  ((p0.Mul 2).Add (p1.Mul (-4))).Add (p2.Mul 2)

/-- Arc length of a quadratic Bezier; when the quadratic coefficient vanishes
(control point midway and colinear) it is the straight-line distance. -/
def quadraticBezierLength (p0 p1 p2 : Point) : ℝ :=
  let a := (p0.Sub (p1.Mul 2)).Add p2
  let b := (p1.Mul 2).Sub (p0.Mul 2)
  let A := 4 * a.Dot a
  let B := 4 * a.Dot b
  let C := b.Dot b
  if Equal A 0 then (p2.Sub p0).Length
  else
    let Sabc := 2 * Real.sqrt (A + B + C)
    let A2 := Real.sqrt A
    let A32 := 2 * A * A2
    let C2 := 2 * Real.sqrt C
    let BA := B / A2
    (A32 * Sabc + A2 * B * (Sabc - C2) +
      (4 * C * A - B * B) * Real.log ((2 * A2 + BA + Sabc) / (BA + C2))) / (4 * A32)

def cubicBezierPos (p0 p1 p2 p3 : Point) (t : ℝ) : Point :=
  (((p0.Mul (1 - 3 * t + 3 * t * t - t * t * t)).Add
    (p1.Mul (3 * t - 6 * t * t + 3 * t * t * t))).Add
    (p2.Mul (3 * t * t - 3 * t * t * t))).Add (p3.Mul (t * t * t))

def cubicBezierDeriv (p0 p1 p2 p3 : Point) (t : ℝ) : Point :=
  (((p0.Mul (-3 + 6 * t - 3 * t * t)).Add (p1.Mul (3 - 12 * t + 9 * t * t))).Add
    (p2.Mul (6 * t - 9 * t * t))).Add (p3.Mul (3 * t * t))

def cubicBezierDeriv2 (p0 p1 p2 p3 : Point) (t : ℝ) : Point :=
  (((p0.Mul (6 - 6 * t)).Add (p1.Mul (18 * t - 12))).Add
    (p2.Mul (6 - 18 * t))).Add (p3.Mul (6 * t))

def cubicBezierDeriv3 (p0 p1 p2 p3 : Point) : Point :=
  (((p0.Mul (-6)).Add (p1.Mul 18)).Add (p2.Mul (-18))).Add (p3.Mul 6)

/-! ### The packed path command model (from `path.go`) -/

def MoveToCmd : ℝ := 1
def LineToCmd : ℝ := 2
def QuadToCmd : ℝ := 4
def CubeToCmd : ℝ := 8
def ArcToCmd : ℝ := 16
def CloseCmd : ℝ := 32

/-- `cmdLen` returns the number of values (floats) a path command occupies.
The Go code computes this from the float's exponent bits; on the six command
values it yields 4,4,6,8,8,4 (the value on other floats is unspecified; 4 is
used here, which also keeps iteration total). -/
def cmdLen (cmd : ℝ) : ℕ :=
  if cmd = QuadToCmd then 6
  else if cmd = CubeToCmd ∨ cmd = ArcToCmd then 8
  else 4

/-- Convert the packed flag float to the (largeArc, sweep) booleans. -/
def toArcFlags (f : ℝ) : Bool × Bool :=
  (if f = 1 ∨ f = 3 then true else false, if f = 2 ∨ f = 3 then true else false)

/-- Convert the (largeArc, sweep) booleans to the packed flag float. -/
def fromArcFlags (large sweep : Bool) : ℝ :=
  (if large then (1 : ℝ) else 0) + (if sweep then (2 : ℝ) else 0)

/-- A path: the packed command stream, a flat float array. -/
structure Path where
  d : List ℝ

/-- The current position of the path: the end point of the last command. -/
def Path.Pos (p : Path) : Point :=
  if 0 < p.d.length then
    ⟨p.d.getD (p.d.length - 3) 0, p.d.getD (p.d.length - 2) 0⟩
  else ⟨0, 0⟩

lemma cmdLen_pos (cmd : ℝ) : 0 < cmdLen cmd := by
  unfold cmdLen; split_ifs <;> norm_num

lemma four_le_cmdLen (cmd : ℝ) : 4 ≤ cmdLen cmd := by
  unfold cmdLen; split_ifs <;> norm_num

/-- Backward walk used by `StartPos`: scan for the last MoveTo command. -/
def startPosLoop (d : List ℝ) (i : ℕ) : Point :=
  if 0 < i then
    let cmd := d.getD (i - 1) 0
    if cmd = MoveToCmd then ⟨d.getD (i - 3) 0, d.getD (i - 2) 0⟩
    else startPosLoop d (i - cmdLen cmd)
  else ⟨0, 0⟩
termination_by i
decreasing_by have := cmdLen_pos (d.getD (i - 1) 0); omega

/-- The start point of the current subpath: the position of the last MoveTo. -/
def Path.StartPos (p : Path) : Point := startPosLoop p.d p.d.length

/-- MoveTo moves the path to (x,y) without connecting, starting a new subpath;
a MoveTo directly following a MoveTo overwrites it in place. -/
def Path.MoveTo (p : Path) (x y : ℝ) : Path :=
  if 0 < p.d.length ∧ p.d.getD (p.d.length - 1) 0 = MoveToCmd then
    ⟨(p.d.set (p.d.length - 3) x).set (p.d.length - 2) y⟩
  else ⟨p.d ++ [MoveToCmd, x, y, MoveToCmd]⟩

/-- LineTo adds a linear segment to (x,y): a no-op when the endpoint equals the
current position, coalesced into the previous LineTo when it extends it in the
same direction, and otherwise appended (inserting a MoveTo first when the path
is empty or just closed). -/
def Path.LineTo (p : Path) (x y : ℝ) : Path :=
  let start := p.Pos
  let endp : Point := ⟨x, y⟩
  let n := p.d.length
  let prevStart : Point :=
    if cmdLen LineToCmd < n then
      ⟨p.d.getD (n - cmdLen LineToCmd - 3) 0, p.d.getD (n - cmdLen LineToCmd - 2) 0⟩
    else ⟨0, 0⟩
  let da := start.Sub prevStart
  let db := endp.Sub start
  let extends_ : Prop :=
    if da.Y < da.X then ((da.X < 0) ↔ (db.X < 0)) else ((da.Y < 0) ↔ (db.Y < 0))
  if start.Equals endp then p
  else if cmdLen LineToCmd ≤ n ∧ p.d.getD (n - 1) 0 = LineToCmd ∧
      Equal (da.PerpDot db / (da.Length * db.Length)) 0 ∧ extends_ then
    ⟨(p.d.set (n - 3) x).set (n - 2) y⟩
  else
    let q : Path :=
      if n = 0 then p.MoveTo 0 0
      else if p.d.getD (n - 1) 0 = CloseCmd then
        p.MoveTo (p.d.getD (n - 3) 0) (p.d.getD (n - 2) 0)
      else p
    ⟨q.d ++ [LineToCmd, x, y, LineToCmd]⟩

/-- QuadTo adds a quadratic Bezier segment, demoted to LineTo when degenerate
or colinear. -/
def Path.QuadTo (p : Path) (cpx cpy x y : ℝ) : Path :=
  let start := p.Pos
  let cp : Point := ⟨cpx, cpy⟩
  let endp : Point := ⟨x, y⟩
  if start.Equals endp ∧ start.Equals cp then p
  else if ¬start.Equals endp ∧
      (start.Equals cp ∨ angleEqual ((endp.Sub start).AngleBetween (cp.Sub start)) 0) ∧
      (endp.Equals cp ∨ angleEqual ((endp.Sub start).AngleBetween (endp.Sub cp)) 0) then
    p.LineTo endp.X endp.Y
  else
    let q : Path :=
      if p.d.length = 0 then p.MoveTo 0 0
      else if p.d.getD (p.d.length - 1) 0 = CloseCmd then
        p.MoveTo (p.d.getD (p.d.length - 3) 0) (p.d.getD (p.d.length - 2) 0)
      else p
    ⟨q.d ++ [QuadToCmd, cp.X, cp.Y, endp.X, endp.Y, QuadToCmd]⟩

/-- CubeTo adds a cubic Bezier segment, demoted to LineTo when degenerate or
colinear. -/
def Path.CubeTo (p : Path) (cpx1 cpy1 cpx2 cpy2 x y : ℝ) : Path :=
  let start := p.Pos
  let cp1 : Point := ⟨cpx1, cpy1⟩
  let cp2 : Point := ⟨cpx2, cpy2⟩
  let endp : Point := ⟨x, y⟩
  if start.Equals endp ∧ start.Equals cp1 ∧ start.Equals cp2 then p
  else if ¬start.Equals endp ∧
      (start.Equals cp1 ∨ endp.Equals cp1 ∨
        angleEqual ((endp.Sub start).AngleBetween (cp1.Sub start)) 0 ∧
        angleEqual ((endp.Sub start).AngleBetween (endp.Sub cp1)) 0) ∧
      (start.Equals cp2 ∨ endp.Equals cp2 ∨
        angleEqual ((endp.Sub start).AngleBetween (cp2.Sub start)) 0 ∧
        angleEqual ((endp.Sub start).AngleBetween (endp.Sub cp2)) 0) then
    p.LineTo endp.X endp.Y
  else
    let q : Path :=
      if p.d.length = 0 then p.MoveTo 0 0
      else if p.d.getD (p.d.length - 1) 0 = CloseCmd then
        p.MoveTo (p.d.getD (p.d.length - 3) 0) (p.d.getD (p.d.length - 2) 0)
      else p
    ⟨q.d ++ [CubeToCmd, cp1.X, cp1.Y, cp2.X, cp2.Y, endp.X, endp.Y, CubeToCmd]⟩

/-- ArcTo adds an elliptical arc with radii rx,ry and rotation rot (degrees);
a no-op when the endpoint equals the current position, demoted to LineTo when
a radius vanishes (infinite radii do not exist over the reals), and otherwise
canonicalised (radii non-negative with rx >= ry, circles force rotation 0,
rotation normalised into [0,pi), radii scaled up by the SVG correction rule)
and appended. -/
def Path.ArcTo (p : Path) (rx0 ry0 rot0 : ℝ) (large sweep : Bool) (x y : ℝ) : Path :=
  let start := p.Pos
  let endp : Point := ⟨x, y⟩
  if start.Equals endp then p
  else if Equal rx0 0 ∨ Equal ry0 0 then p.LineTo endp.X endp.Y
  else
    let rx1 := |rx0|
    let ry1 := |ry0|
    let rx2 := if Equal rx1 ry1 then rx1 else if rx1 < ry1 then ry1 else rx1
    let ry2 := if Equal rx1 ry1 then ry1 else if rx1 < ry1 then rx1 else ry1
    let rot := if Equal rx1 ry1 then 0 else if rx1 < ry1 then rot0 + 90 else rot0
    let phi0 := angleNorm (rot * Real.pi / 180)
    let phi := if Real.pi ≤ phi0 then phi0 - Real.pi else phi0
    let lam := ellipseRadiiCorrection start rx2 ry2 phi endp
    let rx := if 1 < lam then rx2 * lam else rx2
    let ry := if 1 < lam then ry2 * lam else ry2
    let q : Path :=
      if p.d.length = 0 then p.MoveTo 0 0
      else if p.d.getD (p.d.length - 1) 0 = CloseCmd then
        p.MoveTo (p.d.getD (p.d.length - 3) 0) (p.d.getD (p.d.length - 2) 0)
      else p
    ⟨q.d ++ [ArcToCmd, rx, ry, phi, fromArcFlags large sweep, endp.X, endp.Y, ArcToCmd]⟩

/-- Close closes a subpath with an implicit line to the most recent MoveTo: a
no-op when empty or just closed, removing a bare trailing MoveTo, replacing a
trailing LineTo ending at (or extending straight towards) the subpath start,
and otherwise appending a Close command caching the subpath start point. -/
def Path.Close (p : Path) : Path :=
  let n := p.d.length
  if n = 0 ∨ p.d.getD (n - 1) 0 = CloseCmd then p
  else if p.d.getD (n - 1) 0 = MoveToCmd then ⟨p.d.take (n - cmdLen MoveToCmd)⟩
  else
    let endp := p.StartPos
    if p.d.getD (n - 1) 0 = LineToCmd ∧ Equal (p.d.getD (n - 3) 0) endp.X ∧
        Equal (p.d.getD (n - 2) 0) endp.Y then
      ⟨(p.d.set (n - 1) CloseCmd).set (n - cmdLen LineToCmd) CloseCmd⟩
    else if p.d.getD (n - 1) 0 = LineToCmd ∧
        (let start : Point := ⟨p.d.getD (n - 3) 0, p.d.getD (n - 2) 0⟩
         let prevStart : Point :=
           if cmdLen LineToCmd < n then
             ⟨p.d.getD (n - cmdLen LineToCmd - 3) 0, p.d.getD (n - cmdLen LineToCmd - 2) 0⟩
           else ⟨0, 0⟩
         Equal ((endp.Sub start).AngleBetween (start.Sub prevStart)) 0) then
      ⟨((((p.d.set (n - cmdLen LineToCmd) CloseCmd).set (n - 3) endp.X).set
          (n - 2) endp.Y).set (n - 1) CloseCmd)⟩
    else ⟨p.d ++ [CloseCmd, endp.X, endp.Y, CloseCmd]⟩

/-- A rectangle (xmin, ymin)-(xmax, ymax). -/
structure Rect where
  x0 : ℝ
  y0 : ℝ
  x1 : ℝ
  y1 : ℝ

/-- Loop of `FastBounds`: fold the conservative box over the command stream
(`d` points at the current command; control points of curves are folded in
directly). -/
def fastBoundsLoop (d : List ℝ) (start : Point) (xmin xmax ymin ymax : ℝ) : Rect :=
  if d.length = 0 then ⟨xmin, ymin, xmax, ymax⟩
  else
    let cmd := d.getD 0 0
    let rest := d.drop (cmdLen cmd)
    if cmd = MoveToCmd ∨ cmd = LineToCmd ∨ cmd = CloseCmd then
      let endp : Point := ⟨d.getD 1 0, d.getD 2 0⟩
      fastBoundsLoop rest endp (min xmin endp.X) (max xmax endp.X)
        (min ymin endp.Y) (max ymax endp.Y)
    else if cmd = QuadToCmd then
      let cp : Point := ⟨d.getD 1 0, d.getD 2 0⟩
      let endp : Point := ⟨d.getD 3 0, d.getD 4 0⟩
      fastBoundsLoop rest endp (min xmin (min cp.X endp.X)) (max xmax (max cp.X endp.X))
        (min ymin (min cp.Y endp.Y)) (max ymax (max cp.Y endp.Y))
    else if cmd = CubeToCmd then
      let cp1 : Point := ⟨d.getD 1 0, d.getD 2 0⟩
      let cp2 : Point := ⟨d.getD 3 0, d.getD 4 0⟩
      let endp : Point := ⟨d.getD 5 0, d.getD 6 0⟩
      fastBoundsLoop rest endp
        (min xmin (min cp1.X (min cp2.X endp.X))) (max xmax (max cp1.X (min cp2.X endp.X)))
        (min ymin (min cp1.Y (min cp2.Y endp.Y))) (max ymax (max cp1.Y (min cp2.Y endp.Y)))
    else if cmd = ArcToCmd then
      let rx := d.getD 1 0
      let ry := d.getD 2 0
      let phi := d.getD 3 0
      let flags := toArcFlags (d.getD 4 0)
      let endp : Point := ⟨d.getD 5 0, d.getD 6 0⟩
      let cc := ellipseToCenter start.X start.Y rx ry phi flags.1 flags.2 endp.X endp.Y
      let r := max rx ry
      fastBoundsLoop rest endp (min xmin (cc.1 - r)) (max xmax (cc.1 + r))
        (min ymin (cc.2.1 - r)) (max ymax (cc.2.1 + r))
    else fastBoundsLoop rest start xmin xmax ymin ymax
termination_by d.length
decreasing_by
  all_goals simp only [List.length_drop]
  all_goals have h4 := four_le_cmdLen (d.getD 0 0)
  all_goals omega

/-- FastBounds returns the (intended maximum) bounding box of the path,
quicker than Bounds: it folds in curve control points instead of solving for
extrema. -/
def Path.FastBounds (p : Path) : Rect :=
  if p.d.length < 4 then ⟨0, 0, 0, 0⟩
  else
    let start : Point := ⟨p.d.getD 1 0, p.d.getD 2 0⟩
    fastBoundsLoop (p.d.drop 4) start start.X start.X start.Y start.Y

/-- Fold one exact-extreme update of `Bounds` for a quadratic/cubic root
candidate: include pos(t) when t lies strictly inside (0,1). -/
def boundsAddRoot (t : Option ℝ) (pos : ℝ → ℝ) (mn mx : ℝ) : ℝ × ℝ :=
  match t with
  | none => (mn, mx)
  | some t => if IntervalExclusive t 0 1 then (min mn (pos t), max mx (pos t)) else (mn, mx)

/-- Loop of `Bounds`: fold the exact box over the command stream, solving
derivative = 0 per axis for curves and testing the four extremal ellipse
angles for arcs. -/
def boundsLoop (d : List ℝ) (start : Point) (xmin xmax ymin ymax : ℝ) : Rect :=
  if d.length = 0 then ⟨xmin, ymin, xmax, ymax⟩
  else
    let cmd := d.getD 0 0
    let rest := d.drop (cmdLen cmd)
    if cmd = MoveToCmd ∨ cmd = LineToCmd ∨ cmd = CloseCmd then
      let endp : Point := ⟨d.getD 1 0, d.getD 2 0⟩
      boundsLoop rest endp (min xmin endp.X) (max xmax endp.X)
        (min ymin endp.Y) (max ymax endp.Y)
    else if cmd = QuadToCmd then
      let cp : Point := ⟨d.getD 1 0, d.getD 2 0⟩
      let endp : Point := ⟨d.getD 3 0, d.getD 4 0⟩
      let xdenom := start.X - 2 * cp.X + endp.X
      let tx := (start.X - cp.X) / xdenom
      let xhit := ¬Equal xdenom 0 ∧ IntervalExclusive tx 0 1
      let xmin1 := if xhit then min (min xmin endp.X) (quadraticBezierPos start cp endp tx).X
        else min xmin endp.X
      let xmax1 := if xhit then max (max xmax endp.X) (quadraticBezierPos start cp endp tx).X
        else max xmax endp.X
      let ydenom := start.Y - 2 * cp.Y + endp.Y
      let ty := (start.Y - cp.Y) / ydenom
      let yhit := ¬Equal ydenom 0 ∧ IntervalExclusive ty 0 1
      let ymin1 := if yhit then min (min ymin endp.Y) (quadraticBezierPos start cp endp ty).Y
        else min ymin endp.Y
      let ymax1 := if yhit then max (max ymax endp.Y) (quadraticBezierPos start cp endp ty).Y
        else max ymax endp.Y
      boundsLoop rest endp xmin1 xmax1 ymin1 ymax1
    else if cmd = CubeToCmd then
      let cp1 : Point := ⟨d.getD 1 0, d.getD 2 0⟩
      let cp2 : Point := ⟨d.getD 3 0, d.getD 4 0⟩
      let endp : Point := ⟨d.getD 5 0, d.getD 6 0⟩
      let xts := solveQuadraticFormula (-start.X + 3 * cp1.X - 3 * cp2.X + endp.X)
        (2 * start.X - 4 * cp1.X + 2 * cp2.X) (-start.X + cp1.X)
      let xr1 := boundsAddRoot xts.1 (fun t => (cubicBezierPos start cp1 cp2 endp t).X)
        (min xmin endp.X) (max xmax endp.X)
      let xr2 := boundsAddRoot xts.2 (fun t => (cubicBezierPos start cp1 cp2 endp t).X)
        xr1.1 xr1.2
      let yts := solveQuadraticFormula (-start.Y + 3 * cp1.Y - 3 * cp2.Y + endp.Y)
        (2 * start.Y - 4 * cp1.Y + 2 * cp2.Y) (-start.Y + cp1.Y)
      let yr1 := boundsAddRoot yts.1 (fun t => (cubicBezierPos start cp1 cp2 endp t).Y)
        (min ymin endp.Y) (max ymax endp.Y)
      let yr2 := boundsAddRoot yts.2 (fun t => (cubicBezierPos start cp1 cp2 endp t).Y)
        yr1.1 yr1.2
      boundsLoop rest endp xr2.1 xr2.2 yr2.1 yr2.2
    else if cmd = ArcToCmd then
      let rx := d.getD 1 0
      let ry := d.getD 2 0
      let phi := d.getD 3 0
      let flags := toArcFlags (d.getD 4 0)
      let endp : Point := ⟨d.getD 5 0, d.getD 6 0⟩
      let cc := ellipseToCenter start.X start.Y rx ry phi flags.1 flags.2 endp.X endp.Y
      let cx := cc.1
      let cy := cc.2.1
      let theta0 := cc.2.2.1
      let theta1 := cc.2.2.2
      let sinphi := Real.sin phi
      let cosphi := Real.cos phi
      let thetaRight := atan2 (-ry * sinphi) (rx * cosphi)
      let thetaTop := atan2 (rx * cosphi) (ry * sinphi)
      let thetaLeft := thetaRight + Real.pi
      let thetaBottom := thetaTop + Real.pi
      let dx := Real.sqrt (rx * rx * cosphi * cosphi + ry * ry * sinphi * sinphi)
      let dy := Real.sqrt (rx * rx * sinphi * sinphi + ry * ry * cosphi * cosphi)
      let xmin1 := if angleBetween thetaLeft theta0 theta1 then min xmin (cx - dx) else xmin
      let xmax1 := if angleBetween thetaRight theta0 theta1 then max xmax (cx + dx) else xmax
      let ymin1 := if angleBetween thetaBottom theta0 theta1 then min ymin (cy - dy) else ymin
      let ymax1 := if angleBetween thetaTop theta0 theta1 then max ymax (cy + dy) else ymax
      boundsLoop rest endp (min xmin1 endp.X) (max xmax1 endp.X)
        (min ymin1 endp.Y) (max ymax1 endp.Y)
    else boundsLoop rest start xmin xmax ymin ymax
termination_by d.length
decreasing_by
  all_goals simp only [List.length_drop]
  all_goals have h4 := four_le_cmdLen (d.getD 0 0)
  all_goals omega

/-- Bounds returns the exact bounding box of the path. -/
def Path.Bounds (p : Path) : Rect :=
  if p.d.length < 4 then ⟨0, 0, 0, 0⟩
  else
    let start : Point := ⟨p.d.getD 1 0, p.d.getD 2 0⟩
    boundsLoop (p.d.drop 4) start start.X start.X start.Y start.Y

/-! ### The intersection engine (from the intersection source file) -/

/-- An intersection between two path segments: position, per-segment
parameters T in [0,1], per-segment direction angles, the tangent flag
(touches instead of crosses) and the same flag (part of an overlapping run).
The Go `T [2]float64` and `Dir [2]float64` arrays are split into the fields
T0/T1 and Dir0/Dir1. -/
structure Intersection where
  Pos : Point
  T0 : ℝ
  T1 : ℝ
  Dir0 : ℝ
  Dir1 : ℝ
  Tangent : Prop
  Same : Prop

/-- Into returns true if the first path goes into the left-hand side of the
second path. -/
def Intersection.Into (z : Intersection) : Prop :=
  angleBetweenExclusive (z.Dir1 - z.Dir0) Real.pi (2 * Real.pi)

abbrev Intersections : Type := List Intersection

def Intersections.length (zs : Intersections) : ℕ := List.length zs

/-- Append an intersection, normalising the T values into [0,1]. -/
def Intersections.add (zs : Intersections) (pos : Point) (ta tb dira dirb : ℝ)
    (tangent same : Prop) : Intersections :=
  let ta2 := if ta < 0 then 0 else if 1 ≤ ta then 1 else ta
  let tb2 := if tb < 0 then 0 else if 1 < tb then 1 else tb
  List.append zs [⟨pos, ta2, tb2, dira, dirb, tangent, same⟩]

/-- Line-line intersection, including the coincident/overlapping runs which
are emitted as up to two `Same` tangent intersections, and the endpoint
special cases. -/
def intersectionLineLine (zs : Intersections) (a0 a1 b0 b1 : Point) : Intersections :=
  if a0.Equals a1 ∨ b0.Equals b1 then zs
  else
    let da := a1.Sub a0
    let db := b1.Sub b0
    let anglea := da.Angle
    let angleb := db.Angle
    let div := da.PerpDot db
    if Equal (div / (da.Length * db.Length)) 0 then
      if Equal ((b0.Sub a0).PerpDot db) 0 then
        let a := (a0.Rot (-anglea) Origin).X
        let b := (a1.Rot (-anglea) Origin).X
        let c := (b0.Rot (-anglea) Origin).X
        let d := (b1.Rot (-anglea) Origin).X
        if Interval a c d ∧ Interval b c d then
          Intersections.add (Intersections.add zs a0 0 ((a - c) / (d - c)) anglea angleb True True)
            a1 1 ((b - c) / (d - c)) anglea angleb True True
        else if Interval c a b ∧ Interval d a b then
          Intersections.add (Intersections.add zs b0 ((c - a) / (b - a)) 0 anglea angleb True True)
            b1 ((d - a) / (b - a)) 1 anglea angleb True True
        else if Interval a c d then
          let same : Prop := a < d - Epsilon ∨ a < c - Epsilon
          let zs1 := Intersections.add zs a0 0 ((a - c) / (d - c)) anglea angleb True same
          if a < d - Epsilon then
            Intersections.add zs1 b1 ((d - a) / (b - a)) 1 anglea angleb True True
          else if a < c - Epsilon then
            Intersections.add zs1 b0 ((c - a) / (b - a)) 0 anglea angleb True True
          else zs1
        else if Interval b c d then
          let same : Prop := c < b - Epsilon ∨ d < b - Epsilon
          let zs1 :=
            if c < b - Epsilon then
              Intersections.add zs b0 ((c - a) / (b - a)) 0 anglea angleb True True
            else if d < b - Epsilon then
              Intersections.add zs b1 ((d - a) / (b - a)) 1 anglea angleb True True
            else zs
          Intersections.add zs1 a1 1 ((b - c) / (d - c)) anglea angleb True same
        else zs
      else zs
    else if a1.Equals b0 then Intersections.add zs a1 1 0 anglea angleb True False
    else if a0.Equals b1 then Intersections.add zs a0 0 1 anglea angleb True False
    else
      let ta := db.PerpDot (a0.Sub b0) / div
      let tb := da.PerpDot (a0.Sub b0) / div
      if Interval ta 0 1 ∧ Interval tb 0 1 then
        let tangent : Prop := Equal ta 0 ∨ Equal ta 1 ∨ Equal tb 0 ∨ Equal tb 1
        Intersections.add zs (a0.Interpolate a1 ta) ta tb anglea angleb tangent False
      else zs

/-- Line-quadratic-Bezier intersection via the quadratic root polynomial,
deviating aligned endpoint angles slightly to set `Into` correctly. -/
def intersectionLineQuad (zs : Intersections) (l0 l1 p0 p1 p2 : Point) : Intersections :=
  if l0.Equals l1 then zs
  else
    let A : Point := ⟨l1.Y - l0.Y, l0.X - l1.X⟩
    let bias := l0.Dot A
    let a := A.Dot ((p0.Sub (p1.Mul 2)).Add p2)
    let b := A.Dot ((p1.Sub p0).Mul 2)
    let c := A.Dot p0 - bias
    let roots : List ℝ :=
      match solveQuadraticFormula a b c with
      | (none, _) => []
      | (some r0, none) => [r0]
      | (some r0, some r1) => [r0, r1]
    let dira := (l1.Sub l0).Angle
    let horizontal : Prop := |l1.Y - l0.Y| ≤ |l1.X - l0.X|
    roots.foldl (fun zs root =>
      if Interval root 0 1 then
        let pos := quadraticBezierPos p0 p1 p2 root
        let s := if horizontal then (pos.X - l0.X) / (l1.X - l0.X)
          else (pos.Y - l0.Y) / (l1.Y - l0.Y)
        if Interval s 0 1 then
          let deriv := quadraticBezierDeriv p0 p1 p2 root
          let dirb0 := deriv.Angle
          let endpoint : Prop := Equal root 0 ∨ Equal root 1 ∨ Equal s 0 ∨ Equal s 1
          let dirb :=
            if endpoint then
              (if (0 ≤ deriv.PerpDot (quadraticBezierDeriv2 p0 p1 p2)) ↔
                  (Equal root 0 ∨ (¬Equal root 1 ∧ Equal s 0)) then
                angleNorm (dirb0 + Epsilon * 2)
              else angleNorm (dirb0 - Epsilon * 2))
            else dirb0
          Intersections.add zs pos s root dira dirb
            (endpoint ∨ Equal (A.Dot deriv) 0) False
        else zs
      else zs) zs

/-- Line-cubic-Bezier intersection via the cubic root polynomial, with the
endpoint and inflection-point angle deviations. -/
def intersectionLineCube (zs : Intersections) (l0 l1 p0 p1 p2 p3 : Point) : Intersections :=
  if l0.Equals l1 then zs
  else
    let A : Point := ⟨l1.Y - l0.Y, l0.X - l1.X⟩
    let bias := l0.Dot A
    let a := A.Dot (((p3.Sub p0).Add (p1.Mul 3)).Sub (p2.Mul 3))
    let b := A.Dot (((p0.Mul 3).Sub (p1.Mul 6)).Add (p2.Mul 3))
    let c := A.Dot ((p1.Mul 3).Sub (p0.Mul 3))
    let d := A.Dot p0 - bias
    let roots : List ℝ :=
      match solveCubicFormula a b c d with
      | (none, _, _) => []
      | (some r0, none, _) => [r0]
      | (some r0, some r1, none) => [r0, r1]
      | (some r0, some r1, some r2) => [r0, r1, r2]
    let dira := (l1.Sub l0).Angle
    let horizontal : Prop := |l1.Y - l0.Y| ≤ |l1.X - l0.X|
    roots.foldl (fun zs root =>
      if Interval root 0 1 then
        let pos := cubicBezierPos p0 p1 p2 p3 root
        let s := if horizontal then (pos.X - l0.X) / (l1.X - l0.X)
          else (pos.Y - l0.Y) / (l1.Y - l0.Y)
        if Interval s 0 1 then
          let deriv := cubicBezierDeriv p0 p1 p2 p3 root
          let dirb0 := deriv.Angle
          let tangent0 : Prop := Equal (A.Dot deriv) 0
          let endpoint : Prop := Equal root 0 ∨ Equal root 1 ∨ Equal s 0 ∨ Equal s 1
          let deriv2 := cubicBezierDeriv2 p0 p1 p2 p3 root
          let dirb :=
            if endpoint then
              (if (0 ≤ deriv.PerpDot deriv2) ↔
                  (Equal root 0 ∨ (¬Equal root 1 ∧ Equal s 0)) then
                dirb0 + Epsilon * 2
              else dirb0 - Epsilon * 2)
            else if angleEqual dira dirb0 ∨ angleEqual dira (dirb0 + Real.pi) then
              (if Equal deriv2.X 0 ∧ Equal deriv2.Y 0 then
                (if 0 < deriv.PerpDot (cubicBezierDeriv3 p0 p1 p2 p3) then
                  angleNorm (dirb0 + Epsilon * 2)
                else angleNorm (dirb0 - Epsilon * 2))
              else dirb0)
            else dirb0
          let tangent : Prop :=
            if ¬endpoint ∧ (angleEqual dira dirb0 ∨ angleEqual dira (dirb0 + Real.pi)) ∧
                Equal deriv2.X 0 ∧ Equal deriv2.Y 0 then False
            else tangent0
          Intersections.add zs pos s root dira dirb (endpoint ∨ tangent) False
        else zs
      else zs) zs

/-- Handle line-arc intersections and their angle peculiarities. -/
def addLineArcIntersection (zs : Intersections) (pos : Point) (dira dirb0 t t0 t1
    angle0 theta0 theta1 : ℝ) (tangent : Prop) : Intersections :=
  let angle :=
    if theta0 ≤ theta1 then theta0 - Epsilon + angleNorm (angle0 - theta0 + Epsilon)
    else theta1 - Epsilon + angleNorm (angle0 - theta1 + Epsilon)
  let endpoint : Prop := Equal t t0 ∨ Equal t t1 ∨ Equal angle theta0 ∨ Equal angle theta1
  let dirb :=
    if endpoint then
      (if (theta0 ≤ theta1) ↔ (Equal angle theta0 ∨ (¬Equal angle theta1 ∧ Equal t t0)) then
        angleNorm (dirb0 + Epsilon * 2)
      else angleNorm (dirb0 - Epsilon * 2))
    else dirb0
  let t2 := if Equal t t0 then 0 else if Equal t t1 then 1 else (t - t0) / (t1 - t0)
  let s := if Equal angle theta0 then 0 else if Equal angle theta1 then 1
    else (angle - theta0) / (theta1 - theta0)
  Intersections.add zs pos t2 s dira dirb (endpoint ∨ tangent) False

/-- Line-circle intersection with endpoint snapping of the closest root. -/
def intersectionLineCircle (zs : Intersections) (l0 l1 center : Point)
    (radius theta0 theta1 : ℝ) : Intersections :=
  if l0.Equals l1 then zs
  else
    let dir := l1.Sub l0
    let diff := l0.Sub center
    let length := dir.Length
    let D := dir.Div length
    let b := 2 * D.Dot diff
    let c := diff.Dot diff - radius * radius
    let roots0 : List ℝ :=
      match solveQuadraticFormula 1 b c with
      | (none, _) => []
      | (some r0, none) => [r0]
      | (some r0, some r1) => if ¬Equal r0 r1 then [r0, r1] else [r0]
    let roots1 :=
      if roots0.length ≠ 0 ∧ Equal (l0.Sub center).Length radius then
        (if roots0.length = 1 ∨ |roots0.getD 0 0| < |roots0.getD 1 0| then roots0.set 0 0
         else roots0.set 1 0)
      else roots0
    let roots2 :=
      if roots1.length ≠ 0 ∧ Equal (l1.Sub center).Length radius then
        (if roots1.length = 1 ∨ |roots1.getD 0 0 - length| < |roots1.getD 1 0 - length| then
          roots1.set 0 length
         else roots1.set 1 length)
      else roots1
    let dira := dir.Angle
    let tangent : Prop := roots0.length = 1
    roots2.foldl (fun zs root =>
      let pos := diff.Add (dir.Mul (root / length))
      let angle := atan2 (pos.Y * radius) (pos.X * radius)
      if Interval root 0 length ∧ angleBetween angle theta0 theta1 then
        let pos2 := center.Add pos
        let sweep : Bool := if theta0 ≤ theta1 then true else false
        let dirb := (ellipseDeriv radius radius 0 sweep angle).Angle
        addLineArcIntersection zs pos2 dira dirb root 0 length angle theta0 theta1 tangent
      else zs) zs

/-- Line-ellipse intersection: circles take the direct path, ellipses are
centre-translated and counter-rotated first. -/
def intersectionLineEllipse (zs : Intersections) (l0 l1 center radius : Point)
    (phi theta0 theta1 : ℝ) : Intersections :=
  if Equal radius.X radius.Y then
    intersectionLineCircle zs l0 l1 center radius.X theta0 theta1
  else if l0.Equals l1 then zs
  else
    let dira := (l1.Sub l0).Angle
    let m0 := (l0.Sub center).Rot (-phi) Origin
    let m1 := (l1.Sub center).Rot (-phi) Origin
    let c := m0.Y - m1.Y
    let d := m1.X - m0.X
    let e := m0.PerpDot m1
    let horizontal : Prop := |c| ≤ |d|
    let ra := radius.X * radius.X
    let rb := radius.Y * radius.Y
    let A := ra * c * c + rb * d * d
    let B := if horizontal then 2 * ra * c * e else 2 * rb * d * e
    let C := if horizontal then ra * e * e - ra * rb * d * d else rb * e * e - ra * rb * c * c
    let roots : List ℝ :=
      match solveQuadraticFormula A B C with
      | (none, _) => []
      | (some r0, none) => [r0]
      | (some r0, some r1) => if ¬Equal r0 r1 then [r0, r1] else [r0]
    roots.foldl (fun zs root =>
      let x := if horizontal then root else -e / c - d * root / c
      let y := if horizontal then -e / d - c * root / d else root
      let t0 := if horizontal then m0.X else m0.Y
      let t1 := if horizontal then m1.X else m1.Y
      let tangent : Prop := Equal root 0
      let angle := atan2 (y * radius.X) (x * radius.Y)
      if Interval root t0 t1 ∧ angleBetween angle theta0 theta1 then
        let pos := ((⟨x, y⟩ : Point).Rot phi Origin).Add center
        let sweep : Bool := if theta0 ≤ theta1 then true else false
        let dirb := (ellipseDeriv radius.X radius.Y phi sweep angle).Angle
        addLineArcIntersection zs pos dira dirb root t0 t1 angle theta0 theta1 tangent
      else zs) zs

/-- The direction angle along an arc at ellipse angle theta. -/
def arcAngle (theta : ℝ) (sweep : Prop) : ℝ :=
  angleNorm (theta + Real.pi / 2 - (if sweep then 0 else Real.pi))

/-- The supported (circle-circle) part of the ellipse-ellipse solver:
coincident circles emit up to two `Same` intersections bounding the
overlapping run, distinct circles up to two secant/tangent intersections. -/
def intersectionEllipseEllipseCircular (zs : Intersections) (c0 r0 : Point)
    (phi0 thetaStart0 thetaEnd0 : ℝ) (c1 r1 : Point)
    (phi1 thetaStart1 thetaEnd1 : ℝ) : Intersections :=
  let dtheta0 := thetaEnd0 - thetaStart0
  let ts0 := angleNorm (thetaStart0 + phi0)
  let te0 := ts0 + dtheta0
  let dtheta1 := thetaEnd1 - thetaStart1
  let ts1 := angleNorm (thetaStart1 + phi1)
  let te1 := ts1 + dtheta1
  if c0.Equals c1 ∧ r0.Equals r1 then
    let flip : Prop := ¬((0 ≤ dtheta0) ↔ (0 ≤ dtheta1))
    let tOffset1 : ℝ := if flip then 1 else 0
    let dirOffset1 : ℝ := if flip then Real.pi else 0
    let us1 := if flip then te1 else ts1
    let ue1 := if flip then ts1 else te1
    let zs1 :=
      if Interval (angleTime ts0 us1 ue1) 0 1 then
        Intersections.add zs (EllipsePos r0.X r0.Y 0 c0.X c0.Y ts0) 0
          |angleTime ts0 us1 ue1 - tOffset1| (arcAngle ts0 (0 ≤ dtheta0))
          (angleNorm (arcAngle ts0 (0 ≤ dtheta0) + dirOffset1)) True True
      else zs
    let zs2 :=
      if IntervalExclusive (angleTime us1 ts0 te0) 0 1 then
        Intersections.add zs1 (EllipsePos r0.X r0.Y 0 c0.X c0.Y us1)
          (angleTime us1 ts0 te0) tOffset1 (arcAngle us1 (0 ≤ dtheta0))
          (angleNorm (arcAngle us1 (0 ≤ dtheta0) + dirOffset1)) True True
      else zs1
    let zs3 :=
      if IntervalExclusive (angleTime ue1 ts0 te0) 0 1 then
        Intersections.add zs2 (EllipsePos r0.X r0.Y 0 c0.X c0.Y ue1)
          (angleTime ue1 ts0 te0) (1 - tOffset1) (arcAngle ue1 (0 ≤ dtheta0))
          (angleNorm (arcAngle ue1 (0 ≤ dtheta0) + dirOffset1)) True True
      else zs2
    let zs4 :=
      if Interval (angleTime te0 us1 ue1) 0 1 then
        Intersections.add zs3 (EllipsePos r0.X r0.Y 0 c0.X c0.Y te0) 1
          |angleTime te0 us1 ue1 - tOffset1| (arcAngle te0 (0 ≤ dtheta0))
          (angleNorm (arcAngle te0 (0 ≤ dtheta0) + dirOffset1)) True True
      else zs3
    zs4
  else
    let R := (c0.Sub c1).Length
    if R < |r0.X - r1.X| ∨ r0.X + r1.X < R then zs
    else
      let R2 := R * R
      let k := r0.X * r0.X - r1.X * r1.X
      let a := (0.5 : ℝ)
      let b := 0.5 * k / R2
      let c := 0.5 * Real.sqrt (2 * (r0.X * r0.X + r1.X * r1.X) / R2 - k * k / (R2 * R2) - 1)
      let mid := (c1.Sub c0).Mul (a + b)
      let dev := (⟨c1.Y - c0.Y, c0.X - c1.X⟩ : Point).Mul c
      let tangent : Prop := dev.Equals ⟨0, 0⟩
      let anglea0 := (mid.Add dev).Angle
      let anglea1 := (((c0.Sub c1).Add mid).Add dev).Angle
      let ta0 := angleTime anglea0 ts0 te0
      let ta1 := angleTime anglea1 ts1 te1
      let zs1 :=
        if Interval ta0 0 1 ∧ Interval ta1 0 1 then
          let endpoint : Prop := Equal ta0 0 ∨ Equal ta0 1 ∨ Equal ta1 0 ∨ Equal ta1 1
          Intersections.add zs ((c0.Add mid).Add dev) ta0 ta1
            (arcAngle anglea0 (0 ≤ dtheta0)) (arcAngle anglea1 (0 ≤ dtheta1))
            (tangent ∨ endpoint) False
        else zs
      if ¬tangent then
        let angleb0 := (mid.Sub dev).Angle
        let angleb1 := (((c0.Sub c1).Add mid).Sub dev).Angle
        let tb0 := angleTime angleb0 ts0 te0
        let tb1 := angleTime angleb1 ts1 te1
        if Interval tb0 0 1 ∧ Interval tb1 0 1 then
          let endpoint : Prop := Equal tb0 0 ∨ Equal tb0 1 ∨ Equal tb1 0 ∨ Equal tb1 1
          Intersections.add zs1 ((c0.Add mid).Sub dev) tb0 tb1
            (arcAngle angleb0 (0 ≤ dtheta0)) (arcAngle angleb1 (0 ≤ dtheta1))
            endpoint False
        else zs1
      else zs1

/-- The ellipse-ellipse solver: only circular arcs are handled; genuine
ellipses hit a fatal `panic("not handled")`, embedded as an error. -/
def intersectionEllipseEllipse (zs : Intersections) (c0 r0 : Point)
    (phi0 thetaStart0 thetaEnd0 : ℝ) (c1 r1 : Point)
    (phi1 thetaStart1 thetaEnd1 : ℝ) : Except String Intersections :=
  if ¬Equal r0.X r0.Y ∨ ¬Equal r1.X r1.Y then Except.error "not handled"
  else Except.ok (intersectionEllipseEllipseCircular zs c0 r0 phi0 thetaStart0 thetaEnd0
    c1 r1 phi1 thetaStart1 thetaEnd1)

/-- Swap the A and B roles of the intersections appended after index `n`. -/
def swapIntersectionsFrom (n : ℕ) (zs : Intersections) : Intersections :=
  List.append (List.take n zs)
    ((List.drop n zs).map (fun z => ⟨z.Pos, z.T1, z.T0, z.Dir1, z.Dir0, z.Tangent, z.Same⟩))

/-- `intersectionSegment` intersects path segments `a` (starting at `a0`) and
`b` (starting at `b0`), dispatching on the segment-kind pair; the unsupported
quad/cube versus quad/cube/arc combinations are fatal panics, embedded as
errors. -/
def intersectionSegment (zs : Intersections) (a0 : Point) (a : List ℝ)
    (b0 : Point) (b : List ℝ) : Except String Intersections :=
  let n := Intersections.length zs
  if a.getD 0 0 = LineToCmd ∨ a.getD 0 0 = CloseCmd then
    if b.getD 0 0 = LineToCmd ∨ b.getD 0 0 = CloseCmd then
      Except.ok (intersectionLineLine zs a0 ⟨a.getD 1 0, a.getD 2 0⟩ b0 ⟨b.getD 1 0, b.getD 2 0⟩)
    else if b.getD 0 0 = QuadToCmd then
      Except.ok (intersectionLineQuad zs a0 ⟨a.getD 1 0, a.getD 2 0⟩ b0
        ⟨b.getD 1 0, b.getD 2 0⟩ ⟨b.getD 3 0, b.getD 4 0⟩)
    else if b.getD 0 0 = CubeToCmd then
      Except.ok (intersectionLineCube zs a0 ⟨a.getD 1 0, a.getD 2 0⟩ b0
        ⟨b.getD 1 0, b.getD 2 0⟩ ⟨b.getD 3 0, b.getD 4 0⟩ ⟨b.getD 5 0, b.getD 6 0⟩)
    else if b.getD 0 0 = ArcToCmd then
      let rx := b.getD 1 0
      let ry := b.getD 2 0
      let phi := b.getD 3 0 * Real.pi / 180
      let flags := toArcFlags (b.getD 4 0)
      let cc := ellipseToCenter b0.X b0.Y rx ry phi flags.1 flags.2 (b.getD 5 0) (b.getD 6 0)
      Except.ok (intersectionLineEllipse zs a0 ⟨a.getD 1 0, a.getD 2 0⟩
        ⟨cc.1, cc.2.1⟩ ⟨rx, ry⟩ phi cc.2.2.1 cc.2.2.2)
    else Except.ok zs
  else if a.getD 0 0 = QuadToCmd then
    if b.getD 0 0 = LineToCmd ∨ b.getD 0 0 = CloseCmd then
      Except.ok (swapIntersectionsFrom n (intersectionLineQuad zs b0
        ⟨b.getD 1 0, b.getD 2 0⟩ a0 ⟨a.getD 1 0, a.getD 2 0⟩ ⟨a.getD 3 0, a.getD 4 0⟩))
    else if b.getD 0 0 = QuadToCmd then Except.error "unsupported intersection for quad-quad"
    else if b.getD 0 0 = CubeToCmd then Except.error "unsupported intersection for quad-cube"
    else if b.getD 0 0 = ArcToCmd then Except.error "unsupported intersection for quad-arc"
    else Except.ok zs
  else if a.getD 0 0 = CubeToCmd then
    if b.getD 0 0 = LineToCmd ∨ b.getD 0 0 = CloseCmd then
      Except.ok (swapIntersectionsFrom n (intersectionLineCube zs b0
        ⟨b.getD 1 0, b.getD 2 0⟩ a0 ⟨a.getD 1 0, a.getD 2 0⟩ ⟨a.getD 3 0, a.getD 4 0⟩
        ⟨a.getD 5 0, a.getD 6 0⟩))
    else if b.getD 0 0 = QuadToCmd then Except.error "unsupported intersection for cube-quad"
    else if b.getD 0 0 = CubeToCmd then Except.error "unsupported intersection for cube-cube"
    else if b.getD 0 0 = ArcToCmd then Except.error "unsupported intersection for cube-arc"
    else Except.ok zs
  else if a.getD 0 0 = ArcToCmd then
    let rx := a.getD 1 0
    let ry := a.getD 2 0
    let phi := a.getD 3 0 * Real.pi / 180
    let flags := toArcFlags (a.getD 4 0)
    let cc := ellipseToCenter a0.X a0.Y rx ry phi flags.1 flags.2 (a.getD 5 0) (a.getD 6 0)
    if b.getD 0 0 = LineToCmd ∨ b.getD 0 0 = CloseCmd then
      Except.ok (swapIntersectionsFrom n (intersectionLineEllipse zs b0
        ⟨b.getD 1 0, b.getD 2 0⟩ ⟨cc.1, cc.2.1⟩ ⟨rx, ry⟩ phi cc.2.2.1 cc.2.2.2))
    else if b.getD 0 0 = QuadToCmd then Except.error "unsupported intersection for arc-quad"
    else if b.getD 0 0 = CubeToCmd then Except.error "unsupported intersection for arc-cube"
    else if b.getD 0 0 = ArcToCmd then
      let rx2 := b.getD 1 0
      let ry2 := b.getD 2 0
      let phi2 := b.getD 3 0 * Real.pi / 180
      let flags2 := toArcFlags (b.getD 4 0)
      let cc2 := ellipseToCenter b0.X b0.Y rx2 ry2 phi2 flags2.1 flags2.2
        (b.getD 5 0) (b.getD 6 0)
      intersectionEllipseEllipse zs ⟨cc.1, cc.2.1⟩ ⟨rx, ry⟩ phi cc.2.2.1 cc.2.2.2
        ⟨cc2.1, cc2.2.1⟩ ⟨rx2, ry2⟩ phi2 cc2.2.2.1 cc2.2.2.2
    else Except.ok zs
  else Except.ok zs

/-! ### Winding queries (from `path.go`), with the ray cast modelled from the
spec -/

/-- Loop of `Split`: cut the raw stream before each MoveTo command. -/
def splitLoop (d : List ℝ) (i j : ℕ) (ps : List Path) : List Path :=
  if j < d.length then
    let cmd := d.getD j 0
    if i < j ∧ cmd = MoveToCmd then
      splitLoop d j (j + cmdLen cmd) (ps ++ [⟨(d.drop i).take (j - i)⟩])
    else splitLoop d i (j + cmdLen cmd) ps
  else if i + cmdLen MoveToCmd < j then ps ++ [⟨(d.drop i).take (j - i)⟩]
  else ps
termination_by d.length - j
decreasing_by
  all_goals have h4 := cmdLen_pos (d.getD j 0)
  all_goals omega

/-- Split splits the path into its independent subpaths. -/
def Path.Split (p : Path) : List Path := splitLoop p.d 0 0 []

/-- Modelled from the spec: loop of the horizontal ray cast.  For each segment
whose bounding range admits the ray from (x,y) towards (+inf,y), the matching
line-segment solver is invoked; intersections are accumulated in path order,
i.e. the list is parameter-sorted along the path. -/
def rayLoop (x y : ℝ) (d : List ℝ) (start : Point) (zs : Intersections) : Intersections :=
  if d.length = 0 then zs
  else
    let cmd := d.getD 0 0
    let rest := d.drop (cmdLen cmd)
    if cmd = MoveToCmd then rayLoop x y rest ⟨d.getD 1 0, d.getD 2 0⟩ zs
    else if cmd = LineToCmd ∨ cmd = CloseCmd then
      let endp : Point := ⟨d.getD 1 0, d.getD 2 0⟩
      let ymin := min start.Y endp.Y
      let ymax := max start.Y endp.Y
      let xmax := max start.X endp.X
      let zs1 :=
        if Interval y ymin ymax ∧ x ≤ xmax + Epsilon then
          intersectionLineLine zs ⟨x, y⟩ ⟨xmax + 1, y⟩ start endp
        else zs
      rayLoop x y rest endp zs1
    else if cmd = QuadToCmd then
      let cp : Point := ⟨d.getD 1 0, d.getD 2 0⟩
      let endp : Point := ⟨d.getD 3 0, d.getD 4 0⟩
      let ymin := min (min start.Y endp.Y) cp.Y
      let ymax := max (max start.Y endp.Y) cp.Y
      let xmax := max (max start.X endp.X) cp.X
      let zs1 :=
        if Interval y ymin ymax ∧ x ≤ xmax + Epsilon then
          intersectionLineQuad zs ⟨x, y⟩ ⟨xmax + 1, y⟩ start cp endp
        else zs
      rayLoop x y rest endp zs1
    else if cmd = CubeToCmd then
      let cp1 : Point := ⟨d.getD 1 0, d.getD 2 0⟩
      let cp2 : Point := ⟨d.getD 3 0, d.getD 4 0⟩
      let endp : Point := ⟨d.getD 5 0, d.getD 6 0⟩
      let ymin := min (min (min start.Y endp.Y) cp1.Y) cp2.Y
      let ymax := max (max (max start.Y endp.Y) cp1.Y) cp2.Y
      let xmax := max (max (max start.X endp.X) cp1.X) cp2.X
      let zs1 :=
        if Interval y ymin ymax ∧ x ≤ xmax + Epsilon then
          intersectionLineCube zs ⟨x, y⟩ ⟨xmax + 1, y⟩ start cp1 cp2 endp
        else zs
      rayLoop x y rest endp zs1
    else if cmd = ArcToCmd then
      let rx := d.getD 1 0
      let ry := d.getD 2 0
      let phi := d.getD 3 0
      let flags := toArcFlags (d.getD 4 0)
      let endp : Point := ⟨d.getD 5 0, d.getD 6 0⟩
      let cc := ellipseToCenter start.X start.Y rx ry phi flags.1 flags.2 endp.X endp.Y
      let r := max rx ry
      let zs1 :=
        if Interval y (cc.2.1 - r) (cc.2.1 + r) ∧ x ≤ cc.1 + r + Epsilon then
          intersectionLineEllipse zs ⟨x, y⟩ ⟨cc.1 + r + 1, y⟩ ⟨cc.1, cc.2.1⟩ ⟨rx, ry⟩
            phi cc.2.2.1 cc.2.2.2
        else zs
      rayLoop x y rest endp zs1
    else rayLoop x y rest start zs
termination_by d.length
decreasing_by
  all_goals simp only [List.length_drop]
  all_goals have h4 := four_le_cmdLen (d.getD 0 0)
  all_goals omega

/-- Stable insertion (an earlier intersection stays before later ones with
the same ray parameter). -/
def insertByT0 (z : Intersection) : Intersections → Intersections
  | [] => [z]
  | w :: ws => if w.T0 < z.T0 then w :: insertByT0 z ws else z :: w :: ws

/-- Stable sort of the ray intersections by the ray parameter T0. -/
def sortByT0 : Intersections → Intersections
  | [] => []
  | z :: zs => insertByT0 z (sortByT0 zs)

/-- Modelled from the spec: the intersections of the path with a horizontal
ray starting at (x,y) towards (+inf,y), parameter-sorted along the ray
(stable by ray parameter T0); an intersection with T0 = 0 is at the ray
start itself. -/
def Path.RayIntersections (p : Path) (x y : ℝ) : Intersections :=
  sortByT0 (rayLoop x y p.d ⟨0, 0⟩ [])

/-- `windings` counts the signed ray crossings of one subpath: downward
crossings are negative, upward positive; an intersection at the ray start
(T0 = 0) marks the position as a boundary, and hits at segment endpoints
(T1 = 0 or 1) are consumed in adjacent pairs.  (Indexing one past the end of
the list, which panics in Go, is embedded as yielding (0, False); it is never
reached for the lists produced by the ray cast.) -/
def windingsLoop : List Intersection → ℤ × Prop
  | [] => (0, False)
  | z :: rest =>
    if z.T0 = 0 then ((windingsLoop rest).1, True)
    else if z.T1 ≠ 0 ∧ z.T1 ≠ 1 then
      let r := windingsLoop rest
      ((if ¬z.Same then (if z.Into then -1 else 1) else 0) + r.1, r.2)
    else
      match rest with
      | [] => (0, False)
      | z2 :: rest2 =>
        let r := windingsLoop rest2
        ((if ¬(z.Same ∨ z2.Same) ∧ (z.Into ↔ z2.Into) then (if z.Into then -1 else 1)
          else 0) + r.1, r.2)

def windings (zs : Intersections) : ℤ × Prop := windingsLoop zs

/-- Windings returns the winding number at (x,y) (counter-clockwise positive)
and whether the point lies on the path's boundary; boundary subpaths do not
contribute to the winding number. -/
def Path.Windings (p : Path) (x y : ℝ) : ℤ × Prop :=
  p.Split.foldl (fun acc pi =>
    let w := windings (pi.RayIntersections x y)
    (if ¬w.2 then acc.1 + w.1 else acc.1, acc.2 ∨ w.2)) ((0 : ℤ), False)

/-! ### Reverse and path equality (from `path.go`) -/

/-- Loop of `Reverse`: walk the command stream backward (i is the index one
past the current command slot), emitting the reversed commands; Bezier control
points are swapped, arc sweep flags negated, and close commands converted
to/from explicit lines as needed. -/
def reverseLoop (d : List ℝ) (i : ℕ) (closed : Prop) (first start : Point)
    (acc : List ℝ) : List ℝ :=
  if 0 < i then
    let cmd := d.getD (i - 1) 0
    let j := i - cmdLen cmd
    let endp : Point := if 0 < j then ⟨d.getD (j - 3) 0, d.getD (j - 2) 0⟩ else ⟨0, 0⟩
    if cmd = MoveToCmd then
      let acc1 := if closed then acc ++ [CloseCmd, first.X, first.Y, CloseCmd] else acc
      if j ≠ 0 then
        reverseLoop d j False endp endp (acc1 ++ [MoveToCmd, endp.X, endp.Y, MoveToCmd])
      else reverseLoop d j False first endp acc1
    else if cmd = CloseCmd then
      let acc1 :=
        if ¬start.Equals endp then acc ++ [LineToCmd, endp.X, endp.Y, LineToCmd] else acc
      reverseLoop d j True first endp acc1
    else if cmd = LineToCmd then
      if closed ∧ (j = 0 ∨ d.getD (j - 1) 0 = MoveToCmd) then
        reverseLoop d j False first endp (acc ++ [CloseCmd, first.X, first.Y, CloseCmd])
      else reverseLoop d j closed first endp (acc ++ [LineToCmd, endp.X, endp.Y, LineToCmd])
    else if cmd = QuadToCmd then
      reverseLoop d j closed first endp
        (acc ++ [QuadToCmd, d.getD (j + 1) 0, d.getD (j + 2) 0, endp.X, endp.Y, QuadToCmd])
    else if cmd = CubeToCmd then
      reverseLoop d j closed first endp
        (acc ++ [CubeToCmd, d.getD (j + 3) 0, d.getD (j + 4) 0, d.getD (j + 1) 0,
          d.getD (j + 2) 0, endp.X, endp.Y, CubeToCmd])
    else if cmd = ArcToCmd then
      let flags := toArcFlags (d.getD (j + 4) 0)
      reverseLoop d j closed first endp
        (acc ++ [ArcToCmd, d.getD (j + 1) 0, d.getD (j + 2) 0, d.getD (j + 3) 0,
          fromArcFlags flags.1 (!flags.2), endp.X, endp.Y, ArcToCmd])
    else reverseLoop d j closed first endp acc
  else if closed then acc ++ [CloseCmd, first.X, first.Y, CloseCmd]
  else acc
termination_by i
decreasing_by
  all_goals have h4 := cmdLen_pos (d.getD (i - 1) 0)
  all_goals omega

/-- Reverse returns the same path but in the reverse direction. -/
def Path.Reverse (p : Path) : Path :=
  if p.d.length = 0 then p
  else
    let endp : Point := ⟨p.d.getD (p.d.length - 3) 0, p.d.getD (p.d.length - 2) 0⟩
    ⟨reverseLoop p.d p.d.length False endp endp [MoveToCmd, endp.X, endp.Y, MoveToCmd]⟩

/-- Equals returns true if the paths are equal within tolerance Epsilon:
equal lengths and pointwise tolerance-equal data. -/
def Path.Equals (p q : Path) : Prop :=
  p.d.length = q.d.length ∧ ∀ i < p.d.length, Equal (p.d.getD i 0) (q.d.getD i 0)

/-! ### Affine transform (matrix modelled from the spec) and Transform -/

/-- Modelled from the spec: an affine transform, linear part plus translation
(row-major: [[A, B, TX], [C, D, TY]]). -/
structure Matrix where
  A : ℝ
  B : ℝ
  TX : ℝ
  C : ℝ
  D : ℝ
  TY : ℝ

def Identity : Matrix := ⟨1, 0, 0, 0, 1, 0⟩

def Matrix.Dot (m : Matrix) (p : Point) : Point :=
  ⟨m.A * p.X + m.B * p.Y + m.TX, m.C * p.X + m.D * p.Y + m.TY⟩

def Matrix.Mul (m n : Matrix) : Matrix :=
  ⟨m.A * n.A + m.B * n.C, m.A * n.B + m.B * n.D, m.A * n.TX + m.B * n.TY + m.TX,
   m.C * n.A + m.D * n.C, m.C * n.B + m.D * n.D, m.C * n.TX + m.D * n.TY + m.TY⟩

def Matrix.Det (m : Matrix) : ℝ := m.A * m.D - m.B * m.C

/-- Modelled from the spec: composition with a rotation by `rot` degrees. -/
def Matrix.Rotate (m : Matrix) (rot : ℝ) : Matrix :=
  m.Mul ⟨Real.cos (rot * Real.pi / 180), -Real.sin (rot * Real.pi / 180), 0,
    Real.sin (rot * Real.pi / 180), Real.cos (rot * Real.pi / 180), 0⟩

/-- Modelled from the spec: composition with an axis scale. -/
def Matrix.Scale (m : Matrix) (sx sy : ℝ) : Matrix :=
  m.Mul ⟨sx, 0, 0, 0, sy, 0⟩

/-- Modelled from the spec: composition with a translation. -/
def Matrix.Translate (m : Matrix) (x y : ℝ) : Matrix :=
  m.Mul ⟨1, 0, x, 0, 1, y⟩

/-- Modelled from the spec: the affine inverse. -/
def Matrix.Inv (m : Matrix) : Matrix :=
  ⟨m.D / m.Det, -m.B / m.Det, (m.B * m.TY - m.D * m.TX) / m.Det,
   -m.C / m.Det, m.A / m.Det, (m.C * m.TX - m.A * m.TY) / m.Det⟩

/-- Modelled from the spec: transpose of the linear part. -/
def Matrix.T (m : Matrix) : Matrix := ⟨m.A, m.C, m.TX, m.B, m.D, m.TY⟩

/-- Modelled from the spec: eigen-decomposition of the linear part, used to
re-derive ellipse axes after a general transform; eigenvalues ascending. -/
def Matrix.Eigen (m : Matrix) : ℝ × ℝ × Point × Point :=
  let tr := m.A + m.D
  let disc := Real.sqrt (tr * tr - 4 * m.Det)
  let l1 := (tr - disc) / 2
  let l2 := (tr + disc) / 2
  let v : ℝ → Point := fun l =>
    if Equal m.B 0 ∧ Equal m.C 0 then (if Equal l m.A then ⟨1, 0⟩ else ⟨0, 1⟩)
    else if ¬Equal m.B 0 then (Point.Norm ⟨m.B, l - m.A⟩ 1)
    else Point.Norm ⟨l - m.D, m.C⟩ 1
  (l1, l2, v l1, v l2)

/-- Modelled from the spec: decomposition into translation, rotation (degrees),
axis scales and shear; only the scale components are consumed by `Transform`
(for the sign of the sweep flip). -/
def Matrix.Decompose (m : Matrix) : ℝ × ℝ × ℝ × ℝ × ℝ × ℝ :=
  let sx := Real.sqrt (m.A * m.A + m.C * m.C)
  let phi := atan2 m.C m.A * 180 / Real.pi
  let sy := m.Det / sx
  let theta := atan2 (m.A * m.B + m.C * m.D) m.Det * 180 / Real.pi
  (m.TX, m.TY, phi, sx, sy, theta)

/-- Loop of `Transform`: map every control point through `m`; arcs
re-diagonalise the transformed ellipse's implicit matrix to recover valid
(rx, ry, rotation), and a sign-flipping transform negates the sweep flag. -/
def transformLoop (m : Matrix) (xscale yscale : ℝ) (d : List ℝ) : List ℝ :=
  if d.length = 0 then []
  else
    let cmd := d.getD 0 0
    let rest := d.drop (cmdLen cmd)
    if cmd = MoveToCmd ∨ cmd = LineToCmd ∨ cmd = CloseCmd then
      let endp := m.Dot ⟨d.getD 1 0, d.getD 2 0⟩
      [cmd, endp.X, endp.Y, d.getD 3 0] ++ transformLoop m xscale yscale rest
    else if cmd = QuadToCmd then
      let cp := m.Dot ⟨d.getD 1 0, d.getD 2 0⟩
      let endp := m.Dot ⟨d.getD 3 0, d.getD 4 0⟩
      [cmd, cp.X, cp.Y, endp.X, endp.Y, d.getD 5 0] ++ transformLoop m xscale yscale rest
    else if cmd = CubeToCmd then
      let cp1 := m.Dot ⟨d.getD 1 0, d.getD 2 0⟩
      let cp2 := m.Dot ⟨d.getD 3 0, d.getD 4 0⟩
      let endp := m.Dot ⟨d.getD 5 0, d.getD 6 0⟩
      [cmd, cp1.X, cp1.Y, cp2.X, cp2.Y, endp.X, endp.Y, d.getD 7 0] ++
        transformLoop m xscale yscale rest
    else if cmd = ArcToCmd then
      let rx := d.getD 1 0
      let ry := d.getD 2 0
      let phi := d.getD 3 0
      let flags := toArcFlags (d.getD 4 0)
      let endp := m.Dot ⟨d.getD 5 0, d.getD 6 0⟩
      let T0 := m.Rotate (phi * 180 / Real.pi)
      let invT := T0.Inv
      let Q := (invT.T.Mul ((Identity.Scale (1 / rx / rx) (1 / ry / ry)))).Mul invT
      let e := Q.Eigen
      let rx1 := 1 / Real.sqrt e.1
      let ry1 := 1 / Real.sqrt e.2.1
      let rx2 := if rx1 < ry1 then ry1 else rx1
      let ry2 := if rx1 < ry1 then rx1 else ry1
      let phi1 := angleNorm (if rx1 < ry1 then e.2.2.2.Angle else e.2.2.1.Angle)
      let phi2 := if Real.pi ≤ phi1 then phi1 - Real.pi else phi1
      let sweep := if xscale * yscale < 0 then !flags.2 else flags.2
      [cmd, rx2, ry2, phi2, fromArcFlags flags.1 sweep, endp.X, endp.Y, d.getD 7 0] ++
        transformLoop m xscale yscale rest
    else d.take (cmdLen cmd) ++ transformLoop m xscale yscale rest
termination_by d.length
decreasing_by
  all_goals simp only [List.length_drop]
  all_goals have h4 := four_le_cmdLen (d.getD 0 0)
  all_goals omega

/-- Transform transforms the path by the given transformation matrix. -/
def Path.Transform (p : Path) (m : Matrix) : Path :=
  let dec := m.Decompose
  ⟨transformLoop m dec.2.2.2.1 dec.2.2.2.2.1 p.d⟩

/-! ### The SVG path data scanner (from `path.go`) -/

/-- The structured rendering of the `fmt.Errorf` failures of `ParseSVGPath`:
each constructor is one error site, carrying exactly the data interpolated
into the Go format string.  `badStart` is the "path should start with
command" error, which carries no position. -/
inductive SVGError where
  | badStart : SVGError
  | unknownCommand (c : Char) (pos : ℕ) : SVGError
  | badArcFlags (c : Char) (pos : ℕ) : SVGError
  | badNumberCount (count : ℕ) (c : Char) (pos : ℕ) : SVGError
  | badNumber (c : Char) (pos : ℕ) : SVGError

/-- The position reported by a parse error, when it reports one. -/
def SVGError.position : SVGError → Option ℕ
  | .badStart => none
  | .unknownCommand _ pos => some pos
  | .badArcFlags _ pos => some pos
  | .badNumberCount _ _ pos => some pos
  | .badNumber _ pos => some pos

def isCommaWhitespace (ch : Char) : Bool :=
  ch = ' ' ∨ ch = ',' ∨ ch = '\n' ∨ ch = '\r' ∨ ch = '\t'

/-- Number of leading comma/whitespace characters. -/
def skipCommaWhitespace (cs : List Char) : ℕ :=
  (cs.takeWhile isCommaWhitespace).length

/-- The fixed argument count of each (uppercased) SVG path command letter
(the Go `cmdLens` map; absent letters give the map's zero value 0). -/
def svgCmdArgCount (c : Char) : ℕ :=
  if c = 'M' then 2 else if c = 'Z' then 0 else if c = 'L' then 2
  else if c = 'H' then 1 else if c = 'V' then 1 else if c = 'C' then 6
  else if c = 'S' then 4 else if c = 'Q' then 4 else if c = 'T' then 2
  else if c = 'A' then 7 else 0

def digitsVal (ds : List Char) : ℕ :=
  ds.foldl (fun a ch => 10 * a + (ch.toNat - '0'.toNat)) 0

/-- Modelled from the spec: the external number scanner
(`strconv.ParseFloat`), returning the parsed value and the number of bytes
consumed; 0 consumed bytes signals that no number starts here. -/
def strconvParseFloat (cs : List Char) : ℝ × ℕ :=
  let neg := cs.head? = some '-'
  let signLen := if cs.head? = some '-' ∨ cs.head? = some '+' then 1 else 0
  let cs1 := cs.drop signLen
  let intDigits := cs1.takeWhile Char.isDigit
  let cs2 := cs1.drop intDigits.length
  let fracDigits := if cs2.head? = some '.' then (cs2.drop 1).takeWhile Char.isDigit else []
  let fracLen := if cs2.head? = some '.' then 1 + fracDigits.length else 0
  let cs3 := cs2.drop fracLen
  if intDigits.length = 0 ∧ fracDigits.length = 0 then (0, 0)
  else
    let expPart : ℕ × ℤ :=
      if cs3.head? = some 'e' ∨ cs3.head? = some 'E' then
        let cs4 := cs3.drop 1
        let eneg := cs4.head? = some '-'
        let esignLen := if cs4.head? = some '-' ∨ cs4.head? = some '+' then 1 else 0
        let eDigits := (cs4.drop esignLen).takeWhile Char.isDigit
        if eDigits.length = 0 then (0, 0)
        else (1 + esignLen + eDigits.length,
          if eneg then -(digitsVal eDigits : ℤ) else (digitsVal eDigits : ℤ))
      else (0, 0)
    let mant : ℝ := (digitsVal intDigits : ℝ) + (digitsVal fracDigits : ℝ) / 10 ^ fracDigits.length
    ((if neg then -mant else mant) * (10 : ℝ) ^ expPart.2,
      signLen + intDigits.length + fracLen + expPart.1)

/-- The inner argument loop of `ParseSVGPath`: parse `count` arguments of
command `cmd` starting at index `i` (argument index `j`), where the largeArc
and sweep arguments of an `A` command must be the literal character 0 or 1.
Returns the parsed arguments and the index after them (trailing
comma/whitespace skipped after each argument), or the positional error. -/
def parseArgsLoop (s : List Char) (CMD cmd : Char) (isRepeat : Bool) (count : ℕ)
    (i j : ℕ) (f : List ℝ) : Except SVGError (List ℝ × ℕ) :=
  if j < count then
    if CMD = 'A' ∧ (j = 3 ∨ j = 4) then
      if i < s.length ∧ s.getD i ' ' = '1' then
        parseArgsLoop s CMD cmd isRepeat count
          (i + 1 + skipCommaWhitespace (s.drop (i + 1))) (j + 1) (f ++ [1])
      else if i < s.length ∧ s.getD i ' ' = '0' then
        parseArgsLoop s CMD cmd isRepeat count
          (i + 1 + skipCommaWhitespace (s.drop (i + 1))) (j + 1) (f ++ [0])
      else Except.error (SVGError.badArcFlags cmd (i + 1))
    else
      let pf := strconvParseFloat (s.drop i)
      if pf.2 = 0 then
        if isRepeat ∧ j = 0 ∧ i < s.length then
          Except.error (SVGError.unknownCommand (s.getD i ' ') (i + 1))
        else if 1 < count then Except.error (SVGError.badNumberCount count cmd (i + 1))
        else Except.error (SVGError.badNumber cmd (i + 1))
      else
        parseArgsLoop s CMD cmd isRepeat count
          (i + pf.2 + skipCommaWhitespace (s.drop (i + pf.2))) (j + 1) (f ++ [pf.1])
  else Except.ok (f, i)
termination_by count - j

/-- One command dispatch of `ParseSVGPath` (the Go `switch cmd`): applies the
mutator calls and returns the new (path, current point, quad reflection
point, cubic reflection point, previous command), or the unknown-command
error.  `i3` is the index after the arguments, used for the error position. -/
def svgDispatch (p : Path) (p0 qPt cPt : Point) (prevCmd cmd : Char) (f : List ℝ)
    (i3 : ℕ) : Except SVGError (Path × Point × Point × Point × Char) :=
  let f0 := f.getD 0 0
  let f1 := f.getD 1 0
  let f2 := f.getD 2 0
  let f3 := f.getD 3 0
  let f4 := f.getD 4 0
  let f5 := f.getD 5 0
  let f6 := f.getD 6 0
  if cmd = 'M' ∨ cmd = 'm' then
    let p1 : Point := if cmd = 'm' then (⟨f0, f1⟩ : Point).Add p0 else ⟨f0, f1⟩
    let cmd2 := if cmd = 'm' then 'l' else 'L'
    Except.ok (p.MoveTo p1.X p1.Y, p1, qPt, cPt, cmd2)
  else if cmd = 'Z' ∨ cmd = 'z' then
    Except.ok (p.Close, p.StartPos, qPt, cPt, cmd)
  else if cmd = 'L' ∨ cmd = 'l' then
    let p1 : Point := if cmd = 'l' then (⟨f0, f1⟩ : Point).Add p0 else ⟨f0, f1⟩
    Except.ok (p.LineTo p1.X p1.Y, p1, qPt, cPt, cmd)
  else if cmd = 'H' ∨ cmd = 'h' then
    let p1 : Point := ⟨if cmd = 'h' then f0 + p0.X else f0, p0.Y⟩
    Except.ok (p.LineTo p1.X p1.Y, p1, qPt, cPt, cmd)
  else if cmd = 'V' ∨ cmd = 'v' then
    let p1 : Point := ⟨p0.X, if cmd = 'v' then f0 + p0.Y else f0⟩
    Except.ok (p.LineTo p1.X p1.Y, p1, qPt, cPt, cmd)
  else if cmd = 'C' ∨ cmd = 'c' then
    let cp1 : Point := if cmd = 'c' then (⟨f0, f1⟩ : Point).Add p0 else ⟨f0, f1⟩
    let cp2 : Point := if cmd = 'c' then (⟨f2, f3⟩ : Point).Add p0 else ⟨f2, f3⟩
    let p1 : Point := if cmd = 'c' then (⟨f4, f5⟩ : Point).Add p0 else ⟨f4, f5⟩
    Except.ok (p.CubeTo cp1.X cp1.Y cp2.X cp2.Y p1.X p1.Y, p1, qPt, cp2, cmd)
  else if cmd = 'S' ∨ cmd = 's' then
    let cp2 : Point := if cmd = 's' then (⟨f0, f1⟩ : Point).Add p0 else ⟨f0, f1⟩
    let p1 : Point := if cmd = 's' then (⟨f2, f3⟩ : Point).Add p0 else ⟨f2, f3⟩
    let cp1 : Point :=
      if prevCmd = 'C' ∨ prevCmd = 'c' ∨ prevCmd = 'S' ∨ prevCmd = 's' then
        (p0.Mul 2).Sub cPt
      else p0
    Except.ok (p.CubeTo cp1.X cp1.Y cp2.X cp2.Y p1.X p1.Y, p1, qPt, cp2, cmd)
  else if cmd = 'Q' ∨ cmd = 'q' then
    let cp : Point := if cmd = 'q' then (⟨f0, f1⟩ : Point).Add p0 else ⟨f0, f1⟩
    let p1 : Point := if cmd = 'q' then (⟨f2, f3⟩ : Point).Add p0 else ⟨f2, f3⟩
    Except.ok (p.QuadTo cp.X cp.Y p1.X p1.Y, p1, cp, cPt, cmd)
  else if cmd = 'T' ∨ cmd = 't' then
    let p1 : Point := if cmd = 't' then (⟨f0, f1⟩ : Point).Add p0 else ⟨f0, f1⟩
    let cp : Point :=
      if prevCmd = 'Q' ∨ prevCmd = 'q' ∨ prevCmd = 'T' ∨ prevCmd = 't' then
        (p0.Mul 2).Sub qPt
      else p0
    Except.ok (p.QuadTo cp.X cp.Y p1.X p1.Y, p1, cp, cPt, cmd)
  else if cmd = 'A' ∨ cmd = 'a' then
    let p1 : Point := if cmd = 'a' then (⟨f5, f6⟩ : Point).Add p0 else ⟨f5, f6⟩
    Except.ok (p.ArcTo f0 f1 f2 (if f3 = 1 then true else false)
      (if f4 = 1 then true else false) p1.X p1.Y, p1, qPt, cPt, cmd)
  else Except.error (SVGError.unknownCommand cmd (i3 + 1))

/-- The main loop of `ParseSVGPath`.  Each iteration consumes at least one
character, so the fuel `s.length + 1` never runs out; the exhausted case is
unreachable. -/
def svgParseLoop (s : List Char) : ℕ → ℕ → Path → Point → Point → Point → Char →
    Except SVGError Path
  | 0, _, _, _, _, _, _ => Except.error SVGError.badStart
  | fuel + 1, i, p, p0, qPt, cPt, prevCmd =>
    let i1 := i + skipCommaWhitespace (s.drop i)
    if s.length ≤ i1 then Except.ok p
    else
      let curr := s.getD i1 ' '
      let useNew : Prop := prevCmd = 'z' ∨ prevCmd = 'Z' ∨
        ¬(('0' ≤ curr ∧ curr ≤ '9') ∨ curr = '.' ∨ curr = '-' ∨ curr = '+')
      let cmd := if useNew then curr else prevCmd
      let isRepeat : Bool := if useNew then false else true
      let i2 := if useNew then (i1 + 1) + skipCommaWhitespace (s.drop (i1 + 1)) else i1
      let CMD := if 'a' ≤ cmd ∧ cmd ≤ 'z' then Char.ofNat (cmd.toNat - 32) else cmd
      match parseArgsLoop s CMD cmd isRepeat (svgCmdArgCount CMD) i2 0 [] with
      | Except.error e => Except.error e
      | Except.ok (f, i3) =>
        match svgDispatch p p0 qPt cPt prevCmd cmd f i3 with
        | Except.error e => Except.error e
        | Except.ok (p2, p1, qPt2, cPt2, cmd2) =>
          svgParseLoop s fuel i3 p2 p1 qPt2 cPt2 cmd2

/-- ParseSVGPath parses an SVG path data string.  (Go indexes `path[i]` in
the leading-token check, which panics on an all-whitespace string; the
out-of-range read is embedded as the default character, yielding the
same leading-token error.) -/
def ParseSVGPath (s : List Char) : Except SVGError Path :=
  if s.length = 0 then Except.ok ⟨[]⟩
  else
    let i := skipCommaWhitespace s
    if s.getD 0 ' ' = ',' ∨ (s.getD i ' ').toNat < 'A'.toNat then
      Except.error SVGError.badStart
    else svgParseLoop s (s.length + 1) i ⟨[]⟩ ⟨0, 0⟩ ⟨0, 0⟩ ⟨0, 0⟩ 'z'

/-! ### The packed-encoding invariant (kept by the mutators, Reverse and
Transform) -/

/-- The six command codes the packed encoding stores. -/
def ValidCmd (c : ℝ) : Prop :=
  c = MoveToCmd ∨ c = LineToCmd ∨ c = QuadToCmd ∨ c = CubeToCmd ∨ c = ArcToCmd ∨
    c = CloseCmd

/-- A well-formed slot: a valid command code with exactly `cmdLen - 2`
argument values between its two copies. -/
def SlotOK (s : ℝ × List ℝ) : Prop := ValidCmd s.1 ∧ s.2.length + 2 = cmdLen s.1

/-- Serialize one slot: the command code, the arguments, the command again. -/
def serSlot (s : ℝ × List ℝ) : List ℝ := s.1 :: s.2 ++ [s.1]

/-- Serialize a slot list into a packed command stream. -/
def serializeSlots (slots : List (ℝ × List ℝ)) : List ℝ := (slots.map serSlot).flatten

/-- The packed-encoding invariant, refined by a predicate `P` over the
sequence of command codes. -/
def PackedWith (P : List ℝ → Prop) (d : List ℝ) : Prop :=
  ∃ slots, (∀ s ∈ slots, SlotOK s) ∧ P (slots.map Prod.fst) ∧ d = serializeSlots slots

/-- The bare packed-encoding invariant: the data is a concatenation of
well-formed slots. -/
def Packed (d : List ℝ) : Prop := PackedWith (fun _ => True) d

/-- `i` is the start index of a command of `d`: some packed prefix of `d`
ends there, with data remaining. -/
def IsCmdStart (d : List ℝ) (i : ℕ) : Prop :=
  ∃ d₁ d₂, d = d₁ ++ d₂ ∧ d₁.length = i ∧ Packed d₁ ∧ d₂ ≠ []

/-- No two consecutive MoveTo commands (the coalescing invariant). -/
def noConsecutiveMoveTo (cs : List ℝ) : Prop :=
  List.Chain' (fun a b => ¬(a = MoveToCmd ∧ b = MoveToCmd)) cs

/-- Every non-empty subpath starts with a MoveTo: the first command is a
MoveTo and any command directly following a Close is a MoveTo. -/
def subpathsStartWithMoveTo (cs : List ℝ) : Prop :=
  (∀ c ∈ cs.head?, c = MoveToCmd) ∧
  List.Chain' (fun a b => a = CloseCmd → b = MoveToCmd) cs

/-! ### Structured subpaths (for the Reverse involution) -/

/-- A path segment after its implicit start point: the segment kind with its
control data and end point. -/
inductive Seg where
  | line (e : Point) : Seg
  | quad (cp e : Point) : Seg
  | cube (cp1 cp2 e : Point) : Seg
  | arc (rx ry phi : ℝ) (large sweep : Bool) (e : Point) : Seg

def Seg.endPoint : Seg → Point
  | .line e => e
  | .quad _ e => e
  | .cube _ _ e => e
  | .arc _ _ _ _ _ e => e

def Seg.isLine : Seg → Bool
  | .line _ => true
  | _ => false

/-- The packed slot of one segment. -/
def serSeg : Seg → List ℝ
  | .line e => [LineToCmd, e.X, e.Y, LineToCmd]
  | .quad cp e => [QuadToCmd, cp.X, cp.Y, e.X, e.Y, QuadToCmd]
  | .cube cp1 cp2 e =>
      [CubeToCmd, cp1.X, cp1.Y, cp2.X, cp2.Y, e.X, e.Y, CubeToCmd]
  | .arc rx ry phi large sweep e =>
      [ArcToCmd, rx, ry, phi, fromArcFlags large sweep, e.X, e.Y, ArcToCmd]

def serSegs (segs : List Seg) : List ℝ := (segs.map serSeg).flatten

/-- A subpath: start point, segments, and whether it is closed (a closed
subpath ends in a Close slot caching the exact start point). -/
structure SubPath where
  start : Point
  segs : List Seg
  closed : Bool

/-- The packed data of one subpath. -/
def serSub (s : SubPath) : List ℝ :=
  [MoveToCmd, s.start.X, s.start.Y, MoveToCmd] ++ serSegs s.segs ++
    (if s.closed then [CloseCmd, s.start.X, s.start.Y, CloseCmd] else [])

/-- The packed data of a whole path: its subpaths in order. -/
def serPath (subs : List SubPath) : List ℝ := (subs.map serSub).flatten

/-- The end point of the last segment of a run (the start point if empty). -/
def segsEnd (p0 : Point) (segs : List Seg) : Point :=
  match segs.getLast? with
  | some sg => sg.endPoint
  | none => p0

/-- The final position of a subpath: its start for closed subpaths (the Close
slot caches it), the last segment end otherwise. -/
def SubPath.lastPos (s : SubPath) : Point :=
  if s.closed then s.start else segsEnd s.start s.segs

/-- One segment reversed: same geometry data with the new end point; cubic
control points swap, arc sweep flips. -/
def Seg.revWith : Seg → Point → Seg
  | .line _, e => .line e
  | .quad cp _, e => .quad cp e
  | .cube cp1 cp2 _, e => .cube cp2 cp1 e
  | .arc rx ry phi large sweep _, e => .arc rx ry phi large (!sweep) e

/-- The reversed segment run of an open subpath from `p0`. -/
def revSegs (p0 : Point) : List Seg → List Seg
  | [] => []
  | sg :: rest => revSegs sg.endPoint rest ++ [sg.revWith p0]

/-- Whether the first segment is a line (Reverse folds it into the emitted
Close of a closed subpath). -/
def headIsLine (segs : List Seg) : Bool :=
  match segs.head? with
  | some sg => sg.isLine
  | none => false

/-- The reversal of one subpath, exactly as `Reverse` emits it: open subpaths
reverse their segments; closed subpaths keep their start, emit an explicit
line back to the last segment end unless it coincides with the start within
tolerance, reverse the remaining segments, and fold a leading line segment
into the Close. -/
def SubPath.rev (s : SubPath) : SubPath :=
  if s.closed then
    ⟨s.start,
      (match s.segs.getLast? with
       | none => []
       | some lastSeg =>
         (if Point.Equals s.start lastSeg.endPoint then []
          else [Seg.line lastSeg.endPoint]) ++
           (if headIsLine s.segs then (revSegs s.start s.segs).dropLast
            else revSegs s.start s.segs)),
      true⟩
  else ⟨s.lastPos, revSegs s.start s.segs, false⟩

/-- The reversal of a whole path: each subpath reversed, in reverse order. -/
def revPath (subs : List SubPath) : List SubPath := (subs.map SubPath.rev).reverse

/-- The data `reverseLoop` emits after the initial MoveTo slot, for the
subpaths given in processing (reverse) order: each reversed subpath's data
without its MoveTo slot, then the MoveTo slot opening the next one. -/
def revTailAux : List SubPath → List ℝ
  | [] => []
  | s :: rest => (serSub s.rev).drop 4 ++
      (match rest with
       | [] => []
       | prev :: _ =>
         [MoveToCmd, prev.lastPos.X, prev.lastPos.Y, MoveToCmd] ++ revTailAux rest)

/-- Validity of a subpath for the exact double-reversal: in a closed subpath
the last segment must not end at the start (within tolerance), nor may a
leading line segment. -/
def SubOK2 (s : SubPath) : Prop :=
  s.closed = true →
    (∀ sg ∈ s.segs.getLast?, ¬Point.Equals s.start sg.endPoint) ∧
    (∀ sg ∈ s.segs.head?, sg.isLine = true → ¬Point.Equals s.start sg.endPoint)

/-- A segment with its end point replaced, keeping all other geometry data. -/
def Seg.withEnd : Seg → Point → Seg
  | .line _, e => .line e
  | .quad cp _, e => .quad cp e
  | .cube cp1 cp2 _, e => .cube cp1 cp2 e
  | .arc rx ry phi large sweep _, e => .arc rx ry phi large sweep e

/-- A segment run with the end point of its last segment replaced. -/
def withLast (q : Point) : List Seg → List Seg
  | [] => []
  | [sg] => [Seg.withEnd sg q]
  | sg :: rest => sg :: withLast q rest

/-- Validity of a subpath for the double-reversal within tolerance: in a
closed subpath, neither the last segment (if it is a line) nor a leading line
segment may end at the start within tolerance; a non-line last segment may
end at the start. -/
def SubOK3 (s : SubPath) : Prop :=
  s.closed = true →
    (∀ sg ∈ s.segs.getLast?, sg.isLine = true → ¬Point.Equals s.start sg.endPoint) ∧
    (∀ sg ∈ s.segs.head?, sg.isLine = true → ¬Point.Equals s.start sg.endPoint)

/-- Slot-wise tolerance equality of two packed data lists of the same
length. -/
def ListEqv (a b : List ℝ) : Prop :=
  a.length = b.length ∧ ∀ i, Equal (a.getD i 0) (b.getD i 0)

end Canvas

/-! ## Theorems -/

namespace Canvas

lemma Equal_refl (a : ℝ) : Equal a a := by
  simp [Equal, Epsilon]; norm_num

lemma not_Equal_of_gap {a b : ℝ} (h : 1/2 ≤ |a - b|) : ¬Equal a b := by
  simp only [Equal, Epsilon, not_le]
  nlinarith [abs_nonneg (a - b)]

lemma exists_ok_of_ite_not {c : Prop} [Decidable c] (msg : String) (x : Intersections)
    (h : ¬c) : ∃ zs2, (if c then Except.error msg else Except.ok x) = Except.ok zs2 :=
  ⟨x, if_neg h⟩

/-- C7: `quadraticBezierLength` with control points (0,0), (1,0), (2,0)
returns exactly 2: the control point is colinear and midway, the quadratic
coefficient vanishes, and the arc length equals the straight-line distance
from start to end. -/
theorem C7_quadraticBezierLength_colinear :
    quadraticBezierLength ⟨0, 0⟩ ⟨1, 0⟩ ⟨2, 0⟩ = 2 := by
  have h4 : Real.sqrt (4 : ℝ) = 2 := by
    rw [show (4 : ℝ) = 2 ^ 2 by norm_num]
    exact Real.sqrt_sq (by norm_num)
  simp only [quadraticBezierLength, Point.Sub, Point.Mul, Point.Add, Point.Dot, Point.Length]
  norm_num [Equal, Epsilon, h4]

/-- C1: for every pair of path segments whose kind pair is quad-quad,
quad-cube, cube-cube, quad-arc or cube-arc (in either order),
`intersectionSegment` fails loudly with an explicit fatal error (Go panic,
embedded as `Except.error`); it never silently returns an intersection
list for these unsupported combinations. -/
theorem C1_unsupported_pairs_panic (zs : Intersections) (a0 b0 : Point)
    (a b : List ℝ)
    (h : (a.getD 0 0 = QuadToCmd ∧ (b.getD 0 0 = QuadToCmd ∨ b.getD 0 0 = CubeToCmd ∨
        b.getD 0 0 = ArcToCmd)) ∨
      (a.getD 0 0 = CubeToCmd ∧ (b.getD 0 0 = QuadToCmd ∨ b.getD 0 0 = CubeToCmd ∨
        b.getD 0 0 = ArcToCmd)) ∨
      (a.getD 0 0 = ArcToCmd ∧ (b.getD 0 0 = QuadToCmd ∨ b.getD 0 0 = CubeToCmd))) :
    ∃ msg, intersectionSegment zs a0 a b0 b = Except.error msg := by
  rcases h with ⟨ha, hb | hb | hb⟩ | ⟨ha, hb | hb | hb⟩ | ⟨ha, hb | hb⟩
  · exact ⟨"unsupported intersection for quad-quad", by
      simp only [intersectionSegment, ha, hb]
      norm_num [MoveToCmd, LineToCmd, QuadToCmd, CubeToCmd, ArcToCmd, CloseCmd]⟩
  · exact ⟨"unsupported intersection for quad-cube", by
      simp only [intersectionSegment, ha, hb]
      norm_num [MoveToCmd, LineToCmd, QuadToCmd, CubeToCmd, ArcToCmd, CloseCmd]⟩
  · exact ⟨"unsupported intersection for quad-arc", by
      simp only [intersectionSegment, ha, hb]
      norm_num [MoveToCmd, LineToCmd, QuadToCmd, CubeToCmd, ArcToCmd, CloseCmd]⟩
  · exact ⟨"unsupported intersection for cube-quad", by
      simp only [intersectionSegment, ha, hb]
      norm_num [MoveToCmd, LineToCmd, QuadToCmd, CubeToCmd, ArcToCmd, CloseCmd]⟩
  · exact ⟨"unsupported intersection for cube-cube", by
      simp only [intersectionSegment, ha, hb]
      norm_num [MoveToCmd, LineToCmd, QuadToCmd, CubeToCmd, ArcToCmd, CloseCmd]⟩
  · exact ⟨"unsupported intersection for cube-arc", by
      simp only [intersectionSegment, ha, hb]
      norm_num [MoveToCmd, LineToCmd, QuadToCmd, CubeToCmd, ArcToCmd, CloseCmd]⟩
  · exact ⟨"unsupported intersection for arc-quad", by
      simp only [intersectionSegment, ha, hb]
      norm_num [MoveToCmd, LineToCmd, QuadToCmd, CubeToCmd, ArcToCmd, CloseCmd]⟩
  · exact ⟨"unsupported intersection for arc-cube", by
      simp only [intersectionSegment, ha, hb]
      norm_num [MoveToCmd, LineToCmd, QuadToCmd, CubeToCmd, ArcToCmd, CloseCmd]⟩

/-- Witness for C1: the quad-quad pair errors at a concrete input. -/
theorem C1_unsupported_pairs_panic_witness :
    ∃ msg, intersectionSegment [] ⟨0, 0⟩ [QuadToCmd, 1, 1, 2, 2, QuadToCmd] ⟨0, 1⟩
      [QuadToCmd, 1, 0, 2, 1, QuadToCmd] = Except.error msg :=
  C1_unsupported_pairs_panic [] ⟨0, 0⟩ ⟨0, 1⟩ _ _ (Or.inl ⟨rfl, Or.inl rfl⟩)

/-- C3 counterexample: for two genuinely elliptical ArcTo segments
(rx = 2, ry = 1) `intersectionSegment` does not return their intersection
list but hits the fatal `panic("not handled")` in the ellipse-ellipse
solver: the claim that arc-arc is supported for any radii and rotation is
false. -/
theorem C3_elliptical_arcarc_panics :
    intersectionSegment [] ⟨0, 0⟩ [ArcToCmd, 2, 1, 0, 0, 4, 0, ArcToCmd] ⟨0, 1⟩
      [ArcToCmd, 2, 1, 0, 0, 4, 1, ArcToCmd] = Except.error "not handled" := by
  have h21 : ¬Equal (2 : ℝ) 1 := not_Equal_of_gap (by norm_num)
  simp only [intersectionSegment, intersectionEllipseEllipse]
  norm_num [MoveToCmd, LineToCmd, QuadToCmd, CubeToCmd, ArcToCmd, CloseCmd, h21]

/-- C3 (amended): for every pair of ArcTo segments, `intersectionSegment`
dispatches to the ellipse-ellipse solver, which succeeds (returns an
intersection list without fatal failure) whenever both arcs are circular
(rx and ry equal within tolerance); genuinely elliptical arcs fail fatally
instead. -/
theorem C3_arcarc_circular_ok (zs : Intersections) (a0 b0 : Point) (a b : List ℝ)
    (ha : a.getD 0 0 = ArcToCmd) (hb : b.getD 0 0 = ArcToCmd)
    (hra : Equal (a.getD 1 0) (a.getD 2 0)) (hrb : Equal (b.getD 1 0) (b.getD 2 0)) :
    ∃ zs2, intersectionSegment zs a0 a b0 b = Except.ok zs2 := by
  simp only [intersectionSegment, intersectionEllipseEllipse, ha, hb]
  norm_num [MoveToCmd, LineToCmd, QuadToCmd, CubeToCmd, ArcToCmd, CloseCmd]
  exact exists_ok_of_ite_not _ _ (by
    push_neg
    exact ⟨by simpa [List.getD] using hra, by simpa [List.getD] using hrb⟩)

/-- Witness for C3 (amended): two circular arcs at a concrete input. -/
theorem C3_arcarc_circular_ok_witness :
    ∃ zs2, intersectionSegment [] ⟨0, 0⟩ [ArcToCmd, 2, 2, 0, 0, 4, 0, ArcToCmd] ⟨0, 1⟩
      [ArcToCmd, 3, 3, 0, 0, 6, 1, ArcToCmd] = Except.ok zs2 :=
  C3_arcarc_circular_ok [] ⟨0, 0⟩ ⟨0, 1⟩ _ _ rfl rfl (Equal_refl 2) (Equal_refl 3)

/-- On an exhausted command stream the exact-bounds fold returns the
accumulated box, whose `x1` field is the running x maximum. -/
lemma boundsLoop_nil_x1 (start : Point) (xmin xmax ymin ymax : ℝ) :
    (boundsLoop [] start xmin xmax ymin ymax).x1 = xmax := by
  rw [boundsLoop]
  simp

/-- C2: refuted.  For the path `M0,0 C0,1 1,2 2,0` the exact box from
`Bounds` has x-maximum 2 (the cubic ends at x = 2) while the conservative
box from `FastBounds` has x-maximum only 1: the cubic case of `FastBounds`
folds `Min(cp2.X, end.X)` into the running maximum where the control-polygon
hull needs `Max`, so the "exact ⊆ conservative" containment fails. -/
theorem C2_bounds_exceeds_fastBounds :
    (Path.FastBounds ⟨[MoveToCmd, 0, 0, MoveToCmd,
        CubeToCmd, 0, 1, 1, 2, 2, 0, CubeToCmd]⟩).x1 <
    (Path.Bounds ⟨[MoveToCmd, 0, 0, MoveToCmd,
        CubeToCmd, 0, 1, 1, 2, 2, 0, CubeToCmd]⟩).x1 := by
  have hfast : (Path.FastBounds ⟨[MoveToCmd, 0, 0, MoveToCmd,
      CubeToCmd, 0, 1, 1, 2, 2, 0, CubeToCmd]⟩).x1 = 1 := by
    simp only [Path.FastBounds]
    norm_num [MoveToCmd, CubeToCmd]
    rw [fastBoundsLoop]
    norm_num [cmdLen, MoveToCmd, LineToCmd, QuadToCmd, CubeToCmd, ArcToCmd, CloseCmd]
    rw [fastBoundsLoop]
    norm_num [min_def, max_def]
  have hs4 : Real.sqrt (4 : ℝ) = 2 := by
    rw [show (4 : ℝ) = 2 ^ 2 by norm_num]
    exact Real.sqrt_sq (by norm_num)
  have hexact : (Path.Bounds ⟨[MoveToCmd, 0, 0, MoveToCmd,
      CubeToCmd, 0, 1, 1, 2, 2, 0, CubeToCmd]⟩).x1 = 2 := by
    simp only [Path.Bounds]
    norm_num [MoveToCmd, CubeToCmd]
    rw [boundsLoop]
    norm_num [cmdLen, MoveToCmd, LineToCmd, QuadToCmd, CubeToCmd, ArcToCmd, CloseCmd]
    rw [boundsLoop_nil_x1]
    norm_num [solveQuadraticFormula, boundsAddRoot, IntervalExclusive, Epsilon, hs4,
      min_def, max_def]
  rw [hfast, hexact]
  norm_num


lemma serializeSlots_cons (s : ℝ × List ℝ) (ss : List (ℝ × List ℝ)) :
    serializeSlots (s :: ss) = serSlot s ++ serializeSlots ss := by
  simp [serializeSlots]

lemma serializeSlots_append (s₁ s₂ : List (ℝ × List ℝ)) :
    serializeSlots (s₁ ++ s₂) = serializeSlots s₁ ++ serializeSlots s₂ := by
  simp [serializeSlots]

lemma serializeSlots_concat (init : List (ℝ × List ℝ)) (s : ℝ × List ℝ) :
    serializeSlots (init ++ [s]) = serializeSlots init ++ serSlot s := by
  simp [serializeSlots, serSlot]

lemma serSlot_length (s : ℝ × List ℝ) : (serSlot s).length = s.2.length + 2 := by
  simp [serSlot]

lemma serializeSlots_eq_nil {ss : List (ℝ × List ℝ)} (h : serializeSlots ss = []) :
    ss = [] := by
  cases ss with
  | nil => rfl
  | cons s t => rw [serializeSlots_cons] at h; simp [serSlot] at h

lemma set_append_add (A B : List ℝ) (k : ℕ) (v : ℝ) :
    (A ++ B).set (A.length + k) v = A ++ B.set k v := by
  induction A with
  | nil => simp
  | cons a t ih => simp [List.set, Nat.succ_add, ih]

lemma getD_append_add (A B : List ℝ) (k : ℕ) :
    (A ++ B).getD (A.length + k) 0 = B.getD k 0 := by
  rw [List.getD_append_right A B 0 (A.length + k) (Nat.le_add_right _ _)]
  simp

lemma getD_append_lt (A B : List ℝ) (k : ℕ) (h : k < A.length) :
    (A ++ B).getD k 0 = A.getD k 0 :=
  List.getD_append A B 0 k h

lemma serSlot_getD_zero (c : ℝ) (args : List ℝ) : (serSlot (c, args)).getD 0 0 = c := rfl

lemma serSlot_getD_last (c : ℝ) (args : List ℝ) :
    (serSlot (c, args)).getD (args.length + 1) 0 = c := by
  show (c :: (args ++ [c])).getD (args.length + 1) 0 = c
  rw [List.getD_cons_succ]
  rw [List.getD_append_right args [c] 0 args.length (le_refl _)]
  simp

lemma cmdLen_moveTo : cmdLen MoveToCmd = 4 := by
  norm_num [cmdLen, MoveToCmd, QuadToCmd, CubeToCmd, ArcToCmd]

lemma cmdLen_lineTo : cmdLen LineToCmd = 4 := by
  norm_num [cmdLen, LineToCmd, QuadToCmd, CubeToCmd, ArcToCmd]

lemma cmdLen_quadTo : cmdLen QuadToCmd = 6 := by
  norm_num [cmdLen]

lemma cmdLen_cubeTo : cmdLen CubeToCmd = 8 := by
  norm_num [cmdLen, CubeToCmd, QuadToCmd]

lemma cmdLen_arcTo : cmdLen ArcToCmd = 8 := by
  norm_num [cmdLen, ArcToCmd, QuadToCmd, CubeToCmd]

lemma cmdLen_close : cmdLen CloseCmd = 4 := by
  norm_num [cmdLen, CloseCmd, QuadToCmd, CubeToCmd, ArcToCmd]

lemma last_cmd_append (A : List ℝ) (c : ℝ) (args : List ℝ) :
    (A ++ serSlot (c, args)).getD ((A ++ serSlot (c, args)).length - 1) 0 = c := by
  have hl : (A ++ serSlot (c, args)).length = A.length + (args.length + 2) := by
    simp [serSlot_length]
  rw [hl, show A.length + (args.length + 2) - 1 = A.length + (args.length + 1) by omega,
    getD_append_add, serSlot_getD_last]

lemma ser_cancel (s₁ : List (ℝ × List ℝ)) :
    ∀ (s : List (ℝ × List ℝ)) (d₂ : List ℝ),
    (∀ x ∈ s₁, SlotOK x) → (∀ x ∈ s, SlotOK x) →
    serializeSlots s₁ ++ d₂ = serializeSlots s →
    ∃ s₂, (∀ x ∈ s₂, SlotOK x) ∧ d₂ = serializeSlots s₂ := by
  induction s₁ with
  | nil =>
    intro s d₂ _ hok h
    exact ⟨s, hok, by simpa [serializeSlots] using h⟩
  | cons hd t ih =>
    intro s d₂ hok₁ hok h
    obtain ⟨c, args⟩ := hd
    cases s with
    | nil =>
      exfalso
      rw [serializeSlots_cons] at h
      simp [serSlot, serializeSlots] at h
    | cons hd2 t2 =>
      obtain ⟨c2, args2⟩ := hd2
      rw [serializeSlots_cons, serializeSlots_cons, List.append_assoc] at h
      have hc : c = c2 := by
        have h0 := congrArg (fun l => List.getD l 0 0) h
        simpa [serSlot] using h0
      subst hc
      have hlen : (serSlot (c, args)).length = (serSlot (c, args2)).length := by
        have h1 : args.length + 2 = cmdLen c := (hok₁ (c, args) (by simp)).2
        have h2 : args2.length + 2 = cmdLen c := (hok (c, args2) (by simp)).2
        simp only [serSlot_length]
        omega
      obtain ⟨-, h2⟩ := List.append_inj h hlen
      exact ih t2 d₂ (fun x hx => hok₁ x (by simp [hx])) (fun x hx => hok x (by simp [hx])) h2

lemma packed_of_prefix {d₁ d₂ : List ℝ} (h₁ : Packed d₁) (h : Packed (d₁ ++ d₂)) :
    Packed d₂ := by
  obtain ⟨s₁, hok₁, -, hd₁⟩ := h₁
  obtain ⟨s, hok, -, hd⟩ := h
  subst hd₁
  obtain ⟨s₂, hok₂, hd₂⟩ := ser_cancel s₁ s d₂ hok₁ hok hd
  exact ⟨s₂, hok₂, trivial, hd₂⟩


/-- The slot formula of the packed encoding: at every command start index the
command code is repeated at the last position of its slot, which lies within
the data. -/
lemma packed_slot_formula (d : List ℝ) (i : ℕ) (hd : Packed d) (hi : IsCmdStart d i) :
    d.getD i 0 = d.getD (i + cmdLen (d.getD i 0) - 1) 0 ∧
      i + cmdLen (d.getD i 0) ≤ d.length := by
  obtain ⟨d₁, d₂, hsplit, hlen, hp₁, hne⟩ := hi
  subst hsplit
  subst hlen
  have hp₂ : Packed d₂ := packed_of_prefix hp₁ hd
  obtain ⟨s₂, hok₂, -, hd₂⟩ := hp₂
  cases s₂ with
  | nil =>
    rw [show serializeSlots [] = [] from rfl] at hd₂
    exact absurd hd₂ hne
  | cons s t =>
    obtain ⟨c, args⟩ := s
    rw [serializeSlots_cons] at hd₂
    subst hd₂
    have hargs : args.length + 2 = cmdLen c := (hok₂ (c, args) (by simp)).2
    have h0 : (d₁ ++ (serSlot (c, args) ++ serializeSlots t)).getD d₁.length 0 = c := by
      have := getD_append_add d₁ (serSlot (c, args) ++ serializeSlots t) 0
      simp only [Nat.add_zero] at this
      rw [this, getD_append_lt _ _ 0 (by simp [serSlot_length]), serSlot_getD_zero]
    rw [h0]
    constructor
    · have h1 : d₁.length + cmdLen c - 1 = d₁.length + (args.length + 1) := by omega
      rw [h1, getD_append_add,
        getD_append_lt _ _ (args.length + 1) (by simp [serSlot_length]),
        serSlot_getD_last]
    · simp only [List.length_append, serSlot_length]
      omega

/-- MoveTo keeps the packed invariant: it overwrites the coordinates of a
trailing MoveTo slot in place, and otherwise appends a fresh MoveTo slot. -/
lemma packedWith_moveTo (P : List ℝ → Prop) (p : Path) (x y : ℝ)
    (happ : ∀ cs, P cs → cs.getLast? ≠ some MoveToCmd → P (cs ++ [MoveToCmd]))
    (hp : PackedWith P p.d) : PackedWith P (p.MoveTo x y).d := by
  obtain ⟨dl⟩ := p
  obtain ⟨slots, hok, hP, hd⟩ := hp
  simp only at hd hP
  rcases List.eq_nil_or_concat slots with hnil | ⟨init, s, hconcat⟩
  · subst hnil
    rw [show serializeSlots [] = [] from rfl] at hd
    subst hd
    rw [Path.MoveTo, if_neg (by simp)]
    refine ⟨[(MoveToCmd, [x, y])], ?_, ?_, ?_⟩
    · intro s hs
      simp at hs
      subst hs
      exact ⟨Or.inl rfl, by simp [cmdLen_moveTo]⟩
    · simpa using happ [] (by simpa using hP) (by simp)
    · simp [serializeSlots, serSlot]
  · subst hconcat
    rw [List.concat_eq_append] at hok hP hd
    obtain ⟨c, args⟩ := s
    rw [serializeSlots_concat] at hd
    subst hd
    have hcok : SlotOK (c, args) := hok _ (by simp)
    have hlast := last_cmd_append (serializeSlots init) c args
    by_cases hM : c = MoveToCmd
    · subst hM
      have hargs2 : args.length = 2 := by
        have h2 : args.length + 2 = cmdLen MoveToCmd := hcok.2
        rw [cmdLen_moveTo] at h2
        omega
      obtain ⟨a, b, hab⟩ := List.length_eq_two.mp hargs2
      subst hab
      rw [Path.MoveTo]
      rw [if_pos ⟨by simp [serSlot_length], hlast⟩]
      have h1 : (serializeSlots init ++ serSlot (MoveToCmd, [a, b])).length - 3
          = (serializeSlots init).length + 1 := by
        simp only [List.length_append, serSlot_length, List.length_cons, List.length_nil]
        omega
      have h2 : (serializeSlots init ++ serSlot (MoveToCmd, [a, b])).length - 2
          = (serializeSlots init).length + 2 := by
        simp only [List.length_append, serSlot_length, List.length_cons, List.length_nil]
        omega
      refine ⟨init ++ [(MoveToCmd, [x, y])], ?_, ?_, ?_⟩
      · intro s hs
        rcases List.mem_append.mp hs with h | h
        · exact hok s (by simp [h])
        · simp at h
          subst h
          exact ⟨Or.inl rfl, by simp [cmdLen_moveTo]⟩
      · simpa using hP
      · simp only [h1, h2, set_append_add, serializeSlots_concat]
        simp [serSlot]
    · rw [Path.MoveTo, if_neg (by
        rintro ⟨-, h⟩
        exact hM (hlast.symm.trans h))]
      refine ⟨(init ++ [(c, args)]) ++ [(MoveToCmd, [x, y])], ?_, ?_, ?_⟩
      · intro s hs
        rcases List.mem_append.mp hs with h | h
        · exact hok s h
        · simp at h
          subst h
          exact ⟨Or.inl rfl, by simp [cmdLen_moveTo]⟩
      · have hgl : ((init ++ [(c, args)]).map Prod.fst).getLast? = some c := by
          rw [List.map_append]
          simp
        have := happ ((init ++ [(c, args)]).map Prod.fst) hP (by simp [hgl, hM])
        simpa using this
      · rw [serializeSlots_concat, serializeSlots_concat]
        simp [serSlot]


/-- Overwriting the two coordinate values of a trailing 4-value slot keeps the
packed invariant and the command sequence. -/
lemma packedWith_set_last_coords (P : List ℝ → Prop) (dl : List ℝ) (c x y : ℝ)
    (hp : PackedWith P dl) (hc : dl.getD (dl.length - 1) 0 = c)
    (hlen4 : cmdLen c = 4) (hne : dl ≠ []) :
    PackedWith P ((dl.set (dl.length - 3) x).set (dl.length - 2) y) := by
  obtain ⟨slots, hok, hP, hd⟩ := hp
  rcases List.eq_nil_or_concat slots with hnil | ⟨init, s, hconcat⟩
  · subst hnil
    rw [show serializeSlots [] = [] from rfl] at hd
    exact absurd hd hne
  · subst hconcat
    rw [List.concat_eq_append] at hok hP
    rw [List.concat_eq_append, serializeSlots_concat] at hd
    subst hd
    obtain ⟨c0, args0⟩ := s
    have hc0 : c0 = c := by rw [← last_cmd_append (serializeSlots init) c0 args0, hc]
    subst hc0
    have hargs2 : args0.length = 2 := by
      have hx : args0.length + 2 = cmdLen c0 := (hok (c0, args0) (by simp)).2
      omega
    obtain ⟨a, b, hab⟩ := List.length_eq_two.mp hargs2
    subst hab
    have h1 : (serializeSlots init ++ serSlot (c0, [a, b])).length - 3
        = (serializeSlots init).length + 1 := by
      simp only [List.length_append, serSlot_length, List.length_cons, List.length_nil]
      omega
    have h2 : (serializeSlots init ++ serSlot (c0, [a, b])).length - 2
        = (serializeSlots init).length + 2 := by
      simp only [List.length_append, serSlot_length, List.length_cons, List.length_nil]
      omega
    refine ⟨init ++ [(c0, [x, y])], ?_, ?_, ?_⟩
    · intro s hs
      rcases List.mem_append.mp hs with h | h
      · exact hok s (List.mem_append.mpr (Or.inl h))
      · simp at h
        subst h
        exact ⟨(hok (c0, [a, b]) (by simp)).1, by simp [hlen4]⟩
    · simpa using hP
    · simp only [h1, h2, set_append_add, serializeSlots_concat]
      simp [serSlot]

/-- Appending a fresh slot after the implicit-MoveTo insertion step shared by
LineTo, QuadTo, CubeTo and ArcTo keeps the packed invariant.  The appended
slot is `c :: w` where `w` ends in the repeated command code `c`. -/
lemma packedWith_q_append (P : List ℝ → Prop) (p : Path) (c : ℝ) (w : List ℝ)
    (hc : ValidCmd c) (hcm : c ≠ MoveToCmd)
    (hwlast : w.getLast? = some c) (hwlen : w.length + 1 = cmdLen c)
    (h1 : ∀ c2, c2 ≠ MoveToCmd → P [] → P [MoveToCmd, c2])
    (h2 : ∀ cs c2, c2 ≠ MoveToCmd → P cs → cs.getLast? = some CloseCmd →
      P (cs ++ [MoveToCmd, c2]))
    (h3 : ∀ cs c2, c2 ≠ MoveToCmd → P cs → cs ≠ [] → cs.getLast? ≠ some CloseCmd →
      P (cs ++ [c2]))
    (hp : PackedWith P p.d) :
    PackedWith P ((if p.d.length = 0 then p.MoveTo 0 0
      else if p.d.getD (p.d.length - 1) 0 = CloseCmd then
        p.MoveTo (p.d.getD (p.d.length - 3) 0) (p.d.getD (p.d.length - 2) 0)
      else p).d ++ c :: w) := by
  have hwne : w ≠ [] := by
    intro h0
    rw [h0] at hwlast
    simp at hwlast
  obtain ⟨args, hw⟩ : ∃ args, w = args ++ [c] := by
    refine ⟨w.dropLast, ?_⟩
    have hgl : w.getLast hwne = c := by
      rw [List.getLast?_eq_getLast w hwne] at hwlast
      exact Option.some_injective _ hwlast
    rw [← hgl]
    exact (List.dropLast_append_getLast hwne).symm
  subst hw
  have hl : args.length + 2 = cmdLen c := by
    rw [List.length_append] at hwlen
    simpa using hwlen
  rw [show (c :: (args ++ [c])) = c :: args ++ [c] from rfl]
  obtain ⟨dl⟩ := p
  obtain ⟨slots, hok, hP, hd⟩ := hp
  simp only at hd hP ⊢
  rcases List.eq_nil_or_concat slots with hnil | ⟨init, s, hconcat⟩
  · subst hnil
    rw [show serializeSlots [] = [] from rfl] at hd
    subst hd
    norm_num [Path.MoveTo]
    refine ⟨[(MoveToCmd, [0, 0]), (c, args)], ?_, ?_, ?_⟩
    · intro s hs
      simp only [List.mem_cons, List.mem_singleton, List.not_mem_nil, or_false] at hs
      rcases hs with h | h
      · subst h
        exact ⟨Or.inl rfl, by simp [cmdLen_moveTo]⟩
      · subst h
        exact ⟨hc, hl⟩
    · simpa using h1 c hcm (by simpa using hP)
    · simp [serializeSlots, serSlot]
  · subst hconcat
    rw [List.concat_eq_append] at hok hP
    rw [List.concat_eq_append, serializeSlots_concat] at hd
    subst hd
    obtain ⟨c0, args0⟩ := s
    have hlast := last_cmd_append (serializeSlots init) c0 args0
    have hne : (serializeSlots init ++ serSlot (c0, args0)).length ≠ 0 := by
      simp [serSlot_length]
    rw [if_neg hne]
    by_cases hcl : c0 = CloseCmd
    · subst hcl
      rw [if_pos (by rw [hlast]), Path.MoveTo, if_neg (by
        rintro ⟨-, h⟩
        rw [hlast] at h
        norm_num [CloseCmd, MoveToCmd] at h)]
      refine ⟨(init ++ [(CloseCmd, args0)]) ++
        [(MoveToCmd, [(serializeSlots init ++ serSlot (CloseCmd, args0)).getD
            ((serializeSlots init ++ serSlot (CloseCmd, args0)).length - 3) 0,
          (serializeSlots init ++ serSlot (CloseCmd, args0)).getD
            ((serializeSlots init ++ serSlot (CloseCmd, args0)).length - 2) 0]),
        (c, args)], ?_, ?_, ?_⟩
      · intro s hs
        rcases List.mem_append.mp hs with h | h
        · exact hok s h
        · simp only [List.mem_cons, List.mem_singleton, List.not_mem_nil, or_false] at h
          rcases h with h | h
          · subst h
            exact ⟨Or.inl rfl, by simp [cmdLen_moveTo]⟩
          · subst h
            exact ⟨hc, hl⟩
      · have hgl : ((init ++ [(CloseCmd, args0)]).map Prod.fst).getLast? = some CloseCmd := by
          rw [List.map_append]
          simp
        have := h2 ((init ++ [(CloseCmd, args0)]).map Prod.fst) c hcm hP hgl
        simpa using this
      · simp [serializeSlots, serSlot]
    · rw [if_neg (by rw [hlast]; exact hcl)]
      refine ⟨(init ++ [(c0, args0)]) ++ [(c, args)], ?_, ?_, ?_⟩
      · intro s hs
        rcases List.mem_append.mp hs with h | h
        · exact hok s h
        · simp at h
          subst h
          exact ⟨hc, hl⟩
      · have hgl : ((init ++ [(c0, args0)]).map Prod.fst).getLast? = some c0 := by
          rw [List.map_append]
          simp
        have := h3 ((init ++ [(c0, args0)]).map Prod.fst) c hcm hP (by simp)
          (by simp [hgl, hcl])
        simpa using this
      · simp [serializeSlots, serSlot]


/-- Case split through the classical conditionals of the mutators. -/
lemma packedWith_ite {P : List ℝ → Prop} {C : Prop} [Decidable C] {a b : Path}
    (ha : C → PackedWith P a.d) (hb : ¬C → PackedWith P b.d) :
    PackedWith P (if C then a else b).d := by
  by_cases hC : C
  · rw [if_pos hC]
    exact ha hC
  · rw [if_neg hC]
    exact hb hC

/-- LineTo keeps the packed invariant in all three of its mutation branches. -/
lemma packedWith_lineTo (P : List ℝ → Prop) (p : Path) (x y : ℝ)
    (h1 : ∀ c2, c2 ≠ MoveToCmd → P [] → P [MoveToCmd, c2])
    (h2 : ∀ cs c2, c2 ≠ MoveToCmd → P cs → cs.getLast? = some CloseCmd →
      P (cs ++ [MoveToCmd, c2]))
    (h3 : ∀ cs c2, c2 ≠ MoveToCmd → P cs → cs ≠ [] → cs.getLast? ≠ some CloseCmd →
      P (cs ++ [c2]))
    (hp : PackedWith P p.d) : PackedWith P (p.LineTo x y).d := by
  have hLM : LineToCmd ≠ MoveToCmd := by norm_num [LineToCmd, MoveToCmd]
  simp only [Path.LineTo]
  refine packedWith_ite (fun _ => hp) (fun hEq => ?_)
  refine packedWith_ite (fun hCoal => ?_) (fun hnc => ?_)
  · refine packedWith_set_last_coords P p.d LineToCmd x y hp hCoal.2.1 cmdLen_lineTo ?_
    have h4 := hCoal.1
    rw [cmdLen_lineTo] at h4
    intro h0
    rw [h0] at h4
    simp at h4
  · exact packedWith_q_append P p LineToCmd [x, y, LineToCmd] (Or.inr (Or.inl rfl)) hLM
      (by simp) (by simp [cmdLen_lineTo]) h1 h2 h3 hp

/-- QuadTo keeps the packed invariant: no-op, demotion to LineTo, or a fresh
quadratic slot. -/
lemma packedWith_quadTo (P : List ℝ → Prop) (p : Path) (cpx cpy x y : ℝ)
    (h1 : ∀ c2, c2 ≠ MoveToCmd → P [] → P [MoveToCmd, c2])
    (h2 : ∀ cs c2, c2 ≠ MoveToCmd → P cs → cs.getLast? = some CloseCmd →
      P (cs ++ [MoveToCmd, c2]))
    (h3 : ∀ cs c2, c2 ≠ MoveToCmd → P cs → cs ≠ [] → cs.getLast? ≠ some CloseCmd →
      P (cs ++ [c2]))
    (hp : PackedWith P p.d) : PackedWith P (p.QuadTo cpx cpy x y).d := by
  have hQM : QuadToCmd ≠ MoveToCmd := by norm_num [QuadToCmd, MoveToCmd]
  simp only [Path.QuadTo]
  refine packedWith_ite (fun _ => hp) (fun hEq => ?_)
  refine packedWith_ite (fun hDem => ?_) (fun hnd => ?_)
  · exact packedWith_lineTo P p x y h1 h2 h3 hp
  · exact packedWith_q_append P p QuadToCmd [cpx, cpy, x, y, QuadToCmd]
      (Or.inr (Or.inr (Or.inl rfl))) hQM (by simp) (by simp [cmdLen_quadTo]) h1 h2 h3 hp

/-- CubeTo keeps the packed invariant: no-op, demotion to LineTo, or a fresh
cubic slot. -/
lemma packedWith_cubeTo (P : List ℝ → Prop) (p : Path) (cpx1 cpy1 cpx2 cpy2 x y : ℝ)
    (h1 : ∀ c2, c2 ≠ MoveToCmd → P [] → P [MoveToCmd, c2])
    (h2 : ∀ cs c2, c2 ≠ MoveToCmd → P cs → cs.getLast? = some CloseCmd →
      P (cs ++ [MoveToCmd, c2]))
    (h3 : ∀ cs c2, c2 ≠ MoveToCmd → P cs → cs ≠ [] → cs.getLast? ≠ some CloseCmd →
      P (cs ++ [c2]))
    (hp : PackedWith P p.d) :
    PackedWith P (p.CubeTo cpx1 cpy1 cpx2 cpy2 x y).d := by
  have hCM : CubeToCmd ≠ MoveToCmd := by norm_num [CubeToCmd, MoveToCmd]
  simp only [Path.CubeTo]
  refine packedWith_ite (fun _ => hp) (fun hEq => ?_)
  refine packedWith_ite (fun hDem => ?_) (fun hnd => ?_)
  · exact packedWith_lineTo P p x y h1 h2 h3 hp
  · exact packedWith_q_append P p CubeToCmd [cpx1, cpy1, cpx2, cpy2, x, y, CubeToCmd]
      (Or.inr (Or.inr (Or.inr (Or.inl rfl)))) hCM (by simp) (by simp [cmdLen_cubeTo])
      h1 h2 h3 hp

/-- ArcTo keeps the packed invariant: no-op, demotion to LineTo, or a fresh
arc slot with the canonicalised parameters. -/
lemma packedWith_arcTo (P : List ℝ → Prop) (p : Path) (rx0 ry0 rot0 : ℝ)
    (large sweep : Bool) (x y : ℝ)
    (h1 : ∀ c2, c2 ≠ MoveToCmd → P [] → P [MoveToCmd, c2])
    (h2 : ∀ cs c2, c2 ≠ MoveToCmd → P cs → cs.getLast? = some CloseCmd →
      P (cs ++ [MoveToCmd, c2]))
    (h3 : ∀ cs c2, c2 ≠ MoveToCmd → P cs → cs ≠ [] → cs.getLast? ≠ some CloseCmd →
      P (cs ++ [c2]))
    (hp : PackedWith P p.d) :
    PackedWith P (p.ArcTo rx0 ry0 rot0 large sweep x y).d := by
  have hAM : ArcToCmd ≠ MoveToCmd := by norm_num [ArcToCmd, MoveToCmd]
  simp only [Path.ArcTo]
  refine packedWith_ite (fun _ => hp) (fun hEq => ?_)
  refine packedWith_ite (fun hDem => ?_) (fun hnd => ?_)
  · exact packedWith_lineTo P p x y h1 h2 h3 hp
  · exact packedWith_q_append P p ArcToCmd _ (Or.inr (Or.inr (Or.inr (Or.inr (Or.inl rfl)))))
      hAM (by simp) (by simp [cmdLen_arcTo]) h1 h2 h3 hp


/-- Close on a trailing bare MoveTo removes that slot; the packed invariant
survives dropping the last slot. -/
lemma packedWith_take_moveTo (P : List ℝ → Prop) (dl : List ℝ)
    (hp : PackedWith P dl) (hM : dl.getD (dl.length - 1) 0 = MoveToCmd) (hne : dl ≠ [])
    (hdrop : ∀ cs, P (cs ++ [MoveToCmd]) → P cs) :
    PackedWith P (dl.take (dl.length - cmdLen MoveToCmd)) := by
  obtain ⟨slots, hok, hP, hd⟩ := hp
  rcases List.eq_nil_or_concat slots with hnil | ⟨init, s, hconcat⟩
  · subst hnil
    rw [show serializeSlots [] = [] from rfl] at hd
    exact absurd hd hne
  · subst hconcat
    rw [List.concat_eq_append] at hok hP
    rw [List.concat_eq_append, serializeSlots_concat] at hd
    subst hd
    obtain ⟨c0, args0⟩ := s
    have hc0 : c0 = MoveToCmd := by
      rw [← last_cmd_append (serializeSlots init) c0 args0, hM]
    subst hc0
    have hargs2 : args0.length = 2 := by
      have hx : args0.length + 2 = cmdLen MoveToCmd := (hok (MoveToCmd, args0) (by simp)).2
      rw [cmdLen_moveTo] at hx
      omega
    have hidx : (serializeSlots init ++ serSlot (MoveToCmd, args0)).length - cmdLen MoveToCmd
        = (serializeSlots init).length := by
      simp only [List.length_append, serSlot_length, cmdLen_moveTo]
      omega
    rw [hidx, List.take_left]
    refine ⟨init, fun s hs => hok s (List.mem_append.mpr (Or.inl hs)), ?_, rfl⟩
    exact hdrop (init.map Prod.fst) (by simpa using hP)

/-- Close replacing a trailing exact-closing LineTo by a Close slot (the two
command positions are overwritten) keeps the packed invariant. -/
lemma packedWith_close_replace1 (P : List ℝ → Prop) (dl : List ℝ)
    (hp : PackedWith P dl) (hL : dl.getD (dl.length - 1) 0 = LineToCmd) (hne : dl ≠ [])
    (hrepl : ∀ cs, P (cs ++ [LineToCmd]) → P (cs ++ [CloseCmd])) :
    PackedWith P ((dl.set (dl.length - 1) CloseCmd).set
      (dl.length - cmdLen LineToCmd) CloseCmd) := by
  obtain ⟨slots, hok, hP, hd⟩ := hp
  rcases List.eq_nil_or_concat slots with hnil | ⟨init, s, hconcat⟩
  · subst hnil
    rw [show serializeSlots [] = [] from rfl] at hd
    exact absurd hd hne
  · subst hconcat
    rw [List.concat_eq_append] at hok hP
    rw [List.concat_eq_append, serializeSlots_concat] at hd
    subst hd
    obtain ⟨c0, args0⟩ := s
    have hc0 : c0 = LineToCmd := by
      rw [← last_cmd_append (serializeSlots init) c0 args0, hL]
    subst hc0
    have hargs2 : args0.length = 2 := by
      have hx : args0.length + 2 = cmdLen LineToCmd := (hok (LineToCmd, args0) (by simp)).2
      rw [cmdLen_lineTo] at hx
      omega
    obtain ⟨a, b, hab⟩ := List.length_eq_two.mp hargs2
    subst hab
    have h1 : (serializeSlots init ++ serSlot (LineToCmd, [a, b])).length - 1
        = (serializeSlots init).length + 3 := by
      simp only [List.length_append, serSlot_length, List.length_cons, List.length_nil]
      omega
    have h2 : (serializeSlots init ++ serSlot (LineToCmd, [a, b])).length - cmdLen LineToCmd
        = (serializeSlots init).length + 0 := by
      simp only [List.length_append, serSlot_length, List.length_cons, List.length_nil,
        cmdLen_lineTo]
      omega
    refine ⟨init ++ [(CloseCmd, [a, b])], ?_, ?_, ?_⟩
    · intro s hs
      rcases List.mem_append.mp hs with h | h
      · exact hok s (List.mem_append.mpr (Or.inl h))
      · simp at h
        subst h
        exact ⟨Or.inr (Or.inr (Or.inr (Or.inr (Or.inr rfl)))), by simp [cmdLen_close]⟩
    · have hPL : P (init.map Prod.fst ++ [LineToCmd]) := by simpa using hP
      have := hrepl (init.map Prod.fst) hPL
      simpa using this
    · rw [h1, set_append_add, h2, set_append_add, serializeSlots_concat]
      simp [serSlot]


/-- Close replacing a trailing extending LineTo in place (command positions
overwritten with Close, coordinates with the subpath start) keeps the packed
invariant. -/
lemma packedWith_close_replace2 (P : List ℝ → Prop) (dl : List ℝ) (X Y : ℝ)
    (hp : PackedWith P dl) (hL : dl.getD (dl.length - 1) 0 = LineToCmd) (hne : dl ≠ [])
    (hrepl : ∀ cs, P (cs ++ [LineToCmd]) → P (cs ++ [CloseCmd])) :
    PackedWith P ((((dl.set (dl.length - cmdLen LineToCmd) CloseCmd).set
      (dl.length - 3) X).set (dl.length - 2) Y).set (dl.length - 1) CloseCmd) := by
  obtain ⟨slots, hok, hP, hd⟩ := hp
  rcases List.eq_nil_or_concat slots with hnil | ⟨init, s, hconcat⟩
  · subst hnil
    rw [show serializeSlots [] = [] from rfl] at hd
    exact absurd hd hne
  · subst hconcat
    rw [List.concat_eq_append] at hok hP
    rw [List.concat_eq_append, serializeSlots_concat] at hd
    subst hd
    obtain ⟨c0, args0⟩ := s
    have hc0 : c0 = LineToCmd := by
      rw [← last_cmd_append (serializeSlots init) c0 args0, hL]
    subst hc0
    have hargs2 : args0.length = 2 := by
      have hx : args0.length + 2 = cmdLen LineToCmd := (hok (LineToCmd, args0) (by simp)).2
      rw [cmdLen_lineTo] at hx
      omega
    obtain ⟨a, b, hab⟩ := List.length_eq_two.mp hargs2
    subst hab
    have h0 : (serializeSlots init ++ serSlot (LineToCmd, [a, b])).length - cmdLen LineToCmd
        = (serializeSlots init).length + 0 := by
      simp only [List.length_append, serSlot_length, List.length_cons, List.length_nil,
        cmdLen_lineTo]
      omega
    have h1 : (serializeSlots init ++ serSlot (LineToCmd, [a, b])).length - 3
        = (serializeSlots init).length + 1 := by
      simp only [List.length_append, serSlot_length, List.length_cons, List.length_nil]
      omega
    have h2 : (serializeSlots init ++ serSlot (LineToCmd, [a, b])).length - 2
        = (serializeSlots init).length + 2 := by
      simp only [List.length_append, serSlot_length, List.length_cons, List.length_nil]
      omega
    have h3 : (serializeSlots init ++ serSlot (LineToCmd, [a, b])).length - 1
        = (serializeSlots init).length + 3 := by
      simp only [List.length_append, serSlot_length, List.length_cons, List.length_nil]
      omega
    refine ⟨init ++ [(CloseCmd, [X, Y])], ?_, ?_, ?_⟩
    · intro s hs
      rcases List.mem_append.mp hs with h | h
      · exact hok s (List.mem_append.mpr (Or.inl h))
      · simp at h
        subst h
        exact ⟨Or.inr (Or.inr (Or.inr (Or.inr (Or.inr rfl)))), by simp [cmdLen_close]⟩
    · have hPL : P (init.map Prod.fst ++ [LineToCmd]) := by simpa using hP
      have := hrepl (init.map Prod.fst) hPL
      simpa using this
    · rw [h0, set_append_add, h1, set_append_add, h2, set_append_add, h3, set_append_add,
        serializeSlots_concat]
      simp [serSlot]

/-- Close appending a fresh Close slot (the general case) keeps the packed
invariant. -/
lemma packedWith_append_close (P : List ℝ → Prop) (dl : List ℝ) (eX eY : ℝ)
    (hp : PackedWith P dl) (hne : dl ≠ [])
    (hlast : dl.getD (dl.length - 1) 0 ≠ CloseCmd)
    (h3 : ∀ cs c2, c2 ≠ MoveToCmd → P cs → cs ≠ [] → cs.getLast? ≠ some CloseCmd →
      P (cs ++ [c2])) :
    PackedWith P (dl ++ [CloseCmd, eX, eY, CloseCmd]) := by
  obtain ⟨slots, hok, hP, hd⟩ := hp
  rcases List.eq_nil_or_concat slots with hnil | ⟨init, s, hconcat⟩
  · subst hnil
    rw [show serializeSlots [] = [] from rfl] at hd
    exact absurd hd hne
  · subst hconcat
    rw [List.concat_eq_append] at hok hP
    rw [List.concat_eq_append, serializeSlots_concat] at hd
    subst hd
    obtain ⟨c0, args0⟩ := s
    have hlast2 := last_cmd_append (serializeSlots init) c0 args0
    have hc0 : c0 ≠ CloseCmd := by
      intro h0
      exact hlast (by rw [hlast2, h0])
    refine ⟨(init ++ [(c0, args0)]) ++ [(CloseCmd, [eX, eY])], ?_, ?_, ?_⟩
    · intro s hs
      rcases List.mem_append.mp hs with h | h
      · exact hok s h
      · simp at h
        subst h
        exact ⟨Or.inr (Or.inr (Or.inr (Or.inr (Or.inr rfl)))), by simp [cmdLen_close]⟩
    · have hgl : ((init ++ [(c0, args0)]).map Prod.fst).getLast? = some c0 := by
        rw [List.map_append]
        simp
      have := h3 ((init ++ [(c0, args0)]).map Prod.fst) CloseCmd
        (by norm_num [CloseCmd, MoveToCmd]) hP (by simp) (by simp [hgl, hc0])
      simpa using this
    · simp [serializeSlots, serSlot]

/-- Close keeps the packed invariant in all five of its branches. -/
lemma packedWith_close (P : List ℝ → Prop) (p : Path)
    (hdrop : ∀ cs, P (cs ++ [MoveToCmd]) → P cs)
    (hrepl : ∀ cs, P (cs ++ [LineToCmd]) → P (cs ++ [CloseCmd]))
    (h3 : ∀ cs c2, c2 ≠ MoveToCmd → P cs → cs ≠ [] → cs.getLast? ≠ some CloseCmd →
      P (cs ++ [c2]))
    (hp : PackedWith P p.d) : PackedWith P p.Close.d := by
  simp only [Path.Close]
  refine packedWith_ite (fun _ => hp) (fun hnc => ?_)
  have hne : p.d ≠ [] := by
    intro h0
    exact (not_or.mp hnc).1 (by rw [h0]; rfl)
  have hlastc : p.d.getD (p.d.length - 1) 0 ≠ CloseCmd := (not_or.mp hnc).2
  refine packedWith_ite (fun hM => ?_) (fun hnm => ?_)
  · exact packedWith_take_moveTo P p.d hp hM hne hdrop
  refine packedWith_ite (fun hL1 => ?_) (fun hnl1 => ?_)
  · exact packedWith_close_replace1 P p.d hp hL1.1 hne hrepl
  refine packedWith_ite (fun hL2 => ?_) (fun hnl2 => ?_)
  · exact packedWith_close_replace2 P p.d p.StartPos.X p.StartPos.Y hp hL2.1 hne hrepl
  · exact packedWith_append_close P p.d p.StartPos.X p.StartPos.Y hp hne hlastc h3


lemma validCmd_moveTo : ValidCmd MoveToCmd := Or.inl rfl

lemma validCmd_lineTo : ValidCmd LineToCmd := Or.inr (Or.inl rfl)

lemma validCmd_quadTo : ValidCmd QuadToCmd := Or.inr (Or.inr (Or.inl rfl))

lemma validCmd_cubeTo : ValidCmd CubeToCmd := Or.inr (Or.inr (Or.inr (Or.inl rfl)))

lemma validCmd_arcTo : ValidCmd ArcToCmd := Or.inr (Or.inr (Or.inr (Or.inr (Or.inl rfl))))

lemma validCmd_close : ValidCmd CloseCmd := Or.inr (Or.inr (Or.inr (Or.inr (Or.inr rfl))))

/-- Appending one well-formed slot to packed data keeps it packed. -/
lemma packed_append_slot {d : List ℝ} (hd : Packed d) (c : ℝ) (args : List ℝ)
    (hc : ValidCmd c) (hl : args.length + 2 = cmdLen c) :
    Packed (d ++ (c :: args ++ [c])) := by
  obtain ⟨slots, hok, -, hdd⟩ := hd
  subst hdd
  refine ⟨slots ++ [(c, args)], ?_, trivial, ?_⟩
  · intro s hs
    rcases List.mem_append.mp hs with h | h
    · exact hok s h
    · simp at h
      subst h
      exact ⟨hc, hl⟩
  · rw [serializeSlots_concat]
    simp [serSlot]

/-- Literal-list forms of `packed_append_slot` for the three slot widths. -/
lemma packed_append4 {d : List ℝ} (hd : Packed d) (c x1 x2 : ℝ)
    (hc : ValidCmd c) (h4 : cmdLen c = 4) : Packed (d ++ [c, x1, x2, c]) :=
  packed_append_slot hd c [x1, x2] hc (by simp [h4])

lemma packed_append6 {d : List ℝ} (hd : Packed d) (c x1 x2 x3 x4 : ℝ)
    (hc : ValidCmd c) (h6 : cmdLen c = 6) : Packed (d ++ [c, x1, x2, x3, x4, c]) :=
  packed_append_slot hd c [x1, x2, x3, x4] hc (by simp [h6])

lemma packed_append8 {d : List ℝ} (hd : Packed d) (c x1 x2 x3 x4 x5 x6 : ℝ)
    (hc : ValidCmd c) (h8 : cmdLen c = 8) :
    Packed (d ++ [c, x1, x2, x3, x4, x5, x6, c]) :=
  packed_append_slot hd c [x1, x2, x3, x4, x5, x6] hc (by simp [h8])

/-- The reverse fold emits whole well-formed slots only, so its result stays
packed whatever the accumulated output was. -/
lemma reverseLoop_packed (d : List ℝ) (slots : List (ℝ × List ℝ)) :
    ∀ (rest : List ℝ), (∀ s ∈ slots, SlotOK s) →
    d = serializeSlots slots ++ rest →
    ∀ (closed : Prop) (first start : Point) (acc : List ℝ), Packed acc →
    Packed (reverseLoop d (serializeSlots slots).length closed first start acc) := by
  induction slots using List.reverseRecOn with
  | nil =>
    intro rest hok hd closed first start acc hacc
    rw [reverseLoop, if_neg (by simp [serializeSlots])]
    by_cases hc : closed
    · rw [if_pos hc]
      exact packed_append4 hacc CloseCmd first.X first.Y validCmd_close cmdLen_close
    · rw [if_neg hc]
      exact hacc
  | append_singleton init s ih =>
    intro rest hok hd closed first start acc hacc
    obtain ⟨c, args⟩ := s
    have hvc : ValidCmd c := (hok (c, args) (by simp)).1
    have hargs : args.length + 2 = cmdLen c := (hok (c, args) (by simp)).2
    have hok2 : ∀ s ∈ init, SlotOK s := fun s hs => hok s (by simp [hs])
    have hd2 : d = serializeSlots init ++ (serSlot (c, args) ++ rest) := by
      rw [hd, serializeSlots_concat, List.append_assoc]
    have hL : (serializeSlots (init ++ [(c, args)])).length
        = (serializeSlots init).length + cmdLen c := by
      rw [serializeSlots_concat]
      simp only [List.length_append, serSlot_length]
      omega
    have hcmd : d.getD ((serializeSlots (init ++ [(c, args)])).length - 1) 0 = c := by
      rw [hd2, hL, show (serializeSlots init).length + cmdLen c - 1
          = (serializeSlots init).length + (args.length + 1) by omega, getD_append_add,
        getD_append_lt _ _ _ (by simp [serSlot_length]), serSlot_getD_last]
    have hj : (serializeSlots (init ++ [(c, args)])).length - cmdLen c
        = (serializeSlots init).length := by
      rw [hL]
      omega
    rw [reverseLoop, if_pos (by rw [hL]; have := cmdLen_pos c; omega)]
    simp only [hcmd, hj]
    rcases hvc with hc | hc | hc | hc | hc | hc
    all_goals subst hc
    · -- MoveTo
      rw [if_pos rfl]
      by_cases hcl : closed
      · rw [if_pos hcl]
        by_cases hj0 : (serializeSlots init).length ≠ 0
        · rw [if_pos hj0]
          exact ih _ hok2 hd2 _ _ _ _ (packed_append4 (packed_append4 hacc
            CloseCmd first.X first.Y validCmd_close cmdLen_close)
            MoveToCmd _ _ validCmd_moveTo cmdLen_moveTo)
        · rw [if_neg hj0]
          exact ih _ hok2 hd2 _ _ _ _ (packed_append4 hacc
            CloseCmd first.X first.Y validCmd_close cmdLen_close)
      · rw [if_neg hcl]
        by_cases hj0 : (serializeSlots init).length ≠ 0
        · rw [if_pos hj0]
          exact ih _ hok2 hd2 _ _ _ _ (packed_append4 hacc
            MoveToCmd _ _ validCmd_moveTo cmdLen_moveTo)
        · rw [if_neg hj0]
          exact ih _ hok2 hd2 _ _ _ _ hacc
    · -- LineTo
      rw [if_neg (by norm_num [LineToCmd, MoveToCmd]), if_neg (by norm_num [LineToCmd, CloseCmd]),
        if_pos rfl]
      by_cases hcc : closed ∧ ((serializeSlots init).length = 0 ∨
          d.getD ((serializeSlots init).length - 1) 0 = MoveToCmd)
      · rw [if_pos hcc]
        exact ih _ hok2 hd2 _ _ _ _ (packed_append4 hacc
          CloseCmd first.X first.Y validCmd_close cmdLen_close)
      · rw [if_neg hcc]
        exact ih _ hok2 hd2 _ _ _ _ (packed_append4 hacc
          LineToCmd _ _ validCmd_lineTo cmdLen_lineTo)
    · -- QuadTo
      rw [if_neg (by norm_num [QuadToCmd, MoveToCmd]), if_neg (by norm_num [QuadToCmd, CloseCmd]),
        if_neg (by norm_num [QuadToCmd, LineToCmd]), if_pos rfl]
      exact ih _ hok2 hd2 _ _ _ _ (packed_append6 hacc
        QuadToCmd _ _ _ _ validCmd_quadTo cmdLen_quadTo)
    · -- CubeTo
      rw [if_neg (by norm_num [CubeToCmd, MoveToCmd]), if_neg (by norm_num [CubeToCmd, CloseCmd]),
        if_neg (by norm_num [CubeToCmd, LineToCmd]), if_neg (by norm_num [CubeToCmd, QuadToCmd]),
        if_pos rfl]
      exact ih _ hok2 hd2 _ _ _ _ (packed_append8 hacc
        CubeToCmd _ _ _ _ _ _ validCmd_cubeTo cmdLen_cubeTo)
    · -- ArcTo
      rw [if_neg (by norm_num [ArcToCmd, MoveToCmd]), if_neg (by norm_num [ArcToCmd, CloseCmd]),
        if_neg (by norm_num [ArcToCmd, LineToCmd]), if_neg (by norm_num [ArcToCmd, QuadToCmd]),
        if_neg (by norm_num [ArcToCmd, CubeToCmd]), if_pos rfl]
      exact ih _ hok2 hd2 _ _ _ _ (packed_append8 hacc
        ArcToCmd _ _ _ _ _ _ validCmd_arcTo cmdLen_arcTo)
    · -- Close
      rw [if_neg (by norm_num [CloseCmd, MoveToCmd]), if_pos rfl]
      by_cases heq : ¬start.Equals (if 0 < (serializeSlots init).length then
          ⟨d.getD ((serializeSlots init).length - 3) 0,
           d.getD ((serializeSlots init).length - 2) 0⟩ else ⟨0, 0⟩)
      · rw [if_pos heq]
        exact ih _ hok2 hd2 _ _ _ _ (packed_append4 hacc
          LineToCmd _ _ validCmd_lineTo cmdLen_lineTo)
      · rw [if_neg heq]
        exact ih _ hok2 hd2 _ _ _ _ hacc


lemma packed_nil : Packed [] := ⟨[], by simp, trivial, rfl⟩

/-- Literal-list forms of slot-cons for the three slot widths. -/
lemma packed_cons4 {t : List ℝ} (ht : Packed t) (c x1 x2 : ℝ)
    (hc : ValidCmd c) (h4 : cmdLen c = 4) : Packed ([c, x1, x2, c] ++ t) := by
  obtain ⟨slots, hok, -, hd⟩ := ht
  subst hd
  refine ⟨(c, [x1, x2]) :: slots, ?_, trivial, by simp [serializeSlots_cons, serSlot]⟩
  intro s hs
  rcases List.mem_cons.mp hs with h | h
  · subst h
    exact ⟨hc, by simp [h4]⟩
  · exact hok s h

lemma packed_cons6 {t : List ℝ} (ht : Packed t) (c x1 x2 x3 x4 : ℝ)
    (hc : ValidCmd c) (h6 : cmdLen c = 6) : Packed ([c, x1, x2, x3, x4, c] ++ t) := by
  obtain ⟨slots, hok, -, hd⟩ := ht
  subst hd
  refine ⟨(c, [x1, x2, x3, x4]) :: slots, ?_, trivial,
    by simp [serializeSlots_cons, serSlot]⟩
  intro s hs
  rcases List.mem_cons.mp hs with h | h
  · subst h
    exact ⟨hc, by simp [h6]⟩
  · exact hok s h

lemma packed_cons8 {t : List ℝ} (ht : Packed t) (c x1 x2 x3 x4 x5 x6 : ℝ)
    (hc : ValidCmd c) (h8 : cmdLen c = 8) :
    Packed ([c, x1, x2, x3, x4, x5, x6, c] ++ t) := by
  obtain ⟨slots, hok, -, hd⟩ := ht
  subst hd
  refine ⟨(c, [x1, x2, x3, x4, x5, x6]) :: slots, ?_, trivial,
    by simp [serializeSlots_cons, serSlot]⟩
  intro s hs
  rcases List.mem_cons.mp hs with h | h
  · subst h
    exact ⟨hc, by simp [h8]⟩
  · exact hok s h

/-- The transform fold rewrites the stream slot by slot, so its result is
packed. -/
lemma transformLoop_packed (m : Matrix) (xs ys : ℝ) (slots : List (ℝ × List ℝ)) :
    (∀ s ∈ slots, SlotOK s) →
    Packed (transformLoop m xs ys (serializeSlots slots)) := by
  induction slots with
  | nil =>
    intro hok
    rw [transformLoop, if_pos (by simp [serializeSlots])]
    exact packed_nil
  | cons s t ih =>
    intro hok
    obtain ⟨c, args⟩ := s
    have hvc : ValidCmd c := (hok (c, args) (by simp)).1
    have hargs : args.length + 2 = cmdLen c := (hok (c, args) (by simp)).2
    have hok2 : ∀ x ∈ t, SlotOK x := fun x hx => hok x (by simp [hx])
    rw [serializeSlots_cons, transformLoop,
      if_neg (by simp only [List.length_append, serSlot_length]; omega)]
    have hcmd : (serSlot (c, args) ++ serializeSlots t).getD 0 0 = c := by
      rw [getD_append_lt _ _ 0 (by simp [serSlot_length])]
      exact serSlot_getD_zero c args
    have hdrop : (serSlot (c, args) ++ serializeSlots t).drop (cmdLen c)
        = serializeSlots t := by
      rw [show cmdLen c = (serSlot (c, args)).length by simp only [serSlot_length]; omega]
      exact List.drop_left _ _
    simp only [hcmd, hdrop]
    have htail : ∀ k, args.length + 1 = k →
        (serSlot (c, args) ++ serializeSlots t).getD k 0 = c := by
      rintro k rfl
      rw [getD_append_lt _ _ _ (by simp [serSlot_length]), serSlot_getD_last]
    rcases hvc with hc | hc | hc | hc | hc | hc
    all_goals subst hc
    · rw [if_pos (Or.inl rfl)]
      rw [htail 3 (by rw [cmdLen_moveTo] at hargs; omega)]
      exact packed_cons4 (ih hok2) _ _ _ validCmd_moveTo cmdLen_moveTo
    · rw [if_pos (Or.inr (Or.inl rfl))]
      rw [htail 3 (by rw [cmdLen_lineTo] at hargs; omega)]
      exact packed_cons4 (ih hok2) _ _ _ validCmd_lineTo cmdLen_lineTo
    · rw [if_neg (by norm_num [QuadToCmd, MoveToCmd, LineToCmd, CloseCmd]), if_pos rfl]
      rw [htail 5 (by rw [cmdLen_quadTo] at hargs; omega)]
      exact packed_cons6 (ih hok2) _ _ _ _ _ validCmd_quadTo cmdLen_quadTo
    · rw [if_neg (by norm_num [CubeToCmd, MoveToCmd, LineToCmd, CloseCmd]),
        if_neg (by norm_num [CubeToCmd, QuadToCmd]), if_pos rfl]
      rw [htail 7 (by rw [cmdLen_cubeTo] at hargs; omega)]
      exact packed_cons8 (ih hok2) _ _ _ _ _ _ _ validCmd_cubeTo cmdLen_cubeTo
    · rw [if_neg (by norm_num [ArcToCmd, MoveToCmd, LineToCmd, CloseCmd]),
        if_neg (by norm_num [ArcToCmd, QuadToCmd]),
        if_neg (by norm_num [ArcToCmd, CubeToCmd]), if_pos rfl]
      rw [htail 7 (by rw [cmdLen_arcTo] at hargs; omega)]
      exact packed_cons8 (ih hok2) _ _ _ _ _ _ _ validCmd_arcTo cmdLen_arcTo
    · rw [if_pos (Or.inr (Or.inr rfl))]
      rw [htail 3 (by rw [cmdLen_close] at hargs; omega)]
      exact packed_cons4 (ih hok2) _ _ _ validCmd_close cmdLen_close


/-- Reverse keeps the packed invariant. -/
lemma packed_reverse (p : Path) (hp : Packed p.d) : Packed p.Reverse.d := by
  simp only [Path.Reverse]
  refine packedWith_ite (fun _ => hp) (fun hne => ?_)
  obtain ⟨slots, hok, -, hd⟩ := hp
  have hlen : p.d.length = (serializeSlots slots).length := by rw [hd]
  simp only [hlen]
  exact reverseLoop_packed p.d slots [] hok (by rw [hd, List.append_nil]) False _ _ _
    (packed_cons4 packed_nil MoveToCmd _ _ validCmd_moveTo cmdLen_moveTo)

/-- Transform keeps the packed invariant. -/
lemma packed_transform (p : Path) (m : Matrix) (hp : Packed p.d) :
    Packed (p.Transform m).d := by
  simp only [Path.Transform]
  obtain ⟨slots, hok, -, hd⟩ := hp
  rw [hd]
  exact transformLoop_packed m _ _ slots hok

/-- C9: the packed-encoding invariant.  Every mutator, Reverse and Transform
keeps the data a concatenation of well-formed slots, and in packed data the
command value at every command start index `i` is repeated at the last
position of its slot: `d[i] = d[i + cmdLen d[i] - 1]`, within bounds. -/
theorem C9_packed_invariant :
    (∀ (p : Path) (x y : ℝ), Packed p.d → Packed (p.MoveTo x y).d) ∧
    (∀ (p : Path) (x y : ℝ), Packed p.d → Packed (p.LineTo x y).d) ∧
    (∀ (p : Path) (cpx cpy x y : ℝ), Packed p.d → Packed (p.QuadTo cpx cpy x y).d) ∧
    (∀ (p : Path) (c1x c1y c2x c2y x y : ℝ), Packed p.d →
      Packed (p.CubeTo c1x c1y c2x c2y x y).d) ∧
    (∀ (p : Path) (rx ry rot : ℝ) (large sweep : Bool) (x y : ℝ), Packed p.d →
      Packed (p.ArcTo rx ry rot large sweep x y).d) ∧
    (∀ p : Path, Packed p.d → Packed p.Close.d) ∧
    (∀ p : Path, Packed p.d → Packed p.Reverse.d) ∧
    (∀ (p : Path) (m : Matrix), Packed p.d → Packed (p.Transform m).d) ∧
    (∀ (d : List ℝ) (i : ℕ), Packed d → IsCmdStart d i →
      d.getD i 0 = d.getD (i + cmdLen (d.getD i 0) - 1) 0 ∧
        i + cmdLen (d.getD i 0) ≤ d.length) := by
  have t1 : ∀ c2 : ℝ, c2 ≠ MoveToCmd → (fun _ : List ℝ => True) [] →
      (fun _ : List ℝ => True) [MoveToCmd, c2] := fun _ _ _ => trivial
  have t2 : ∀ (cs : List ℝ) (c2 : ℝ), c2 ≠ MoveToCmd → (fun _ : List ℝ => True) cs →
      cs.getLast? = some CloseCmd → (fun _ : List ℝ => True) (cs ++ [MoveToCmd, c2]) :=
    fun _ _ _ _ _ => trivial
  have t3 : ∀ (cs : List ℝ) (c2 : ℝ), c2 ≠ MoveToCmd → (fun _ : List ℝ => True) cs →
      cs ≠ [] → cs.getLast? ≠ some CloseCmd → (fun _ : List ℝ => True) (cs ++ [c2]) :=
    fun _ _ _ _ _ _ => trivial
  refine ⟨fun p x y hp => packedWith_moveTo _ p x y (fun _ _ _ => trivial) hp,
    fun p x y hp => packedWith_lineTo _ p x y t1 t2 t3 hp,
    fun p cpx cpy x y hp => packedWith_quadTo _ p cpx cpy x y t1 t2 t3 hp,
    fun p c1x c1y c2x c2y x y hp => packedWith_cubeTo _ p c1x c1y c2x c2y x y t1 t2 t3 hp,
    fun p rx ry rot large sweep x y hp =>
      packedWith_arcTo _ p rx ry rot large sweep x y t1 t2 t3 hp,
    fun p hp => packedWith_close _ p (fun _ _ => trivial) (fun _ _ => trivial) t3 hp,
    fun p hp => packed_reverse p hp,
    fun p m hp => packed_transform p m hp,
    fun d i hp hi => packed_slot_formula d i hp hi⟩

/-- Witness for C9: a MoveTo-then-LineTo path, at the LineTo start index 4. -/
theorem C9_packed_invariant_witness :
    Packed [MoveToCmd, 5, 6, MoveToCmd, LineToCmd, 7, 8, LineToCmd] ∧
    IsCmdStart [MoveToCmd, 5, 6, MoveToCmd, LineToCmd, 7, 8, LineToCmd] 4 ∧
    ([MoveToCmd, 5, 6, MoveToCmd, LineToCmd, 7, 8, LineToCmd].getD 4 0
      = [MoveToCmd, 5, 6, MoveToCmd, LineToCmd, 7, 8, LineToCmd].getD
        (4 + cmdLen ([MoveToCmd, 5, 6, MoveToCmd, LineToCmd, 7, 8, LineToCmd].getD 4 0) - 1) 0 ∧
      4 + cmdLen ([MoveToCmd, 5, 6, MoveToCmd, LineToCmd, 7, 8, LineToCmd].getD 4 0)
        ≤ [MoveToCmd, 5, 6, MoveToCmd, LineToCmd, 7, 8, LineToCmd].length) := by
  have hpacked : Packed [MoveToCmd, 5, 6, MoveToCmd, LineToCmd, 7, 8, LineToCmd] := by
    refine ⟨[(MoveToCmd, [5, 6]), (LineToCmd, [7, 8])], ?_, trivial,
      by simp [serializeSlots, serSlot]⟩
    intro s hs
    simp only [List.mem_cons, List.not_mem_nil, or_false] at hs
    rcases hs with h | h
    · subst h
      exact ⟨validCmd_moveTo, by simp [cmdLen_moveTo]⟩
    · subst h
      exact ⟨validCmd_lineTo, by simp [cmdLen_lineTo]⟩
  have hstart : IsCmdStart [MoveToCmd, 5, 6, MoveToCmd, LineToCmd, 7, 8, LineToCmd] 4 := by
    refine ⟨[MoveToCmd, 5, 6, MoveToCmd], [LineToCmd, 7, 8, LineToCmd], by simp, by simp,
      ?_, by simp⟩
    refine ⟨[(MoveToCmd, [5, 6])], ?_, trivial, by simp [serializeSlots, serSlot]⟩
    intro s hs
    simp only [List.mem_singleton] at hs
    subst hs
    exact ⟨validCmd_moveTo, by simp [cmdLen_moveTo]⟩
  exact ⟨hpacked, hstart,
    C9_packed_invariant.2.2.2.2.2.2.2.2 _ 4 hpacked hstart⟩


/-- Reads within a trailing 4-value slot, literal-list forms. -/
lemma getD_last_lit4 (A : List ℝ) (c a b : ℝ) :
    (A ++ [c, a, b, c]).getD ((A ++ [c, a, b, c]).length - 1) 0 = c :=
  last_cmd_append A c [a, b]

lemma getD_coord1_lit4 (A : List ℝ) (c a b : ℝ) :
    (A ++ [c, a, b, c]).getD ((A ++ [c, a, b, c]).length - 3) 0 = a := by
  have h : (A ++ [c, a, b, c]).length - 3 = A.length + 1 := by
    simp only [List.length_append, List.length_cons, List.length_nil]
    omega
  rw [h, getD_append_add]
  rfl

lemma getD_coord2_lit4 (A : List ℝ) (c a b : ℝ) :
    (A ++ [c, a, b, c]).getD ((A ++ [c, a, b, c]).length - 2) 0 = b := by
  have h : (A ++ [c, a, b, c]).length - 2 = A.length + 2 := by
    simp only [List.length_append, List.length_cons, List.length_nil]
    omega
  rw [h, getD_append_add]
  rfl

/-- The in-place MoveTo overwrite, as a data equation: only the two
coordinates of the trailing MoveTo slot change. -/
lemma moveTo_overwrite (d1 : List ℝ) (x0 y0 x y : ℝ) :
    (Path.MoveTo ⟨d1 ++ [MoveToCmd, x0, y0, MoveToCmd]⟩ x y).d
      = d1 ++ [MoveToCmd, x, y, MoveToCmd] := by
  simp only [Path.MoveTo]
  rw [if_pos ⟨by simp, getD_last_lit4 d1 MoveToCmd x0 y0⟩]
  have h1 : (d1 ++ [MoveToCmd, x0, y0, MoveToCmd]).length - 3 = d1.length + 1 := by
    simp only [List.length_append, List.length_cons, List.length_nil]
    omega
  have h2 : (d1 ++ [MoveToCmd, x0, y0, MoveToCmd]).length - 2 = d1.length + 2 := by
    simp only [List.length_append, List.length_cons, List.length_nil]
    omega
  rw [h1, h2, set_append_add, set_append_add]
  rfl

lemma noConsecutiveMoveTo_nil : noConsecutiveMoveTo [] := List.chain'_nil

/-- Closure facts of the no-consecutive-MoveTo command predicate. -/
lemma noMM_snoc_moveTo : ∀ cs : List ℝ, noConsecutiveMoveTo cs →
    cs.getLast? ≠ some MoveToCmd → noConsecutiveMoveTo (cs ++ [MoveToCmd]) := by
  intro cs h hlast
  rw [noConsecutiveMoveTo, List.chain'_append]
  refine ⟨h, List.chain'_singleton _, ?_⟩
  intro cl hcl cm hcm
  simp only [List.head?_cons, Option.mem_def, Option.some.injEq] at hcm
  subst hcm
  rintro ⟨hclM, -⟩
  rw [Option.mem_def] at hcl
  rw [hclM] at hcl
  exact hlast hcl

lemma noMM_t1 : ∀ c2 : ℝ, c2 ≠ MoveToCmd → noConsecutiveMoveTo [] →
    noConsecutiveMoveTo [MoveToCmd, c2] := by
  intro c2 hc2 _
  rw [noConsecutiveMoveTo]
  refine List.chain'_cons.mpr ⟨?_, List.chain'_singleton _⟩
  rintro ⟨-, h⟩
  exact hc2 h

lemma noMM_t2 : ∀ (cs : List ℝ) (c2 : ℝ), c2 ≠ MoveToCmd → noConsecutiveMoveTo cs →
    cs.getLast? = some CloseCmd → noConsecutiveMoveTo (cs ++ [MoveToCmd, c2]) := by
  intro cs c2 hc2 h hgl
  rw [noConsecutiveMoveTo, List.chain'_append]
  refine ⟨h, ?_, ?_⟩
  · refine List.chain'_cons.mpr ⟨?_, List.chain'_singleton _⟩
    rintro ⟨-, hM⟩
    exact hc2 hM
  · intro cl hcl cm hcm
    simp only [List.head?_cons, Option.mem_def, Option.some.injEq] at hcm
    subst hcm
    rw [Option.mem_def, hgl, Option.some.injEq] at hcl
    subst hcl
    rintro ⟨hZ, -⟩
    norm_num [CloseCmd, MoveToCmd] at hZ
  
lemma noMM_t3 : ∀ (cs : List ℝ) (c2 : ℝ), c2 ≠ MoveToCmd → noConsecutiveMoveTo cs →
    cs ≠ [] → cs.getLast? ≠ some CloseCmd → noConsecutiveMoveTo (cs ++ [c2]) := by
  intro cs c2 hc2 h _ _
  rw [noConsecutiveMoveTo, List.chain'_append]
  refine ⟨h, List.chain'_singleton _, ?_⟩
  intro cl hcl cm hcm
  simp only [List.head?_cons, Option.mem_def, Option.some.injEq] at hcm
  subst hcm
  rintro ⟨-, hM⟩
  exact hc2 hM

lemma noMM_drop : ∀ cs : List ℝ, noConsecutiveMoveTo (cs ++ [MoveToCmd]) →
    noConsecutiveMoveTo cs := by
  intro cs h
  rw [noConsecutiveMoveTo, List.chain'_append] at h
  exact h.1

lemma noMM_repl : ∀ cs : List ℝ, noConsecutiveMoveTo (cs ++ [LineToCmd]) →
    noConsecutiveMoveTo (cs ++ [CloseCmd]) := by
  intro cs h
  rw [noConsecutiveMoveTo, List.chain'_append] at h ⊢
  refine ⟨h.1, List.chain'_singleton _, ?_⟩
  intro cl hcl cm hcm
  simp only [List.head?_cons, Option.mem_def, Option.some.injEq] at hcm
  subst hcm
  rintro ⟨-, hZ⟩
  norm_num [CloseCmd, MoveToCmd] at hZ

/-- C10: a MoveTo issued when the last command is already a MoveTo overwrites
its coordinates in place (all data before the trailing MoveTo slot unchanged,
nothing appended), and the mutators keep the data free of two consecutive
MoveTo commands. -/
theorem C10_moveTo_coalescing :
    (∀ (d1 : List ℝ) (x0 y0 x y : ℝ),
      (Path.MoveTo ⟨d1 ++ [MoveToCmd, x0, y0, MoveToCmd]⟩ x y).d
        = d1 ++ [MoveToCmd, x, y, MoveToCmd]) ∧
    (∀ (p : Path) (x y : ℝ), PackedWith noConsecutiveMoveTo p.d →
      PackedWith noConsecutiveMoveTo (p.MoveTo x y).d) ∧
    (∀ (p : Path) (x y : ℝ), PackedWith noConsecutiveMoveTo p.d →
      PackedWith noConsecutiveMoveTo (p.LineTo x y).d) ∧
    (∀ (p : Path) (cpx cpy x y : ℝ), PackedWith noConsecutiveMoveTo p.d →
      PackedWith noConsecutiveMoveTo (p.QuadTo cpx cpy x y).d) ∧
    (∀ (p : Path) (c1x c1y c2x c2y x y : ℝ), PackedWith noConsecutiveMoveTo p.d →
      PackedWith noConsecutiveMoveTo (p.CubeTo c1x c1y c2x c2y x y).d) ∧
    (∀ (p : Path) (rx ry rot : ℝ) (large sweep : Bool) (x y : ℝ),
      PackedWith noConsecutiveMoveTo p.d →
      PackedWith noConsecutiveMoveTo (p.ArcTo rx ry rot large sweep x y).d) ∧
    (∀ p : Path, PackedWith noConsecutiveMoveTo p.d →
      PackedWith noConsecutiveMoveTo p.Close.d) :=
  ⟨moveTo_overwrite,
    fun p x y hp => packedWith_moveTo _ p x y noMM_snoc_moveTo hp,
    fun p x y hp => packedWith_lineTo _ p x y noMM_t1 noMM_t2 noMM_t3 hp,
    fun p cpx cpy x y hp => packedWith_quadTo _ p cpx cpy x y noMM_t1 noMM_t2 noMM_t3 hp,
    fun p c1x c1y c2x c2y x y hp =>
      packedWith_cubeTo _ p c1x c1y c2x c2y x y noMM_t1 noMM_t2 noMM_t3 hp,
    fun p rx ry rot large sweep x y hp =>
      packedWith_arcTo _ p rx ry rot large sweep x y noMM_t1 noMM_t2 noMM_t3 hp,
    fun p hp => packedWith_close _ p noMM_drop noMM_repl noMM_t3 hp⟩

/-- Witness for C10: overwriting a lone MoveTo in place, and preservation of
the no-consecutive-MoveTo invariant across a MoveTo on that path. -/
theorem C10_moveTo_coalescing_witness :
    (Path.MoveTo ⟨[] ++ [MoveToCmd, 1, 2, MoveToCmd]⟩ 3 4).d
      = [] ++ [MoveToCmd, 3, 4, MoveToCmd] ∧
    PackedWith noConsecutiveMoveTo (Path.d ⟨[MoveToCmd, 1, 2, MoveToCmd]⟩) ∧
    PackedWith noConsecutiveMoveTo ((⟨[MoveToCmd, 1, 2, MoveToCmd]⟩ : Path).MoveTo 3 4).d := by
  have hp : PackedWith noConsecutiveMoveTo (Path.d ⟨[MoveToCmd, 1, 2, MoveToCmd]⟩) := by
    refine ⟨[(MoveToCmd, [1, 2])], ?_, List.chain'_singleton _,
      by simp [serializeSlots, serSlot]⟩
    intro s hs
    simp only [List.mem_singleton] at hs
    subst hs
    exact ⟨validCmd_moveTo, by simp [cmdLen_moveTo]⟩
  exact ⟨C10_moveTo_coalescing.1 [] 1 2 3 4, hp,
    C10_moveTo_coalescing.2.1 ⟨[MoveToCmd, 1, 2, MoveToCmd]⟩ 3 4 hp⟩


/-- Closure facts of the subpaths-start-with-MoveTo command predicate. -/
lemma sOK_snoc_moveTo : ∀ cs : List ℝ, subpathsStartWithMoveTo cs →
    cs.getLast? ≠ some MoveToCmd → subpathsStartWithMoveTo (cs ++ [MoveToCmd]) := by
  intro cs h _
  constructor
  · intro c hc
    cases cs with
    | nil =>
      simp only [List.nil_append, List.head?_cons, Option.mem_def, Option.some.injEq] at hc
      exact hc.symm
    | cons a t =>
      rw [List.cons_append, List.head?_cons, Option.mem_def, Option.some.injEq] at hc
      subst hc
      exact h.1 a (by simp)
  · rw [List.chain'_append]
    refine ⟨h.2, List.chain'_singleton _, ?_⟩
    intro x hx y hy
    simp only [List.head?_cons, Option.mem_def, Option.some.injEq] at hy
    subst hy
    intro _
    rfl

lemma sOK_t1 : ∀ c2 : ℝ, c2 ≠ MoveToCmd → subpathsStartWithMoveTo [] →
    subpathsStartWithMoveTo [MoveToCmd, c2] := by
  intro c2 _ _
  constructor
  · intro c hc
    simp only [List.head?_cons, Option.mem_def, Option.some.injEq] at hc
    exact hc.symm
  · refine List.chain'_cons.mpr ⟨?_, List.chain'_singleton _⟩
    intro hMZ
    norm_num [MoveToCmd, CloseCmd] at hMZ

lemma sOK_t2 : ∀ (cs : List ℝ) (c2 : ℝ), c2 ≠ MoveToCmd → subpathsStartWithMoveTo cs →
    cs.getLast? = some CloseCmd → subpathsStartWithMoveTo (cs ++ [MoveToCmd, c2]) := by
  intro cs c2 _ h hgl
  have hne : cs ≠ [] := by
    intro h0
    rw [h0] at hgl
    simp at hgl
  constructor
  · intro c hc
    cases cs with
    | nil => exact absurd rfl hne
    | cons a t =>
      rw [List.cons_append, List.head?_cons, Option.mem_def, Option.some.injEq] at hc
      subst hc
      exact h.1 a (by simp)
  · rw [List.chain'_append]
    refine ⟨h.2, ?_, ?_⟩
    · refine List.chain'_cons.mpr ⟨?_, List.chain'_singleton _⟩
      intro hMZ
      norm_num [MoveToCmd, CloseCmd] at hMZ
    · intro x hx y hy
      simp only [List.head?_cons, Option.mem_def, Option.some.injEq] at hy
      subst hy
      intro _
      rfl

lemma sOK_t3 : ∀ (cs : List ℝ) (c2 : ℝ), c2 ≠ MoveToCmd → subpathsStartWithMoveTo cs →
    cs ≠ [] → cs.getLast? ≠ some CloseCmd → subpathsStartWithMoveTo (cs ++ [c2]) := by
  intro cs c2 _ h hne hlast
  constructor
  · intro c hc
    cases cs with
    | nil => exact absurd rfl hne
    | cons a t =>
      rw [List.cons_append, List.head?_cons, Option.mem_def, Option.some.injEq] at hc
      subst hc
      exact h.1 a (by simp)
  · rw [List.chain'_append]
    refine ⟨h.2, List.chain'_singleton _, ?_⟩
    intro x hx y hy
    simp only [List.head?_cons, Option.mem_def, Option.some.injEq] at hy
    subst hy
    intro hxZ
    rw [Option.mem_def] at hx
    rw [hxZ] at hx
    exact absurd hx hlast

lemma sOK_drop : ∀ cs : List ℝ, subpathsStartWithMoveTo (cs ++ [MoveToCmd]) →
    subpathsStartWithMoveTo cs := by
  intro cs h
  constructor
  · intro c hc
    cases cs with
    | nil => simp at hc
    | cons a t =>
      rw [List.head?_cons, Option.mem_def, Option.some.injEq] at hc
      subst hc
      exact h.1 a (by simp)
  · have h2 := h.2
    rw [List.chain'_append] at h2
    exact h2.1

lemma sOK_repl : ∀ cs : List ℝ, subpathsStartWithMoveTo (cs ++ [LineToCmd]) →
    subpathsStartWithMoveTo (cs ++ [CloseCmd]) := by
  intro cs h
  cases cs with
  | nil =>
    exfalso
    have := h.1 LineToCmd (by simp)
    norm_num [LineToCmd, MoveToCmd] at this
  | cons a t =>
    constructor
    · intro c hc
      rw [List.cons_append, List.head?_cons, Option.mem_def, Option.some.injEq] at hc
      subst hc
      exact h.1 a (by simp)
    · have h2 := h.2
      rw [List.chain'_append] at h2 ⊢
      refine ⟨h2.1, List.chain'_singleton _, ?_⟩
      intro x hx y hy
      simp only [List.head?_cons, Option.mem_def, Option.some.injEq] at hy
      subst hy
      intro hxZ
      exfalso
      have := h2.2.2 x hx LineToCmd (by simp) hxZ
      norm_num [LineToCmd, MoveToCmd] at this


/-- A drawing command on the empty path first inserts MoveTo(0,0). -/
lemma lineTo_empty_inserts_moveTo (x y : ℝ) (hxy : ¬Point.Equals ⟨0, 0⟩ ⟨x, y⟩) :
    (Path.LineTo ⟨[]⟩ x y).d
      = [MoveToCmd, 0, 0, MoveToCmd, LineToCmd, x, y, LineToCmd] := by
  have hpos : (⟨[]⟩ : Path).Pos = ⟨0, 0⟩ := by simp [Path.Pos]
  simp only [Path.LineTo, hpos]
  rw [if_neg hxy]
  rw [if_neg (by
    rintro ⟨h1, -, -, -⟩
    rw [cmdLen_lineTo] at h1
    simp at h1)]
  norm_num [Path.MoveTo]

/-- A drawing command directly after a Close first inserts a MoveTo to the
close's cached end point. -/
lemma lineTo_after_close_inserts_moveTo (d1 : List ℝ) (a b x y : ℝ)
    (hxy : ¬Point.Equals ⟨a, b⟩ ⟨x, y⟩) :
    (Path.LineTo ⟨d1 ++ [CloseCmd, a, b, CloseCmd]⟩ x y).d
      = d1 ++ [CloseCmd, a, b, CloseCmd] ++ [MoveToCmd, a, b, MoveToCmd]
        ++ [LineToCmd, x, y, LineToCmd] := by
  have hpos : (⟨d1 ++ [CloseCmd, a, b, CloseCmd]⟩ : Path).Pos = ⟨a, b⟩ := by
    simp only [Path.Pos]
    rw [if_pos (by simp)]
    rw [getD_coord1_lit4, getD_coord2_lit4]
  simp only [Path.LineTo, hpos]
  rw [if_neg hxy]
  rw [if_neg (by
    rintro ⟨-, h2, -, -⟩
    rw [getD_last_lit4] at h2
    norm_num [CloseCmd, LineToCmd] at h2)]
  rw [if_neg (by simp)]
  rw [if_pos (getD_last_lit4 d1 CloseCmd a b)]
  rw [getD_coord1_lit4, getD_coord2_lit4]
  simp only [Path.MoveTo]
  rw [if_neg (by
    rintro ⟨-, h⟩
    rw [getD_last_lit4] at h
    norm_num [CloseCmd, MoveToCmd] at h)]

/-- C4: every mutator keeps the subpath-structure invariant that the first
command is a MoveTo and every command directly following a Close is a MoveTo;
a LineTo on the empty path first inserts MoveTo(0,0), and a LineTo directly
after a Close first inserts a MoveTo to the close's end point. -/
theorem C4_subpath_first_moveTo :
    (∀ (p : Path) (x y : ℝ), PackedWith subpathsStartWithMoveTo p.d →
      PackedWith subpathsStartWithMoveTo (p.MoveTo x y).d) ∧
    (∀ (p : Path) (x y : ℝ), PackedWith subpathsStartWithMoveTo p.d →
      PackedWith subpathsStartWithMoveTo (p.LineTo x y).d) ∧
    (∀ (p : Path) (cpx cpy x y : ℝ), PackedWith subpathsStartWithMoveTo p.d →
      PackedWith subpathsStartWithMoveTo (p.QuadTo cpx cpy x y).d) ∧
    (∀ (p : Path) (c1x c1y c2x c2y x y : ℝ), PackedWith subpathsStartWithMoveTo p.d →
      PackedWith subpathsStartWithMoveTo (p.CubeTo c1x c1y c2x c2y x y).d) ∧
    (∀ (p : Path) (rx ry rot : ℝ) (large sweep : Bool) (x y : ℝ),
      PackedWith subpathsStartWithMoveTo p.d →
      PackedWith subpathsStartWithMoveTo (p.ArcTo rx ry rot large sweep x y).d) ∧
    (∀ p : Path, PackedWith subpathsStartWithMoveTo p.d →
      PackedWith subpathsStartWithMoveTo p.Close.d) ∧
    (∀ x y : ℝ, ¬Point.Equals ⟨0, 0⟩ ⟨x, y⟩ →
      (Path.LineTo ⟨[]⟩ x y).d
        = [MoveToCmd, 0, 0, MoveToCmd, LineToCmd, x, y, LineToCmd]) ∧
    (∀ (d1 : List ℝ) (a b x y : ℝ), ¬Point.Equals ⟨a, b⟩ ⟨x, y⟩ →
      (Path.LineTo ⟨d1 ++ [CloseCmd, a, b, CloseCmd]⟩ x y).d
        = d1 ++ [CloseCmd, a, b, CloseCmd] ++ [MoveToCmd, a, b, MoveToCmd]
          ++ [LineToCmd, x, y, LineToCmd]) :=
  ⟨fun p x y hp => packedWith_moveTo _ p x y sOK_snoc_moveTo hp,
    fun p x y hp => packedWith_lineTo _ p x y sOK_t1 sOK_t2 sOK_t3 hp,
    fun p cpx cpy x y hp => packedWith_quadTo _ p cpx cpy x y sOK_t1 sOK_t2 sOK_t3 hp,
    fun p c1x c1y c2x c2y x y hp =>
      packedWith_cubeTo _ p c1x c1y c2x c2y x y sOK_t1 sOK_t2 sOK_t3 hp,
    fun p rx ry rot large sweep x y hp =>
      packedWith_arcTo _ p rx ry rot large sweep x y sOK_t1 sOK_t2 sOK_t3 hp,
    fun p hp => packedWith_close _ p sOK_drop sOK_repl sOK_t3 hp,
    lineTo_empty_inserts_moveTo,
    lineTo_after_close_inserts_moveTo⟩

/-- Witness for C4: a LineTo to (1,2) on the empty path inserts MoveTo(0,0);
preservation holds across that call on the packed result. -/
theorem C4_subpath_first_moveTo_witness :
    ¬Point.Equals ⟨0, 0⟩ ⟨1, 2⟩ ∧
    (Path.LineTo ⟨[]⟩ 1 2).d
      = [MoveToCmd, 0, 0, MoveToCmd, LineToCmd, 1, 2, LineToCmd] ∧
    PackedWith subpathsStartWithMoveTo (Path.d ⟨[]⟩) ∧
    PackedWith subpathsStartWithMoveTo ((⟨[]⟩ : Path).LineTo 1 2).d := by
  have hne : ¬Point.Equals ⟨0, 0⟩ ⟨1, 2⟩ := fun h => not_Equal_of_gap (by norm_num) h.1
  have hp : PackedWith subpathsStartWithMoveTo (Path.d ⟨[]⟩) :=
    ⟨[], by simp, ⟨by simp, List.chain'_nil⟩, rfl⟩
  exact ⟨hne, C4_subpath_first_moveTo.2.2.2.2.2.2.1 1 2 hne, hp,
    C4_subpath_first_moveTo.2.1 ⟨[]⟩ 1 2 hp⟩


/-- C8 (counterexample): the malformed-leading-token failure of
`ParseSVGPath` is not positional: parsing "12" (leading token is a bare
number, not a command letter) fails with the bad-start error, which carries
no position (the Go error "bad path: path should start with command"
interpolates none). -/
theorem C8_badStart_positionless :
    ParseSVGPath ['1', '2'] = Except.error SVGError.badStart ∧
    SVGError.badStart.position = none := by
  constructor
  · simp [ParseSVGPath, skipCommaWhitespace, isCommaWhitespace]
  · rfl

/-- Every error produced by the argument loop carries a position. -/
lemma parseArgsLoop_error_pos (s : List Char) (CMD cmd : Char) (isRepeat : Bool)
    (count : ℕ) :
    ∀ (k j i : ℕ) (f : List ℝ) (e : SVGError), count - j ≤ k →
    parseArgsLoop s CMD cmd isRepeat count i j f = Except.error e →
    ∃ pos, e.position = some pos := by
  intro k
  induction k with
  | zero =>
    intro j i f e hk h
    rw [parseArgsLoop, if_neg (by omega)] at h
    exact absurd h (by simp)
  | succ k ih =>
    intro j i f e hk h
    by_cases hj : j < count
    · rw [parseArgsLoop, if_pos hj] at h
      by_cases hA : CMD = 'A' ∧ (j = 3 ∨ j = 4)
      · rw [if_pos hA] at h
        by_cases h1 : i < s.length ∧ s.getD i ' ' = '1'
        · rw [if_pos h1] at h
          exact ih (j + 1) _ _ e (by omega) h
        · rw [if_neg h1] at h
          by_cases h0 : i < s.length ∧ s.getD i ' ' = '0'
          · rw [if_pos h0] at h
            exact ih (j + 1) _ _ e (by omega) h
          · rw [if_neg h0] at h
            injection h with h2
            subst h2
            exact ⟨i + 1, rfl⟩
      · rw [if_neg hA] at h
        simp only [] at h
        by_cases hpf : (strconvParseFloat (s.drop i)).2 = 0
        · rw [if_pos hpf] at h
          by_cases hrep : isRepeat ∧ j = 0 ∧ i < s.length
          · rw [if_pos hrep] at h
            injection h with h2
            subst h2
            exact ⟨i + 1, rfl⟩
          · rw [if_neg hrep] at h
            by_cases hcnt : 1 < count
            · rw [if_pos hcnt] at h
              injection h with h2
              subst h2
              exact ⟨i + 1, rfl⟩
            · rw [if_neg hcnt] at h
              injection h with h2
              subst h2
              exact ⟨i + 1, rfl⟩
        · rw [if_neg hpf] at h
          exact ih (j + 1) _ _ e (by omega) h
    · rw [parseArgsLoop, if_neg hj] at h
      exact absurd h (by simp)

/-- Every error produced by the command dispatch carries a position. -/
lemma svgDispatch_error_pos (p : Path) (p0 qPt cPt : Point) (prevCmd cmd : Char)
    (f : List ℝ) (i3 : ℕ) (e : SVGError)
    (h : svgDispatch p p0 qPt cPt prevCmd cmd f i3 = Except.error e) :
    ∃ pos, e.position = some pos := by
  rw [svgDispatch] at h
  simp only [] at h
  by_cases c1 : cmd = 'M' ∨ cmd = 'm'
  · rw [if_pos c1] at h; exact Except.noConfusion h
  rw [if_neg c1] at h
  by_cases c2 : cmd = 'Z' ∨ cmd = 'z'
  · rw [if_pos c2] at h; exact Except.noConfusion h
  rw [if_neg c2] at h
  by_cases c3 : cmd = 'L' ∨ cmd = 'l'
  · rw [if_pos c3] at h; exact Except.noConfusion h
  rw [if_neg c3] at h
  by_cases c4 : cmd = 'H' ∨ cmd = 'h'
  · rw [if_pos c4] at h; exact Except.noConfusion h
  rw [if_neg c4] at h
  by_cases c5 : cmd = 'V' ∨ cmd = 'v'
  · rw [if_pos c5] at h; exact Except.noConfusion h
  rw [if_neg c5] at h
  by_cases c6 : cmd = 'C' ∨ cmd = 'c'
  · rw [if_pos c6] at h; exact Except.noConfusion h
  rw [if_neg c6] at h
  by_cases c7 : cmd = 'S' ∨ cmd = 's'
  · rw [if_pos c7] at h; exact Except.noConfusion h
  rw [if_neg c7] at h
  by_cases c8 : cmd = 'Q' ∨ cmd = 'q'
  · rw [if_pos c8] at h; exact Except.noConfusion h
  rw [if_neg c8] at h
  by_cases c9 : cmd = 'T' ∨ cmd = 't'
  · rw [if_pos c9] at h; exact Except.noConfusion h
  rw [if_neg c9] at h
  by_cases c10 : cmd = 'A' ∨ cmd = 'a'
  · rw [if_pos c10] at h; exact Except.noConfusion h
  rw [if_neg c10] at h
  injection h with h2
  subst h2
  exact ⟨i3 + 1, rfl⟩

/-- Every error produced by the parse loop is the positionless bad-start
error or carries a position. -/
lemma svgParseLoop_error_pos (s : List Char) :
    ∀ (fuel i : ℕ) (p : Path) (p0 qPt cPt : Point) (prevCmd : Char)
      (e : SVGError),
    svgParseLoop s fuel i p p0 qPt cPt prevCmd = Except.error e →
    e = SVGError.badStart ∨ ∃ pos, e.position = some pos := by
  intro fuel
  induction fuel with
  | zero =>
    intro i p p0 qPt cPt prevCmd e h
    simp only [svgParseLoop, Except.error.injEq] at h
    exact Or.inl h.symm
  | succ fuel ih =>
    intro i p p0 qPt cPt prevCmd e h
    simp only [svgParseLoop] at h
    by_cases hend : s.length ≤ i + skipCommaWhitespace (s.drop i)
    · rw [if_pos hend] at h
      exact absurd h (by simp)
    · rw [if_neg hend] at h
      split at h
      · rename_i e1 heq
        injection h with h2
        subst h2
        exact Or.inr (parseArgsLoop_error_pos s _ _ _ _ _ 0 _ [] e1 (le_refl _) heq)
      · rename_i f i3 heq
        split at h
        · rename_i e2 heq2
          injection h with h2
          subst h2
          exact Or.inr (svgDispatch_error_pos _ _ _ _ _ _ _ _ e2 heq2)
        · rename_i p2 p1 qPt2 cPt2 cmd2 heq2
          exact ih _ _ _ _ _ _ _ h

/-- C8 (amended): universally, a largeArc or sweep argument of an A command
that is not the literal character 0 or 1 fails the argument loop with the
arc-flag error at the offending 1-based position; a missing number (wrong
argument count) fails it with an error at the offending position; every
error `ParseSVGPath` returns is either positional or the positionless
bad-start error for a malformed leading token, and an erroring parse never
returns a recovered path.  The concrete run "A1 1 0 2 0 5 5" shows the bad
flag 2 reported at position 8 end to end. -/
theorem C8_positional_errors :
    (∀ (s : List Char) (cmd : Char) (isRepeat : Bool) (i j : ℕ) (f : List ℝ),
        (j = 3 ∨ j = 4) →
        ¬(i < s.length ∧ s.getD i ' ' = '1') →
        ¬(i < s.length ∧ s.getD i ' ' = '0') →
        parseArgsLoop s 'A' cmd isRepeat (svgCmdArgCount 'A') i j f
            = Except.error (SVGError.badArcFlags cmd (i + 1)) ∧
          (SVGError.badArcFlags cmd (i + 1)).position = some (i + 1)) ∧
    (∀ (s : List Char) (CMD cmd : Char) (isRepeat : Bool) (count i j : ℕ)
        (f : List ℝ), j < count → ¬(CMD = 'A' ∧ (j = 3 ∨ j = 4)) →
        (strconvParseFloat (s.drop i)).2 = 0 →
        ∃ e, parseArgsLoop s CMD cmd isRepeat count i j f = Except.error e ∧
          e.position = some (i + 1)) ∧
    (∀ (s : List Char) (e : SVGError), ParseSVGPath s = Except.error e →
        e = SVGError.badStart ∨ ∃ pos, e.position = some pos) ∧
    SVGError.badStart.position = none ∧
    (ParseSVGPath ['A', '1', ' ', '1', ' ', '0', ' ', '2', ' ', '0', ' ', '5', ' ', '5']
      = Except.error (SVGError.badArcFlags 'A' 8) ∧
    (SVGError.badArcFlags 'A' 8).position = some 8) := by
  refine ⟨?_, ?_, ?_, rfl, ?_, rfl⟩
  · intro s cmd isRepeat i j f hj34 h1 h0
    refine ⟨?_, rfl⟩
    rw [parseArgsLoop,
      if_pos (show j < svgCmdArgCount 'A' from by
        rw [show svgCmdArgCount 'A' = 7 from by decide]
        rcases hj34 with rfl | rfl <;> omega),
      if_pos (⟨rfl, hj34⟩ : 'A' = 'A' ∧ (j = 3 ∨ j = 4)),
      if_neg h1, if_neg h0]
  · intro s CMD cmd isRepeat count i j f hj hA hpf
    rw [parseArgsLoop, if_pos hj, if_neg hA]
    simp only []
    rw [if_pos hpf]
    by_cases hrep : isRepeat ∧ j = 0 ∧ i < s.length
    · exact ⟨SVGError.unknownCommand (s.getD i ' ') (i + 1), by rw [if_pos hrep], rfl⟩
    · by_cases hcnt : 1 < count
      · exact ⟨SVGError.badNumberCount count cmd (i + 1),
          by rw [if_neg hrep, if_pos hcnt], rfl⟩
      · exact ⟨SVGError.badNumber cmd (i + 1),
          by rw [if_neg hrep, if_neg hcnt], rfl⟩
  · intro s e h
    simp only [ParseSVGPath] at h
    by_cases h0 : s.length = 0
    · rw [if_pos h0] at h
      exact absurd h (by simp)
    · rw [if_neg h0] at h
      by_cases hbad : (s.getD 0 ' ' = ',' ∨
          (s.getD (skipCommaWhitespace s) ' ').toNat < 'A'.toNat)
      · rw [if_pos hbad] at h
        injection h with h2
        exact Or.inl h2.symm
      · rw [if_neg hbad] at h
        exact svgParseLoop_error_pos s _ _ _ _ _ _ _ _ h
  · simp [ParseSVGPath, svgParseLoop, parseArgsLoop, strconvParseFloat,
      skipCommaWhitespace, isCommaWhitespace, svgCmdArgCount, digitsVal]

lemma sqrt36 : Real.sqrt 36 = 6 := by
  rw [show (36 : ℝ) = 6 ^ 2 by norm_num]
  exact Real.sqrt_sq (by norm_num)

lemma sqrt100 : Real.sqrt 100 = 10 := by
  rw [show (100 : ℝ) = 10 ^ 2 by norm_num]
  exact Real.sqrt_sq (by norm_num)

lemma sqrt121 : Real.sqrt 121 = 11 := by
  rw [show (121 : ℝ) = 11 ^ 2 by norm_num]
  exact Real.sqrt_sq (by norm_num)

lemma angleNorm_neg_half_pi : angleNorm (-(Real.pi / 2)) = 3 * Real.pi / 2 := by
  have hpi := Real.pi_pos
  rw [angleNorm]
  have hfl : ⌊-(Real.pi / 2) / (2 * Real.pi)⌋ = -1 := by
    have harg : -(Real.pi / 2) / (2 * Real.pi) = -(1 / 4) := by
      rw [div_eq_iff (by linarith)]
      ring
    rw [harg]
    rw [Int.floor_eq_iff]
    norm_num
  rw [hfl]
  push_cast
  ring

lemma angleNorm_neg_three_half_pi :
    angleNorm (-(3 * Real.pi / 2)) = Real.pi / 2 := by
  have hpi := Real.pi_pos
  rw [angleNorm]
  have hfl : ⌊-(3 * Real.pi / 2) / (2 * Real.pi)⌋ = -1 := by
    have harg : -(3 * Real.pi / 2) / (2 * Real.pi) = -(3 / 4) := by
      rw [div_eq_iff (by linarith)]
      ring
    rw [harg]
    rw [Int.floor_eq_iff]
    norm_num
  rw [hfl]
  push_cast
  ring

lemma angleNorm_pi : angleNorm Real.pi = Real.pi := by
  have hpi := Real.pi_pos
  rw [angleNorm]
  have hfl : ⌊Real.pi / (2 * Real.pi)⌋ = 0 := by
    have harg : Real.pi / (2 * Real.pi) = 1 / 2 := by
      rw [div_eq_iff (by linarith)]
      ring
    rw [harg]
    rw [Int.floor_eq_iff]
    norm_num
  rw [hfl]
  push_cast
  ring

/-- The ray cast hits an upward edge: not into the left-hand side. -/
lemma not_into_up : ¬angleBetweenExclusive (Real.pi / 2) Real.pi (2 * Real.pi) := by
  have hpi := Real.pi_pos
  rw [angleBetweenExclusive]
  rw [min_eq_left (by linarith), max_eq_right (by linarith)]
  rw [show Real.pi / 2 - Real.pi = -(Real.pi / 2) by ring,
    show 2 * Real.pi - Real.pi = Real.pi by ring,
    angleNorm_neg_half_pi, angleNorm_pi]
  rintro ⟨-, hlt⟩
  linarith

/-- The ray cast hits a downward edge: into the left-hand side. -/
lemma into_down : angleBetweenExclusive (-(Real.pi / 2)) Real.pi (2 * Real.pi) := by
  have hpi := Real.pi_pos
  rw [angleBetweenExclusive]
  rw [min_eq_left (by linarith), max_eq_right (by linarith)]
  rw [show -(Real.pi / 2) - Real.pi = -(3 * Real.pi / 2) by ring,
    show 2 * Real.pi - Real.pi = Real.pi by ring,
    angleNorm_neg_three_half_pi, angleNorm_pi]
  constructor
  · linarith
  · linarith

/-- Splitting a single MoveTo-3-lines-Close subpath returns it unchanged. -/
lemma split_single_rect (a1 a2 b1 b2 c1 c2 e1 e2 f1 f2 : ℝ) :
    Path.Split ⟨[MoveToCmd, a1, a2, MoveToCmd, LineToCmd, b1, b2, LineToCmd,
      LineToCmd, c1, c2, LineToCmd, LineToCmd, e1, e2, LineToCmd,
      CloseCmd, f1, f2, CloseCmd]⟩
      = [⟨[MoveToCmd, a1, a2, MoveToCmd, LineToCmd, b1, b2, LineToCmd,
          LineToCmd, c1, c2, LineToCmd, LineToCmd, e1, e2, LineToCmd,
          CloseCmd, f1, f2, CloseCmd]⟩] := by
  simp only [Path.Split]
  rw [splitLoop]
  norm_num [cmdLen, MoveToCmd, LineToCmd, QuadToCmd, CubeToCmd, ArcToCmd, CloseCmd]
  rw [splitLoop]
  norm_num [cmdLen, MoveToCmd, LineToCmd, QuadToCmd, CubeToCmd, ArcToCmd, CloseCmd]
  rw [splitLoop]
  norm_num [cmdLen, MoveToCmd, LineToCmd, QuadToCmd, CubeToCmd, ArcToCmd, CloseCmd]
  rw [splitLoop]
  norm_num [cmdLen, MoveToCmd, LineToCmd, QuadToCmd, CubeToCmd, ArcToCmd, CloseCmd]
  rw [splitLoop]
  norm_num [cmdLen, MoveToCmd, LineToCmd, QuadToCmd, CubeToCmd, ArcToCmd, CloseCmd]
  rw [splitLoop]
  norm_num [cmdLen, MoveToCmd, LineToCmd, QuadToCmd, CubeToCmd, ArcToCmd, CloseCmd]

/-- Reverse of the rectangle: the same rectangle traversed clockwise. -/
lemma rect_reverse :
    (⟨[MoveToCmd, 0, 0, MoveToCmd, LineToCmd, 10, 0, LineToCmd,
      LineToCmd, 10, 10, LineToCmd, LineToCmd, 0, 10, LineToCmd,
      CloseCmd, 0, 0, CloseCmd]⟩ : Path).Reverse = ⟨[MoveToCmd, 0, 0, MoveToCmd, LineToCmd, 0, 10, LineToCmd,
      LineToCmd, 10, 10, LineToCmd, LineToCmd, 10, 0, LineToCmd,
      CloseCmd, 0, 0, CloseCmd]⟩ := by
  simp only [Path.Reverse]
  norm_num
  rw [reverseLoop]
  norm_num [cmdLen, MoveToCmd, LineToCmd, QuadToCmd, CubeToCmd, ArcToCmd, CloseCmd,
    Point.Equals, Equal, Epsilon]
  rw [reverseLoop]
  norm_num [cmdLen, MoveToCmd, LineToCmd, QuadToCmd, CubeToCmd, ArcToCmd, CloseCmd,
    Point.Equals, Equal, Epsilon]
  rw [reverseLoop]
  norm_num [cmdLen, MoveToCmd, LineToCmd, QuadToCmd, CubeToCmd, ArcToCmd, CloseCmd,
    Point.Equals, Equal, Epsilon]
  rw [reverseLoop]
  norm_num [cmdLen, MoveToCmd, LineToCmd, QuadToCmd, CubeToCmd, ArcToCmd, CloseCmd,
    Point.Equals, Equal, Epsilon]
  rw [reverseLoop]
  norm_num [cmdLen, MoveToCmd, LineToCmd, QuadToCmd, CubeToCmd, ArcToCmd, CloseCmd,
    Point.Equals, Equal, Epsilon]
  rw [reverseLoop]
  norm_num [cmdLen, MoveToCmd, LineToCmd, QuadToCmd, CubeToCmd, ArcToCmd, CloseCmd,
    Point.Equals, Equal, Epsilon]

lemma rect_w55 :
    (Path.Windings ⟨[MoveToCmd, 0, 0, MoveToCmd, LineToCmd, 10, 0, LineToCmd,
      LineToCmd, 10, 10, LineToCmd, LineToCmd, 0, 10, LineToCmd,
      CloseCmd, 0, 0, CloseCmd]⟩ 5 5).1 = 1 ∧ ¬(Path.Windings ⟨[MoveToCmd, 0, 0, MoveToCmd, LineToCmd, 10, 0, LineToCmd,
      LineToCmd, 10, 10, LineToCmd, LineToCmd, 0, 10, LineToCmd,
      CloseCmd, 0, 0, CloseCmd]⟩ 5 5).2 := by
  have h36 := sqrt36
  have h100 := sqrt100
  have h121 := sqrt121
  simp only [Path.Windings, split_single_rect, List.foldl, Path.RayIntersections]
  rw [rayLoop]
  norm_num [cmdLen, MoveToCmd, LineToCmd, QuadToCmd, CubeToCmd, ArcToCmd, CloseCmd,
    Interval, Epsilon, min_def, max_def, intersectionLineLine, Point.Equals, Equal,
    Point.Sub, Point.PerpDot, Point.Dot, Point.Length, Point.Angle, atan2,
    Point.Interpolate, Intersections.add, Point.Rot, Origin, Real.cos_zero,
    Real.sin_zero, h36, h100, h121, Real.arctan_zero, Real.sqrt_one]
  rw [rayLoop]
  norm_num [cmdLen, MoveToCmd, LineToCmd, QuadToCmd, CubeToCmd, ArcToCmd, CloseCmd,
    Interval, Epsilon, min_def, max_def, intersectionLineLine, Point.Equals, Equal,
    Point.Sub, Point.PerpDot, Point.Dot, Point.Length, Point.Angle, atan2,
    Point.Interpolate, Intersections.add, Point.Rot, Origin, Real.cos_zero,
    Real.sin_zero, h36, h100, h121, Real.arctan_zero, Real.sqrt_one]
  rw [rayLoop]
  norm_num [cmdLen, MoveToCmd, LineToCmd, QuadToCmd, CubeToCmd, ArcToCmd, CloseCmd,
    Interval, Epsilon, min_def, max_def, intersectionLineLine, Point.Equals, Equal,
    Point.Sub, Point.PerpDot, Point.Dot, Point.Length, Point.Angle, atan2,
    Point.Interpolate, Intersections.add, Point.Rot, Origin, Real.cos_zero,
    Real.sin_zero, h36, h100, h121, Real.arctan_zero, Real.sqrt_one]
  rw [rayLoop]
  norm_num [cmdLen, MoveToCmd, LineToCmd, QuadToCmd, CubeToCmd, ArcToCmd, CloseCmd,
    Interval, Epsilon, min_def, max_def, intersectionLineLine, Point.Equals, Equal,
    Point.Sub, Point.PerpDot, Point.Dot, Point.Length, Point.Angle, atan2,
    Point.Interpolate, Intersections.add, Point.Rot, Origin, Real.cos_zero,
    Real.sin_zero, h36, h100, h121, Real.arctan_zero, Real.sqrt_one]
  rw [rayLoop]
  norm_num [cmdLen, MoveToCmd, LineToCmd, QuadToCmd, CubeToCmd, ArcToCmd, CloseCmd,
    Interval, Epsilon, min_def, max_def, intersectionLineLine, Point.Equals, Equal,
    Point.Sub, Point.PerpDot, Point.Dot, Point.Length, Point.Angle, atan2,
    Point.Interpolate, Intersections.add, Point.Rot, Origin, Real.cos_zero,
    Real.sin_zero, h36, h100, h121, Real.arctan_zero, Real.sqrt_one]
  rw [rayLoop]
  norm_num [sortByT0, insertByT0, windings, windingsLoop, Intersection.Into,
    not_into_up, into_down, Epsilon]

lemma rect_b00 :
    (Path.Windings ⟨[MoveToCmd, 0, 0, MoveToCmd, LineToCmd, 10, 0, LineToCmd,
      LineToCmd, 10, 10, LineToCmd, LineToCmd, 0, 10, LineToCmd,
      CloseCmd, 0, 0, CloseCmd]⟩ 0 0).2 := by
  have h36 := sqrt36
  have h100 := sqrt100
  have h121 := sqrt121
  simp only [Path.Windings, split_single_rect, List.foldl, Path.RayIntersections]
  rw [rayLoop]
  norm_num [cmdLen, MoveToCmd, LineToCmd, QuadToCmd, CubeToCmd, ArcToCmd, CloseCmd,
    Interval, Epsilon, min_def, max_def, intersectionLineLine, Point.Equals, Equal,
    Point.Sub, Point.PerpDot, Point.Dot, Point.Length, Point.Angle, atan2,
    Point.Interpolate, Intersections.add, Point.Rot, Origin, Real.cos_zero,
    Real.sin_zero, h36, h100, h121, Real.arctan_zero, Real.sqrt_one]
  rw [rayLoop]
  norm_num [cmdLen, MoveToCmd, LineToCmd, QuadToCmd, CubeToCmd, ArcToCmd, CloseCmd,
    Interval, Epsilon, min_def, max_def, intersectionLineLine, Point.Equals, Equal,
    Point.Sub, Point.PerpDot, Point.Dot, Point.Length, Point.Angle, atan2,
    Point.Interpolate, Intersections.add, Point.Rot, Origin, Real.cos_zero,
    Real.sin_zero, h36, h100, h121, Real.arctan_zero, Real.sqrt_one]
  rw [rayLoop]
  norm_num [cmdLen, MoveToCmd, LineToCmd, QuadToCmd, CubeToCmd, ArcToCmd, CloseCmd,
    Interval, Epsilon, min_def, max_def, intersectionLineLine, Point.Equals, Equal,
    Point.Sub, Point.PerpDot, Point.Dot, Point.Length, Point.Angle, atan2,
    Point.Interpolate, Intersections.add, Point.Rot, Origin, Real.cos_zero,
    Real.sin_zero, h36, h100, h121, Real.arctan_zero, Real.sqrt_one]
  rw [rayLoop]
  norm_num [cmdLen, MoveToCmd, LineToCmd, QuadToCmd, CubeToCmd, ArcToCmd, CloseCmd,
    Interval, Epsilon, min_def, max_def, intersectionLineLine, Point.Equals, Equal,
    Point.Sub, Point.PerpDot, Point.Dot, Point.Length, Point.Angle, atan2,
    Point.Interpolate, Intersections.add, Point.Rot, Origin, Real.cos_zero,
    Real.sin_zero, h36, h100, h121, Real.arctan_zero, Real.sqrt_one]
  rw [rayLoop]
  norm_num [cmdLen, MoveToCmd, LineToCmd, QuadToCmd, CubeToCmd, ArcToCmd, CloseCmd,
    Interval, Epsilon, min_def, max_def, intersectionLineLine, Point.Equals, Equal,
    Point.Sub, Point.PerpDot, Point.Dot, Point.Length, Point.Angle, atan2,
    Point.Interpolate, Intersections.add, Point.Rot, Origin, Real.cos_zero,
    Real.sin_zero, h36, h100, h121, Real.arctan_zero, Real.sqrt_one]
  rw [rayLoop]
  norm_num [sortByT0, insertByT0, windings, windingsLoop, Intersection.Into,
    not_into_up, into_down, Epsilon]

lemma rect_b100 :
    (Path.Windings ⟨[MoveToCmd, 0, 0, MoveToCmd, LineToCmd, 10, 0, LineToCmd,
      LineToCmd, 10, 10, LineToCmd, LineToCmd, 0, 10, LineToCmd,
      CloseCmd, 0, 0, CloseCmd]⟩ 10 0).2 := by
  have h36 := sqrt36
  have h100 := sqrt100
  have h121 := sqrt121
  simp only [Path.Windings, split_single_rect, List.foldl, Path.RayIntersections]
  rw [rayLoop]
  norm_num [cmdLen, MoveToCmd, LineToCmd, QuadToCmd, CubeToCmd, ArcToCmd, CloseCmd,
    Interval, Epsilon, min_def, max_def, intersectionLineLine, Point.Equals, Equal,
    Point.Sub, Point.PerpDot, Point.Dot, Point.Length, Point.Angle, atan2,
    Point.Interpolate, Intersections.add, Point.Rot, Origin, Real.cos_zero,
    Real.sin_zero, h36, h100, h121, Real.arctan_zero, Real.sqrt_one]
  rw [rayLoop]
  norm_num [cmdLen, MoveToCmd, LineToCmd, QuadToCmd, CubeToCmd, ArcToCmd, CloseCmd,
    Interval, Epsilon, min_def, max_def, intersectionLineLine, Point.Equals, Equal,
    Point.Sub, Point.PerpDot, Point.Dot, Point.Length, Point.Angle, atan2,
    Point.Interpolate, Intersections.add, Point.Rot, Origin, Real.cos_zero,
    Real.sin_zero, h36, h100, h121, Real.arctan_zero, Real.sqrt_one]
  rw [rayLoop]
  norm_num [cmdLen, MoveToCmd, LineToCmd, QuadToCmd, CubeToCmd, ArcToCmd, CloseCmd,
    Interval, Epsilon, min_def, max_def, intersectionLineLine, Point.Equals, Equal,
    Point.Sub, Point.PerpDot, Point.Dot, Point.Length, Point.Angle, atan2,
    Point.Interpolate, Intersections.add, Point.Rot, Origin, Real.cos_zero,
    Real.sin_zero, h36, h100, h121, Real.arctan_zero, Real.sqrt_one]
  rw [rayLoop]
  norm_num [cmdLen, MoveToCmd, LineToCmd, QuadToCmd, CubeToCmd, ArcToCmd, CloseCmd,
    Interval, Epsilon, min_def, max_def, intersectionLineLine, Point.Equals, Equal,
    Point.Sub, Point.PerpDot, Point.Dot, Point.Length, Point.Angle, atan2,
    Point.Interpolate, Intersections.add, Point.Rot, Origin, Real.cos_zero,
    Real.sin_zero, h36, h100, h121, Real.arctan_zero, Real.sqrt_one]
  rw [rayLoop]
  norm_num [cmdLen, MoveToCmd, LineToCmd, QuadToCmd, CubeToCmd, ArcToCmd, CloseCmd,
    Interval, Epsilon, min_def, max_def, intersectionLineLine, Point.Equals, Equal,
    Point.Sub, Point.PerpDot, Point.Dot, Point.Length, Point.Angle, atan2,
    Point.Interpolate, Intersections.add, Point.Rot, Origin, Real.cos_zero,
    Real.sin_zero, h36, h100, h121, Real.arctan_zero, Real.sqrt_one]
  rw [rayLoop]
  norm_num [sortByT0, insertByT0, windings, windingsLoop, Intersection.Into,
    not_into_up, into_down, Epsilon]

lemma rect_b1010 :
    (Path.Windings ⟨[MoveToCmd, 0, 0, MoveToCmd, LineToCmd, 10, 0, LineToCmd,
      LineToCmd, 10, 10, LineToCmd, LineToCmd, 0, 10, LineToCmd,
      CloseCmd, 0, 0, CloseCmd]⟩ 10 10).2 := by
  have h36 := sqrt36
  have h100 := sqrt100
  have h121 := sqrt121
  simp only [Path.Windings, split_single_rect, List.foldl, Path.RayIntersections]
  rw [rayLoop]
  norm_num [cmdLen, MoveToCmd, LineToCmd, QuadToCmd, CubeToCmd, ArcToCmd, CloseCmd,
    Interval, Epsilon, min_def, max_def, intersectionLineLine, Point.Equals, Equal,
    Point.Sub, Point.PerpDot, Point.Dot, Point.Length, Point.Angle, atan2,
    Point.Interpolate, Intersections.add, Point.Rot, Origin, Real.cos_zero,
    Real.sin_zero, h36, h100, h121, Real.arctan_zero, Real.sqrt_one]
  rw [rayLoop]
  norm_num [cmdLen, MoveToCmd, LineToCmd, QuadToCmd, CubeToCmd, ArcToCmd, CloseCmd,
    Interval, Epsilon, min_def, max_def, intersectionLineLine, Point.Equals, Equal,
    Point.Sub, Point.PerpDot, Point.Dot, Point.Length, Point.Angle, atan2,
    Point.Interpolate, Intersections.add, Point.Rot, Origin, Real.cos_zero,
    Real.sin_zero, h36, h100, h121, Real.arctan_zero, Real.sqrt_one]
  rw [rayLoop]
  norm_num [cmdLen, MoveToCmd, LineToCmd, QuadToCmd, CubeToCmd, ArcToCmd, CloseCmd,
    Interval, Epsilon, min_def, max_def, intersectionLineLine, Point.Equals, Equal,
    Point.Sub, Point.PerpDot, Point.Dot, Point.Length, Point.Angle, atan2,
    Point.Interpolate, Intersections.add, Point.Rot, Origin, Real.cos_zero,
    Real.sin_zero, h36, h100, h121, Real.arctan_zero, Real.sqrt_one]
  rw [rayLoop]
  norm_num [cmdLen, MoveToCmd, LineToCmd, QuadToCmd, CubeToCmd, ArcToCmd, CloseCmd,
    Interval, Epsilon, min_def, max_def, intersectionLineLine, Point.Equals, Equal,
    Point.Sub, Point.PerpDot, Point.Dot, Point.Length, Point.Angle, atan2,
    Point.Interpolate, Intersections.add, Point.Rot, Origin, Real.cos_zero,
    Real.sin_zero, h36, h100, h121, Real.arctan_zero, Real.sqrt_one]
  rw [rayLoop]
  norm_num [cmdLen, MoveToCmd, LineToCmd, QuadToCmd, CubeToCmd, ArcToCmd, CloseCmd,
    Interval, Epsilon, min_def, max_def, intersectionLineLine, Point.Equals, Equal,
    Point.Sub, Point.PerpDot, Point.Dot, Point.Length, Point.Angle, atan2,
    Point.Interpolate, Intersections.add, Point.Rot, Origin, Real.cos_zero,
    Real.sin_zero, h36, h100, h121, Real.arctan_zero, Real.sqrt_one]
  rw [rayLoop]
  norm_num [sortByT0, insertByT0, windings, windingsLoop, Intersection.Into,
    not_into_up, into_down, Epsilon]

lemma rect_b010 :
    (Path.Windings ⟨[MoveToCmd, 0, 0, MoveToCmd, LineToCmd, 10, 0, LineToCmd,
      LineToCmd, 10, 10, LineToCmd, LineToCmd, 0, 10, LineToCmd,
      CloseCmd, 0, 0, CloseCmd]⟩ 0 10).2 := by
  have h36 := sqrt36
  have h100 := sqrt100
  have h121 := sqrt121
  simp only [Path.Windings, split_single_rect, List.foldl, Path.RayIntersections]
  rw [rayLoop]
  norm_num [cmdLen, MoveToCmd, LineToCmd, QuadToCmd, CubeToCmd, ArcToCmd, CloseCmd,
    Interval, Epsilon, min_def, max_def, intersectionLineLine, Point.Equals, Equal,
    Point.Sub, Point.PerpDot, Point.Dot, Point.Length, Point.Angle, atan2,
    Point.Interpolate, Intersections.add, Point.Rot, Origin, Real.cos_zero,
    Real.sin_zero, h36, h100, h121, Real.arctan_zero, Real.sqrt_one]
  rw [rayLoop]
  norm_num [cmdLen, MoveToCmd, LineToCmd, QuadToCmd, CubeToCmd, ArcToCmd, CloseCmd,
    Interval, Epsilon, min_def, max_def, intersectionLineLine, Point.Equals, Equal,
    Point.Sub, Point.PerpDot, Point.Dot, Point.Length, Point.Angle, atan2,
    Point.Interpolate, Intersections.add, Point.Rot, Origin, Real.cos_zero,
    Real.sin_zero, h36, h100, h121, Real.arctan_zero, Real.sqrt_one]
  rw [rayLoop]
  norm_num [cmdLen, MoveToCmd, LineToCmd, QuadToCmd, CubeToCmd, ArcToCmd, CloseCmd,
    Interval, Epsilon, min_def, max_def, intersectionLineLine, Point.Equals, Equal,
    Point.Sub, Point.PerpDot, Point.Dot, Point.Length, Point.Angle, atan2,
    Point.Interpolate, Intersections.add, Point.Rot, Origin, Real.cos_zero,
    Real.sin_zero, h36, h100, h121, Real.arctan_zero, Real.sqrt_one]
  rw [rayLoop]
  norm_num [cmdLen, MoveToCmd, LineToCmd, QuadToCmd, CubeToCmd, ArcToCmd, CloseCmd,
    Interval, Epsilon, min_def, max_def, intersectionLineLine, Point.Equals, Equal,
    Point.Sub, Point.PerpDot, Point.Dot, Point.Length, Point.Angle, atan2,
    Point.Interpolate, Intersections.add, Point.Rot, Origin, Real.cos_zero,
    Real.sin_zero, h36, h100, h121, Real.arctan_zero, Real.sqrt_one]
  rw [rayLoop]
  norm_num [cmdLen, MoveToCmd, LineToCmd, QuadToCmd, CubeToCmd, ArcToCmd, CloseCmd,
    Interval, Epsilon, min_def, max_def, intersectionLineLine, Point.Equals, Equal,
    Point.Sub, Point.PerpDot, Point.Dot, Point.Length, Point.Angle, atan2,
    Point.Interpolate, Intersections.add, Point.Rot, Origin, Real.cos_zero,
    Real.sin_zero, h36, h100, h121, Real.arctan_zero, Real.sqrt_one]
  rw [rayLoop]
  norm_num [sortByT0, insertByT0, windings, windingsLoop, Intersection.Into,
    not_into_up, into_down, Epsilon]

lemma rev_w55 :
    (Path.Windings ⟨[MoveToCmd, 0, 0, MoveToCmd, LineToCmd, 0, 10, LineToCmd,
      LineToCmd, 10, 10, LineToCmd, LineToCmd, 10, 0, LineToCmd,
      CloseCmd, 0, 0, CloseCmd]⟩ 5 5).1 = -1 ∧ ¬(Path.Windings ⟨[MoveToCmd, 0, 0, MoveToCmd, LineToCmd, 0, 10, LineToCmd,
      LineToCmd, 10, 10, LineToCmd, LineToCmd, 10, 0, LineToCmd,
      CloseCmd, 0, 0, CloseCmd]⟩ 5 5).2 := by
  have h36 := sqrt36
  have h100 := sqrt100
  have h121 := sqrt121
  simp only [Path.Windings, split_single_rect, List.foldl, Path.RayIntersections]
  rw [rayLoop]
  norm_num [cmdLen, MoveToCmd, LineToCmd, QuadToCmd, CubeToCmd, ArcToCmd, CloseCmd,
    Interval, Epsilon, min_def, max_def, intersectionLineLine, Point.Equals, Equal,
    Point.Sub, Point.PerpDot, Point.Dot, Point.Length, Point.Angle, atan2,
    Point.Interpolate, Intersections.add, Point.Rot, Origin, Real.cos_zero,
    Real.sin_zero, h36, h100, h121, Real.arctan_zero, Real.sqrt_one]
  rw [rayLoop]
  norm_num [cmdLen, MoveToCmd, LineToCmd, QuadToCmd, CubeToCmd, ArcToCmd, CloseCmd,
    Interval, Epsilon, min_def, max_def, intersectionLineLine, Point.Equals, Equal,
    Point.Sub, Point.PerpDot, Point.Dot, Point.Length, Point.Angle, atan2,
    Point.Interpolate, Intersections.add, Point.Rot, Origin, Real.cos_zero,
    Real.sin_zero, h36, h100, h121, Real.arctan_zero, Real.sqrt_one]
  rw [rayLoop]
  norm_num [cmdLen, MoveToCmd, LineToCmd, QuadToCmd, CubeToCmd, ArcToCmd, CloseCmd,
    Interval, Epsilon, min_def, max_def, intersectionLineLine, Point.Equals, Equal,
    Point.Sub, Point.PerpDot, Point.Dot, Point.Length, Point.Angle, atan2,
    Point.Interpolate, Intersections.add, Point.Rot, Origin, Real.cos_zero,
    Real.sin_zero, h36, h100, h121, Real.arctan_zero, Real.sqrt_one]
  rw [rayLoop]
  norm_num [cmdLen, MoveToCmd, LineToCmd, QuadToCmd, CubeToCmd, ArcToCmd, CloseCmd,
    Interval, Epsilon, min_def, max_def, intersectionLineLine, Point.Equals, Equal,
    Point.Sub, Point.PerpDot, Point.Dot, Point.Length, Point.Angle, atan2,
    Point.Interpolate, Intersections.add, Point.Rot, Origin, Real.cos_zero,
    Real.sin_zero, h36, h100, h121, Real.arctan_zero, Real.sqrt_one]
  rw [rayLoop]
  norm_num [cmdLen, MoveToCmd, LineToCmd, QuadToCmd, CubeToCmd, ArcToCmd, CloseCmd,
    Interval, Epsilon, min_def, max_def, intersectionLineLine, Point.Equals, Equal,
    Point.Sub, Point.PerpDot, Point.Dot, Point.Length, Point.Angle, atan2,
    Point.Interpolate, Intersections.add, Point.Rot, Origin, Real.cos_zero,
    Real.sin_zero, h36, h100, h121, Real.arctan_zero, Real.sqrt_one]
  rw [rayLoop]
  norm_num [sortByT0, insertByT0, windings, windingsLoop, Intersection.Into,
    not_into_up, into_down, Epsilon]

lemma rev_b00 :
    (Path.Windings ⟨[MoveToCmd, 0, 0, MoveToCmd, LineToCmd, 0, 10, LineToCmd,
      LineToCmd, 10, 10, LineToCmd, LineToCmd, 10, 0, LineToCmd,
      CloseCmd, 0, 0, CloseCmd]⟩ 0 0).2 := by
  have h36 := sqrt36
  have h100 := sqrt100
  have h121 := sqrt121
  simp only [Path.Windings, split_single_rect, List.foldl, Path.RayIntersections]
  rw [rayLoop]
  norm_num [cmdLen, MoveToCmd, LineToCmd, QuadToCmd, CubeToCmd, ArcToCmd, CloseCmd,
    Interval, Epsilon, min_def, max_def, intersectionLineLine, Point.Equals, Equal,
    Point.Sub, Point.PerpDot, Point.Dot, Point.Length, Point.Angle, atan2,
    Point.Interpolate, Intersections.add, Point.Rot, Origin, Real.cos_zero,
    Real.sin_zero, h36, h100, h121, Real.arctan_zero, Real.sqrt_one]
  rw [rayLoop]
  norm_num [cmdLen, MoveToCmd, LineToCmd, QuadToCmd, CubeToCmd, ArcToCmd, CloseCmd,
    Interval, Epsilon, min_def, max_def, intersectionLineLine, Point.Equals, Equal,
    Point.Sub, Point.PerpDot, Point.Dot, Point.Length, Point.Angle, atan2,
    Point.Interpolate, Intersections.add, Point.Rot, Origin, Real.cos_zero,
    Real.sin_zero, h36, h100, h121, Real.arctan_zero, Real.sqrt_one]
  rw [rayLoop]
  norm_num [cmdLen, MoveToCmd, LineToCmd, QuadToCmd, CubeToCmd, ArcToCmd, CloseCmd,
    Interval, Epsilon, min_def, max_def, intersectionLineLine, Point.Equals, Equal,
    Point.Sub, Point.PerpDot, Point.Dot, Point.Length, Point.Angle, atan2,
    Point.Interpolate, Intersections.add, Point.Rot, Origin, Real.cos_zero,
    Real.sin_zero, h36, h100, h121, Real.arctan_zero, Real.sqrt_one]
  rw [rayLoop]
  norm_num [cmdLen, MoveToCmd, LineToCmd, QuadToCmd, CubeToCmd, ArcToCmd, CloseCmd,
    Interval, Epsilon, min_def, max_def, intersectionLineLine, Point.Equals, Equal,
    Point.Sub, Point.PerpDot, Point.Dot, Point.Length, Point.Angle, atan2,
    Point.Interpolate, Intersections.add, Point.Rot, Origin, Real.cos_zero,
    Real.sin_zero, h36, h100, h121, Real.arctan_zero, Real.sqrt_one]
  rw [rayLoop]
  norm_num [cmdLen, MoveToCmd, LineToCmd, QuadToCmd, CubeToCmd, ArcToCmd, CloseCmd,
    Interval, Epsilon, min_def, max_def, intersectionLineLine, Point.Equals, Equal,
    Point.Sub, Point.PerpDot, Point.Dot, Point.Length, Point.Angle, atan2,
    Point.Interpolate, Intersections.add, Point.Rot, Origin, Real.cos_zero,
    Real.sin_zero, h36, h100, h121, Real.arctan_zero, Real.sqrt_one]
  rw [rayLoop]
  norm_num [sortByT0, insertByT0, windings, windingsLoop, Intersection.Into,
    not_into_up, into_down, Epsilon]

lemma rev_b100 :
    (Path.Windings ⟨[MoveToCmd, 0, 0, MoveToCmd, LineToCmd, 0, 10, LineToCmd,
      LineToCmd, 10, 10, LineToCmd, LineToCmd, 10, 0, LineToCmd,
      CloseCmd, 0, 0, CloseCmd]⟩ 10 0).2 := by
  have h36 := sqrt36
  have h100 := sqrt100
  have h121 := sqrt121
  simp only [Path.Windings, split_single_rect, List.foldl, Path.RayIntersections]
  rw [rayLoop]
  norm_num [cmdLen, MoveToCmd, LineToCmd, QuadToCmd, CubeToCmd, ArcToCmd, CloseCmd,
    Interval, Epsilon, min_def, max_def, intersectionLineLine, Point.Equals, Equal,
    Point.Sub, Point.PerpDot, Point.Dot, Point.Length, Point.Angle, atan2,
    Point.Interpolate, Intersections.add, Point.Rot, Origin, Real.cos_zero,
    Real.sin_zero, h36, h100, h121, Real.arctan_zero, Real.sqrt_one]
  rw [rayLoop]
  norm_num [cmdLen, MoveToCmd, LineToCmd, QuadToCmd, CubeToCmd, ArcToCmd, CloseCmd,
    Interval, Epsilon, min_def, max_def, intersectionLineLine, Point.Equals, Equal,
    Point.Sub, Point.PerpDot, Point.Dot, Point.Length, Point.Angle, atan2,
    Point.Interpolate, Intersections.add, Point.Rot, Origin, Real.cos_zero,
    Real.sin_zero, h36, h100, h121, Real.arctan_zero, Real.sqrt_one]
  rw [rayLoop]
  norm_num [cmdLen, MoveToCmd, LineToCmd, QuadToCmd, CubeToCmd, ArcToCmd, CloseCmd,
    Interval, Epsilon, min_def, max_def, intersectionLineLine, Point.Equals, Equal,
    Point.Sub, Point.PerpDot, Point.Dot, Point.Length, Point.Angle, atan2,
    Point.Interpolate, Intersections.add, Point.Rot, Origin, Real.cos_zero,
    Real.sin_zero, h36, h100, h121, Real.arctan_zero, Real.sqrt_one]
  rw [rayLoop]
  norm_num [cmdLen, MoveToCmd, LineToCmd, QuadToCmd, CubeToCmd, ArcToCmd, CloseCmd,
    Interval, Epsilon, min_def, max_def, intersectionLineLine, Point.Equals, Equal,
    Point.Sub, Point.PerpDot, Point.Dot, Point.Length, Point.Angle, atan2,
    Point.Interpolate, Intersections.add, Point.Rot, Origin, Real.cos_zero,
    Real.sin_zero, h36, h100, h121, Real.arctan_zero, Real.sqrt_one]
  rw [rayLoop]
  norm_num [cmdLen, MoveToCmd, LineToCmd, QuadToCmd, CubeToCmd, ArcToCmd, CloseCmd,
    Interval, Epsilon, min_def, max_def, intersectionLineLine, Point.Equals, Equal,
    Point.Sub, Point.PerpDot, Point.Dot, Point.Length, Point.Angle, atan2,
    Point.Interpolate, Intersections.add, Point.Rot, Origin, Real.cos_zero,
    Real.sin_zero, h36, h100, h121, Real.arctan_zero, Real.sqrt_one]
  rw [rayLoop]
  norm_num [sortByT0, insertByT0, windings, windingsLoop, Intersection.Into,
    not_into_up, into_down, Epsilon]

lemma rev_b1010 :
    (Path.Windings ⟨[MoveToCmd, 0, 0, MoveToCmd, LineToCmd, 0, 10, LineToCmd,
      LineToCmd, 10, 10, LineToCmd, LineToCmd, 10, 0, LineToCmd,
      CloseCmd, 0, 0, CloseCmd]⟩ 10 10).2 := by
  have h36 := sqrt36
  have h100 := sqrt100
  have h121 := sqrt121
  simp only [Path.Windings, split_single_rect, List.foldl, Path.RayIntersections]
  rw [rayLoop]
  norm_num [cmdLen, MoveToCmd, LineToCmd, QuadToCmd, CubeToCmd, ArcToCmd, CloseCmd,
    Interval, Epsilon, min_def, max_def, intersectionLineLine, Point.Equals, Equal,
    Point.Sub, Point.PerpDot, Point.Dot, Point.Length, Point.Angle, atan2,
    Point.Interpolate, Intersections.add, Point.Rot, Origin, Real.cos_zero,
    Real.sin_zero, h36, h100, h121, Real.arctan_zero, Real.sqrt_one]
  rw [rayLoop]
  norm_num [cmdLen, MoveToCmd, LineToCmd, QuadToCmd, CubeToCmd, ArcToCmd, CloseCmd,
    Interval, Epsilon, min_def, max_def, intersectionLineLine, Point.Equals, Equal,
    Point.Sub, Point.PerpDot, Point.Dot, Point.Length, Point.Angle, atan2,
    Point.Interpolate, Intersections.add, Point.Rot, Origin, Real.cos_zero,
    Real.sin_zero, h36, h100, h121, Real.arctan_zero, Real.sqrt_one]
  rw [rayLoop]
  norm_num [cmdLen, MoveToCmd, LineToCmd, QuadToCmd, CubeToCmd, ArcToCmd, CloseCmd,
    Interval, Epsilon, min_def, max_def, intersectionLineLine, Point.Equals, Equal,
    Point.Sub, Point.PerpDot, Point.Dot, Point.Length, Point.Angle, atan2,
    Point.Interpolate, Intersections.add, Point.Rot, Origin, Real.cos_zero,
    Real.sin_zero, h36, h100, h121, Real.arctan_zero, Real.sqrt_one]
  rw [rayLoop]
  norm_num [cmdLen, MoveToCmd, LineToCmd, QuadToCmd, CubeToCmd, ArcToCmd, CloseCmd,
    Interval, Epsilon, min_def, max_def, intersectionLineLine, Point.Equals, Equal,
    Point.Sub, Point.PerpDot, Point.Dot, Point.Length, Point.Angle, atan2,
    Point.Interpolate, Intersections.add, Point.Rot, Origin, Real.cos_zero,
    Real.sin_zero, h36, h100, h121, Real.arctan_zero, Real.sqrt_one]
  rw [rayLoop]
  norm_num [cmdLen, MoveToCmd, LineToCmd, QuadToCmd, CubeToCmd, ArcToCmd, CloseCmd,
    Interval, Epsilon, min_def, max_def, intersectionLineLine, Point.Equals, Equal,
    Point.Sub, Point.PerpDot, Point.Dot, Point.Length, Point.Angle, atan2,
    Point.Interpolate, Intersections.add, Point.Rot, Origin, Real.cos_zero,
    Real.sin_zero, h36, h100, h121, Real.arctan_zero, Real.sqrt_one]
  rw [rayLoop]
  norm_num [sortByT0, insertByT0, windings, windingsLoop, Intersection.Into,
    not_into_up, into_down, Epsilon]

lemma rev_b010 :
    (Path.Windings ⟨[MoveToCmd, 0, 0, MoveToCmd, LineToCmd, 0, 10, LineToCmd,
      LineToCmd, 10, 10, LineToCmd, LineToCmd, 10, 0, LineToCmd,
      CloseCmd, 0, 0, CloseCmd]⟩ 0 10).2 := by
  have h36 := sqrt36
  have h100 := sqrt100
  have h121 := sqrt121
  simp only [Path.Windings, split_single_rect, List.foldl, Path.RayIntersections]
  rw [rayLoop]
  norm_num [cmdLen, MoveToCmd, LineToCmd, QuadToCmd, CubeToCmd, ArcToCmd, CloseCmd,
    Interval, Epsilon, min_def, max_def, intersectionLineLine, Point.Equals, Equal,
    Point.Sub, Point.PerpDot, Point.Dot, Point.Length, Point.Angle, atan2,
    Point.Interpolate, Intersections.add, Point.Rot, Origin, Real.cos_zero,
    Real.sin_zero, h36, h100, h121, Real.arctan_zero, Real.sqrt_one]
  rw [rayLoop]
  norm_num [cmdLen, MoveToCmd, LineToCmd, QuadToCmd, CubeToCmd, ArcToCmd, CloseCmd,
    Interval, Epsilon, min_def, max_def, intersectionLineLine, Point.Equals, Equal,
    Point.Sub, Point.PerpDot, Point.Dot, Point.Length, Point.Angle, atan2,
    Point.Interpolate, Intersections.add, Point.Rot, Origin, Real.cos_zero,
    Real.sin_zero, h36, h100, h121, Real.arctan_zero, Real.sqrt_one]
  rw [rayLoop]
  norm_num [cmdLen, MoveToCmd, LineToCmd, QuadToCmd, CubeToCmd, ArcToCmd, CloseCmd,
    Interval, Epsilon, min_def, max_def, intersectionLineLine, Point.Equals, Equal,
    Point.Sub, Point.PerpDot, Point.Dot, Point.Length, Point.Angle, atan2,
    Point.Interpolate, Intersections.add, Point.Rot, Origin, Real.cos_zero,
    Real.sin_zero, h36, h100, h121, Real.arctan_zero, Real.sqrt_one]
  rw [rayLoop]
  norm_num [cmdLen, MoveToCmd, LineToCmd, QuadToCmd, CubeToCmd, ArcToCmd, CloseCmd,
    Interval, Epsilon, min_def, max_def, intersectionLineLine, Point.Equals, Equal,
    Point.Sub, Point.PerpDot, Point.Dot, Point.Length, Point.Angle, atan2,
    Point.Interpolate, Intersections.add, Point.Rot, Origin, Real.cos_zero,
    Real.sin_zero, h36, h100, h121, Real.arctan_zero, Real.sqrt_one]
  rw [rayLoop]
  norm_num [cmdLen, MoveToCmd, LineToCmd, QuadToCmd, CubeToCmd, ArcToCmd, CloseCmd,
    Interval, Epsilon, min_def, max_def, intersectionLineLine, Point.Equals, Equal,
    Point.Sub, Point.PerpDot, Point.Dot, Point.Length, Point.Angle, atan2,
    Point.Interpolate, Intersections.add, Point.Rot, Origin, Real.cos_zero,
    Real.sin_zero, h36, h100, h121, Real.arctan_zero, Real.sqrt_one]
  rw [rayLoop]
  norm_num [sortByT0, insertByT0, windings, windingsLoop, Intersection.Into,
    not_into_up, into_down, Epsilon]


/-- C6: for the closed rectangle (0,0)-(10,0)-(10,10)-(0,10), Windings(5,5)
returns winding number +1 (counter-clockwise) with boundary false; Windings
at each of the four corners reports boundary; and on the reversed path the
winding number at (5,5) flips to -1 while the corner boundary results are
unchanged. -/
theorem C6_rectangle_windings :
    let rect : Path := ⟨[MoveToCmd, 0, 0, MoveToCmd, LineToCmd, 10, 0, LineToCmd,
      LineToCmd, 10, 10, LineToCmd, LineToCmd, 0, 10, LineToCmd,
      CloseCmd, 0, 0, CloseCmd]⟩
    ((Path.Windings rect 5 5).1 = 1 ∧ ¬(Path.Windings rect 5 5).2) ∧
    (Path.Windings rect 0 0).2 ∧ (Path.Windings rect 10 0).2 ∧
    (Path.Windings rect 10 10).2 ∧ (Path.Windings rect 0 10).2 ∧
    ((Path.Windings rect.Reverse 5 5).1 = -1 ∧ ¬(Path.Windings rect.Reverse 5 5).2) ∧
    (Path.Windings rect.Reverse 0 0).2 ∧ (Path.Windings rect.Reverse 10 0).2 ∧
    (Path.Windings rect.Reverse 10 10).2 ∧ (Path.Windings rect.Reverse 0 10).2 := by
  intro rect
  show ((Path.Windings ⟨[MoveToCmd, 0, 0, MoveToCmd, LineToCmd, 10, 0, LineToCmd,
      LineToCmd, 10, 10, LineToCmd, LineToCmd, 0, 10, LineToCmd,
      CloseCmd, 0, 0, CloseCmd]⟩ 5 5).1 = 1 ∧ ¬(Path.Windings ⟨[MoveToCmd, 0, 0, MoveToCmd, LineToCmd, 10, 0, LineToCmd,
      LineToCmd, 10, 10, LineToCmd, LineToCmd, 0, 10, LineToCmd,
      CloseCmd, 0, 0, CloseCmd]⟩ 5 5).2) ∧
    (Path.Windings ⟨[MoveToCmd, 0, 0, MoveToCmd, LineToCmd, 10, 0, LineToCmd,
      LineToCmd, 10, 10, LineToCmd, LineToCmd, 0, 10, LineToCmd,
      CloseCmd, 0, 0, CloseCmd]⟩ 0 0).2 ∧ (Path.Windings ⟨[MoveToCmd, 0, 0, MoveToCmd, LineToCmd, 10, 0, LineToCmd,
      LineToCmd, 10, 10, LineToCmd, LineToCmd, 0, 10, LineToCmd,
      CloseCmd, 0, 0, CloseCmd]⟩ 10 0).2 ∧
    (Path.Windings ⟨[MoveToCmd, 0, 0, MoveToCmd, LineToCmd, 10, 0, LineToCmd,
      LineToCmd, 10, 10, LineToCmd, LineToCmd, 0, 10, LineToCmd,
      CloseCmd, 0, 0, CloseCmd]⟩ 10 10).2 ∧ (Path.Windings ⟨[MoveToCmd, 0, 0, MoveToCmd, LineToCmd, 10, 0, LineToCmd,
      LineToCmd, 10, 10, LineToCmd, LineToCmd, 0, 10, LineToCmd,
      CloseCmd, 0, 0, CloseCmd]⟩ 0 10).2 ∧
    ((Path.Windings (⟨[MoveToCmd, 0, 0, MoveToCmd, LineToCmd, 10, 0, LineToCmd,
      LineToCmd, 10, 10, LineToCmd, LineToCmd, 0, 10, LineToCmd,
      CloseCmd, 0, 0, CloseCmd]⟩ : Path).Reverse 5 5).1 = -1 ∧
      ¬(Path.Windings (⟨[MoveToCmd, 0, 0, MoveToCmd, LineToCmd, 10, 0, LineToCmd,
      LineToCmd, 10, 10, LineToCmd, LineToCmd, 0, 10, LineToCmd,
      CloseCmd, 0, 0, CloseCmd]⟩ : Path).Reverse 5 5).2) ∧
    (Path.Windings (⟨[MoveToCmd, 0, 0, MoveToCmd, LineToCmd, 10, 0, LineToCmd,
      LineToCmd, 10, 10, LineToCmd, LineToCmd, 0, 10, LineToCmd,
      CloseCmd, 0, 0, CloseCmd]⟩ : Path).Reverse 0 0).2 ∧
    (Path.Windings (⟨[MoveToCmd, 0, 0, MoveToCmd, LineToCmd, 10, 0, LineToCmd,
      LineToCmd, 10, 10, LineToCmd, LineToCmd, 0, 10, LineToCmd,
      CloseCmd, 0, 0, CloseCmd]⟩ : Path).Reverse 10 0).2 ∧
    (Path.Windings (⟨[MoveToCmd, 0, 0, MoveToCmd, LineToCmd, 10, 0, LineToCmd,
      LineToCmd, 10, 10, LineToCmd, LineToCmd, 0, 10, LineToCmd,
      CloseCmd, 0, 0, CloseCmd]⟩ : Path).Reverse 10 10).2 ∧
    (Path.Windings (⟨[MoveToCmd, 0, 0, MoveToCmd, LineToCmd, 10, 0, LineToCmd,
      LineToCmd, 10, 10, LineToCmd, LineToCmd, 0, 10, LineToCmd,
      CloseCmd, 0, 0, CloseCmd]⟩ : Path).Reverse 0 10).2
  rw [rect_reverse]
  exact ⟨rect_w55, rect_b00, rect_b100, rect_b1010, rect_b010,
    rev_w55, rev_b00, rev_b100, rev_b1010, rev_b010⟩


lemma serSegs_nil : serSegs [] = [] := rfl

lemma serSegs_cons (sg : Seg) (rest : List Seg) :
    serSegs (sg :: rest) = serSeg sg ++ serSegs rest := by
  simp [serSegs]

lemma serSegs_concat (init : List Seg) (sg : Seg) :
    serSegs (init ++ [sg]) = serSegs init ++ serSeg sg := by
  simp [serSegs]

/-- The slot data of a list ending in a point and a command value. -/
def EndCoords (B : List ℝ) (p : Point) : Prop :=
  ∃ B0 c, B = B0 ++ [p.X, p.Y, c]

lemma endCoords_append_left {B : List ℝ} {p : Point} (A : List ℝ)
    (h : EndCoords B p) : EndCoords (A ++ B) p := by
  obtain ⟨B0, c, hB⟩ := h
  exact ⟨A ++ B0, c, by rw [hB, List.append_assoc]⟩

lemma endCoords_serSeg (sg : Seg) : EndCoords (serSeg sg) sg.endPoint := by
  cases sg with
  | line e => exact ⟨[LineToCmd], LineToCmd, rfl⟩
  | quad cp e => exact ⟨[QuadToCmd, cp.X, cp.Y], QuadToCmd, rfl⟩
  | cube cp1 cp2 e =>
    exact ⟨[CubeToCmd, cp1.X, cp1.Y, cp2.X, cp2.Y], CubeToCmd, rfl⟩
  | arc rx ry phi large sweep e =>
    exact ⟨[ArcToCmd, rx, ry, phi, fromArcFlags large sweep], ArcToCmd, rfl⟩

lemma getD_append_len (A B : List ℝ) : (A ++ B).getD A.length 0 = B.getD 0 0 := by
  have h := getD_append_add A B 0
  simpa using h

/-- Coordinate reads two and three before an inner boundary. -/
lemma endCoords_read {B : List ℝ} {p : Point} (h : EndCoords B p)
    (A rest : List ℝ) :
    (A ++ (B ++ rest)).getD (A.length + B.length - 3) 0 = p.X ∧
    (A ++ (B ++ rest)).getD (A.length + B.length - 2) 0 = p.Y := by
  obtain ⟨B0, c, hB⟩ := h
  subst hB
  have hlen : (B0 ++ [p.X, p.Y, c]).length = B0.length + 3 := by simp
  constructor
  · rw [hlen, show A.length + (B0.length + 3) - 3 = A.length + B0.length by omega]
    rw [show A ++ (B0 ++ [p.X, p.Y, c] ++ rest) = (A ++ B0) ++ ([p.X, p.Y, c] ++ rest)
      from by simp]
    rw [show A.length + B0.length = (A ++ B0).length from by simp]
    rw [getD_append_len]
    rfl
  · rw [hlen, show A.length + (B0.length + 3) - 2 = A.length + B0.length + 1 by omega]
    rw [show A.length + B0.length + 1 = (A ++ B0).length + 1 from by simp]
    rw [show A ++ (B0 ++ [p.X, p.Y, c] ++ rest) = (A ++ B0) ++ ([p.X, p.Y, c] ++ rest)
      from by simp]
    rw [getD_append_add]
    rfl

/-- Command read one before an inner boundary. -/
lemma endCoords_read_cmd {B0 : List ℝ} {x y c : ℝ} (A rest : List ℝ) :
    (A ++ ((B0 ++ [x, y, c]) ++ rest)).getD (A.length + (B0 ++ [x, y, c]).length - 1) 0
      = c := by
  have hlen : (B0 ++ [x, y, c]).length = B0.length + 3 := by simp
  rw [hlen, show A.length + (B0.length + 3) - 1 = (A ++ B0).length + 2 from by simp; omega]
  rw [show A ++ ((B0 ++ [x, y, c]) ++ rest) = (A ++ B0) ++ ([x, y, c] ++ rest)
    from by simp]
  rw [getD_append_add]
  rfl

lemma endCoords_serSub (s : SubPath) : EndCoords (serSub s) s.lastPos := by
  rw [serSub, SubPath.lastPos]
  cases hc : s.closed with
  | true =>
    simp only [hc, if_true]
    exact endCoords_append_left _ ⟨[CloseCmd], CloseCmd, rfl⟩
  | false =>
    simp only [hc, if_false, Bool.false_eq_true, List.append_nil]
    rcases List.eq_nil_or_concat s.segs with hnil | ⟨init, sg, hcat⟩
    · rw [hnil]
      simp only [serSegs_nil, List.append_nil, segsEnd, List.getLast?_nil]
      exact ⟨[MoveToCmd], MoveToCmd, rfl⟩
    · rw [hcat, List.concat_eq_append, serSegs_concat, ← List.append_assoc]
      refine endCoords_append_left _ ?_
      rw [show segsEnd s.start (init ++ [sg]) = sg.endPoint from by
        rw [segsEnd, List.getLast?_concat]]
      exact endCoords_serSeg sg

lemma serPath_nil : serPath [] = [] := rfl

lemma serPath_cons (s : SubPath) (rest : List SubPath) :
    serPath (s :: rest) = serSub s ++ serPath rest := by
  simp [serPath]

lemma serPath_concat (front : List SubPath) (s : SubPath) :
    serPath (front ++ [s]) = serPath front ++ serSub s := by
  simp [serPath]

lemma endCoords_serPath_concat (front : List SubPath) (s : SubPath) :
    EndCoords (serPath (front ++ [s])) s.lastPos := by
  rw [serPath_concat]
  exact endCoords_append_left _ (endCoords_serSub s)


lemma getD_in_slot (A B rest : List ℝ) (k : ℕ) (hk : k < B.length) :
    (A ++ (B ++ rest)).getD (A.length + k) 0 = B.getD k 0 := by
  rw [getD_append_add]
  exact getD_append_lt B rest k hk

lemma toArcFlags_fromArcFlags (la sw : Bool) :
    toArcFlags (fromArcFlags la sw) = (la, sw) := by
  cases la <;> cases sw <;> norm_num [toArcFlags, fromArcFlags]

lemma revSegs_concat (init : List Seg) (sg : Seg) :
    ∀ p0, revSegs p0 (init ++ [sg]) = sg.revWith (segsEnd p0 init) :: revSegs p0 init := by
  induction init with
  | nil => intro p0; simp [revSegs, segsEnd]
  | cons a t ih =>
    intro p0
    rw [List.cons_append, revSegs, ih a.endPoint, revSegs]
    simp only [segsEnd, List.getLast?_cons_cons]
    rw [show (a :: t).getLast? = t.getLast?.or (some a) from ?_]
    · cases ht : t.getLast? with
      | none =>
        have ht2 : t = [] := by
          cases t with
          | nil => rfl
          | cons b u => simp [List.getLast?_eq_getLast] at ht
        subst ht2
        simp [segsEnd, revSegs]
      | some x => simp [segsEnd, ht]
    · cases t with
      | nil => simp
      | cons b u =>
        rw [List.getLast?_cons_cons]
        cases hbu : (b :: u).getLast? with
        | none => simp [List.getLast?_eq_getLast] at hbu
        | some x => simp

lemma endCoords_M4_segs (p0 : Point) (init : List Seg) :
    EndCoords ([MoveToCmd, p0.X, p0.Y, MoveToCmd] ++ serSegs init) (segsEnd p0 init) := by
  rcases List.eq_nil_or_concat init with hnil | ⟨pre, sg, hcat⟩
  · subst hnil
    simp only [serSegs_nil, List.append_nil, segsEnd, List.getLast?_nil]
    exact ⟨[MoveToCmd], MoveToCmd, rfl⟩
  · subst hcat
    rw [List.concat_eq_append, serSegs_concat, ← List.append_assoc,
      show segsEnd p0 (pre ++ [sg]) = sg.endPoint from by
        rw [segsEnd, List.getLast?_concat]]
    exact endCoords_append_left _ (endCoords_serSeg sg)


lemma segsEnd_concat (p0 : Point) (init : List Seg) (sg : Seg) :
    segsEnd p0 (init ++ [sg]) = sg.endPoint := by
  rw [segsEnd, List.getLast?_concat]

lemma getD_prev_end (A rest' : List ℝ) (p0 : Point) (init : List Seg) :
    ((A ++ (([MoveToCmd, p0.X, p0.Y, MoveToCmd] ++ serSegs init) ++ rest')).getD
        (A.length + 4 + (serSegs init).length - 3) 0 = (segsEnd p0 init).X) ∧
    ((A ++ (([MoveToCmd, p0.X, p0.Y, MoveToCmd] ++ serSegs init) ++ rest')).getD
        (A.length + 4 + (serSegs init).length - 2) 0 = (segsEnd p0 init).Y) := by
  have h := endCoords_read (endCoords_M4_segs p0 init) A rest'
  have hl : ([MoveToCmd, p0.X, p0.Y, MoveToCmd] ++ serSegs init).length
      = 4 + (serSegs init).length := by
    simp only [List.length_append, List.length_cons, List.length_nil]
  rw [hl] at h
  constructor
  · rw [show A.length + 4 + (serSegs init).length - 3
        = A.length + (4 + (serSegs init).length) - 3 from by omega]
    exact h.1
  · rw [show A.length + 4 + (serSegs init).length - 2
        = A.length + (4 + (serSegs init).length) - 2 from by omega]
    exact h.2

/-- Peeling a run of segment slots in `reverseLoop` with `closed = False`:
processing the serialized segments of an open run emits exactly the reversed
segments. -/
lemma reverseLoop_segs_open (d : List ℝ) (p0 : Point) (A : List ℝ)
    (segs : List Seg) :
    ∀ (rest : List ℝ),
    d = A ++ ([MoveToCmd, p0.X, p0.Y, MoveToCmd] ++ (serSegs segs ++ rest)) →
    ∀ (first : Point) (acc : List ℝ),
    reverseLoop d (A.length + 4 + (serSegs segs).length) False first
        (segsEnd p0 segs) acc
      = reverseLoop d (A.length + 4) False first p0
          (acc ++ serSegs (revSegs p0 segs)) := by
  induction segs using List.reverseRecOn with
  | nil =>
    intro rest hd first acc
    simp [serSegs, revSegs, segsEnd]
  | append_singleton init sg ih =>
    intro rest hd first acc
    have hd2 : d = (A ++ ([MoveToCmd, p0.X, p0.Y, MoveToCmd] ++ serSegs init)) ++
        (serSeg sg ++ rest) := by
      rw [hd, serSegs_concat]; simp
    have hd3 : d = A ++ (([MoveToCmd, p0.X, p0.Y, MoveToCmd] ++ serSegs init) ++
        (serSeg sg ++ rest)) := by
      rw [hd, serSegs_concat]; simp
    have hdi : d = A ++ ([MoveToCmd, p0.X, p0.Y, MoveToCmd] ++
        (serSegs init ++ (serSeg sg ++ rest))) := by
      rw [hd, serSegs_concat]; simp
    have hread := getD_prev_end A (serSeg sg ++ rest) p0 init
    rw [← hd3] at hread
    set A1 := A ++ ([MoveToCmd, p0.X, p0.Y, MoveToCmd] ++ serSegs init) with hA1
    have hA1len : A1.length = A.length + 4 + (serSegs init).length := by
      rw [hA1]; simp only [List.length_append, List.length_cons, List.length_nil]; omega
    rw [← hA1len] at hread
    cases sg with
    | line e =>
      have hi : A.length + 4 + (serSegs (init ++ [Seg.line e])).length
          = A1.length + 4 := by
        rw [serSegs_concat]
        simp only [List.length_append, hA1len, serSeg, List.length_cons, List.length_nil]
        omega
      rw [hi]
      have hcmd : d.getD (A1.length + 4 - 1) 0 = LineToCmd := by
        rw [show A1.length + 4 - 1 = A1.length + 3 from by omega, hd2,
          getD_in_slot A1 (serSeg (Seg.line e)) rest 3 (by simp [serSeg])]
        rfl
      rw [reverseLoop, if_pos (show 0 < A1.length + 4 by omega)]
      simp only [hcmd, cmdLen_lineTo, Nat.add_sub_cancel]
      rw [if_neg (show ¬(LineToCmd = MoveToCmd) from by norm_num [LineToCmd, MoveToCmd]),
        if_neg (show ¬(LineToCmd = CloseCmd) from by norm_num [LineToCmd, CloseCmd]),
        if_pos trivial]
      simp only [false_and, if_false]
      rw [if_pos (show 0 < A1.length from by omega)]
      rw [hread.1, hread.2]
      rw [show (⟨(segsEnd p0 init).X, (segsEnd p0 init).Y⟩ : Point)
        = segsEnd p0 init from rfl]
      rw [hA1len]
      rw [ih _ hdi]
      rw [revSegs_concat]
      simp [serSegs_cons, Seg.revWith, serSeg, List.append_assoc]
    | quad cp e =>
      have hi : A.length + 4 + (serSegs (init ++ [Seg.quad cp e])).length
          = A1.length + 6 := by
        rw [serSegs_concat]
        simp only [List.length_append, hA1len, serSeg, List.length_cons, List.length_nil]
        omega
      rw [hi]
      have hcmd : d.getD (A1.length + 6 - 1) 0 = QuadToCmd := by
        rw [show A1.length + 6 - 1 = A1.length + 5 from by omega, hd2,
          getD_in_slot A1 (serSeg (Seg.quad cp e)) rest 5 (by simp [serSeg])]
        rfl
      have hq1 : d.getD (A1.length + 1) 0 = cp.X := by
        rw [hd2, getD_in_slot A1 (serSeg (Seg.quad cp e)) rest 1 (by simp [serSeg])]
        rfl
      have hq2 : d.getD (A1.length + 2) 0 = cp.Y := by
        rw [hd2, getD_in_slot A1 (serSeg (Seg.quad cp e)) rest 2 (by simp [serSeg])]
        rfl
      rw [reverseLoop, if_pos (show 0 < A1.length + 6 by omega)]
      simp only [hcmd, cmdLen_quadTo, Nat.add_sub_cancel]
      rw [if_neg (show ¬(QuadToCmd = MoveToCmd) from by norm_num [QuadToCmd, MoveToCmd]),
        if_neg (show ¬(QuadToCmd = CloseCmd) from by norm_num [QuadToCmd, CloseCmd]),
        if_neg (show ¬(QuadToCmd = LineToCmd) from by norm_num [QuadToCmd, LineToCmd]),
        if_pos trivial]
      rw [if_pos (show 0 < A1.length from by omega)]
      rw [hread.1, hread.2, hq1, hq2]
      rw [show (⟨(segsEnd p0 init).X, (segsEnd p0 init).Y⟩ : Point)
        = segsEnd p0 init from rfl]
      rw [hA1len]
      rw [ih _ hdi]
      rw [revSegs_concat]
      simp [serSegs_cons, Seg.revWith, serSeg, List.append_assoc]
    | cube cp1 cp2 e =>
      have hi : A.length + 4 + (serSegs (init ++ [Seg.cube cp1 cp2 e])).length
          = A1.length + 8 := by
        rw [serSegs_concat]
        simp only [List.length_append, hA1len, serSeg, List.length_cons, List.length_nil]
        omega
      rw [hi]
      have hcmd : d.getD (A1.length + 8 - 1) 0 = CubeToCmd := by
        rw [show A1.length + 8 - 1 = A1.length + 7 from by omega, hd2,
          getD_in_slot A1 (serSeg (Seg.cube cp1 cp2 e)) rest 7 (by simp [serSeg])]
        rfl
      have hc1 : d.getD (A1.length + 1) 0 = cp1.X := by
        rw [hd2, getD_in_slot A1 (serSeg (Seg.cube cp1 cp2 e)) rest 1 (by simp [serSeg])]
        rfl
      have hc2 : d.getD (A1.length + 2) 0 = cp1.Y := by
        rw [hd2, getD_in_slot A1 (serSeg (Seg.cube cp1 cp2 e)) rest 2 (by simp [serSeg])]
        rfl
      have hc3 : d.getD (A1.length + 3) 0 = cp2.X := by
        rw [hd2, getD_in_slot A1 (serSeg (Seg.cube cp1 cp2 e)) rest 3 (by simp [serSeg])]
        rfl
      have hc4 : d.getD (A1.length + 4) 0 = cp2.Y := by
        rw [hd2, getD_in_slot A1 (serSeg (Seg.cube cp1 cp2 e)) rest 4 (by simp [serSeg])]
        rfl
      rw [reverseLoop, if_pos (show 0 < A1.length + 8 by omega)]
      simp only [hcmd, cmdLen_cubeTo, Nat.add_sub_cancel]
      rw [if_neg (show ¬(CubeToCmd = MoveToCmd) from by norm_num [CubeToCmd, MoveToCmd]),
        if_neg (show ¬(CubeToCmd = CloseCmd) from by norm_num [CubeToCmd, CloseCmd]),
        if_neg (show ¬(CubeToCmd = LineToCmd) from by norm_num [CubeToCmd, LineToCmd]),
        if_neg (show ¬(CubeToCmd = QuadToCmd) from by norm_num [CubeToCmd, QuadToCmd]),
        if_pos trivial]
      rw [if_pos (show 0 < A1.length from by omega)]
      rw [hread.1, hread.2, hc1, hc2, hc3, hc4]
      rw [show (⟨(segsEnd p0 init).X, (segsEnd p0 init).Y⟩ : Point)
        = segsEnd p0 init from rfl]
      rw [hA1len]
      rw [ih _ hdi]
      rw [revSegs_concat]
      simp [serSegs_cons, Seg.revWith, serSeg, List.append_assoc]
    | arc rx ry phi la sw e =>
      have hi : A.length + 4 + (serSegs (init ++ [Seg.arc rx ry phi la sw e])).length
          = A1.length + 8 := by
        rw [serSegs_concat]
        simp only [List.length_append, hA1len, serSeg, List.length_cons, List.length_nil]
        omega
      rw [hi]
      have hcmd : d.getD (A1.length + 8 - 1) 0 = ArcToCmd := by
        rw [show A1.length + 8 - 1 = A1.length + 7 from by omega, hd2,
          getD_in_slot A1 (serSeg (Seg.arc rx ry phi la sw e)) rest 7 (by simp [serSeg])]
        rfl
      have ha1 : d.getD (A1.length + 1) 0 = rx := by
        rw [hd2, getD_in_slot A1 (serSeg (Seg.arc rx ry phi la sw e)) rest 1
          (by simp [serSeg])]
        rfl
      have ha2 : d.getD (A1.length + 2) 0 = ry := by
        rw [hd2, getD_in_slot A1 (serSeg (Seg.arc rx ry phi la sw e)) rest 2
          (by simp [serSeg])]
        rfl
      have ha3 : d.getD (A1.length + 3) 0 = phi := by
        rw [hd2, getD_in_slot A1 (serSeg (Seg.arc rx ry phi la sw e)) rest 3
          (by simp [serSeg])]
        rfl
      have ha4 : d.getD (A1.length + 4) 0 = fromArcFlags la sw := by
        rw [hd2, getD_in_slot A1 (serSeg (Seg.arc rx ry phi la sw e)) rest 4
          (by simp [serSeg])]
        rfl
      rw [reverseLoop, if_pos (show 0 < A1.length + 8 by omega)]
      simp only [hcmd, cmdLen_arcTo, Nat.add_sub_cancel]
      rw [if_neg (show ¬(ArcToCmd = MoveToCmd) from by norm_num [ArcToCmd, MoveToCmd]),
        if_neg (show ¬(ArcToCmd = CloseCmd) from by norm_num [ArcToCmd, CloseCmd]),
        if_neg (show ¬(ArcToCmd = LineToCmd) from by norm_num [ArcToCmd, LineToCmd]),
        if_neg (show ¬(ArcToCmd = QuadToCmd) from by norm_num [ArcToCmd, QuadToCmd]),
        if_neg (show ¬(ArcToCmd = CubeToCmd) from by norm_num [ArcToCmd, CubeToCmd]),
        if_pos trivial]
      rw [if_pos (show 0 < A1.length from by omega)]
      rw [hread.1, hread.2, ha1, ha2, ha3, ha4, toArcFlags_fromArcFlags]
      rw [show (⟨(segsEnd p0 init).X, (segsEnd p0 init).Y⟩ : Point)
        = segsEnd p0 init from rfl]
      rw [hA1len]
      rw [ih _ hdi]
      rw [revSegs_concat]
      simp [serSegs_cons, Seg.revWith, serSeg, List.append_assoc]


lemma headIsLine_append (init l : List Seg) (h : init ≠ []) :
    headIsLine (init ++ l) = headIsLine init := by
  cases init with
  | nil => exact absurd rfl h
  | cons a t => simp [headIsLine]

lemma revSegs_length (segs : List Seg) : ∀ p0, (revSegs p0 segs).length = segs.length := by
  induction segs with
  | nil => intro p0; rfl
  | cons a t ih => intro p0; simp [revSegs, ih]

lemma dropLast_cons_ne {α : Type} (a : α) (l : List α) (h : l ≠ []) :
    (a :: l).dropLast = a :: l.dropLast := by
  cases l with
  | nil => exact absurd rfl h
  | cons b t => rfl

lemma getD_run_last_cmd (A rest' : List ℝ) (p0 : Point) (init : List Seg)
    (h : init ≠ []) :
    ∃ c, ((A ++ (([MoveToCmd, p0.X, p0.Y, MoveToCmd] ++ serSegs init) ++ rest')).getD
        (A.length + 4 + (serSegs init).length - 1) 0 = c) ∧ c ≠ MoveToCmd := by
  obtain ⟨pre, sg, rfl⟩ : ∃ pre sg, init = pre ++ [sg] := by
    rcases List.eq_nil_or_concat init with h0 | ⟨pre, sg, h0⟩
    · exact absurd h0 h
    · exact ⟨pre, sg, by rw [h0, List.concat_eq_append]⟩
  have hre : A ++ (([MoveToCmd, p0.X, p0.Y, MoveToCmd] ++ serSegs (pre ++ [sg])) ++ rest')
      = (A ++ ([MoveToCmd, p0.X, p0.Y, MoveToCmd] ++ serSegs pre)) ++
        (serSeg sg ++ rest') := by
    rw [serSegs_concat]; simp
  rw [hre]
  cases sg with
  | line e =>
    refine ⟨LineToCmd, ?_, by norm_num [LineToCmd, MoveToCmd]⟩
    rw [show A.length + 4 + (serSegs (pre ++ [Seg.line e])).length - 1
        = (A ++ ([MoveToCmd, p0.X, p0.Y, MoveToCmd] ++ serSegs pre)).length + 3 from by
      rw [serSegs_concat]
      simp only [List.length_append, List.length_cons, List.length_nil, serSeg]
      omega]
    rw [getD_in_slot _ (serSeg (Seg.line e)) rest' 3 (by simp [serSeg])]
    rfl
  | quad cp e =>
    refine ⟨QuadToCmd, ?_, by norm_num [QuadToCmd, MoveToCmd]⟩
    rw [show A.length + 4 + (serSegs (pre ++ [Seg.quad cp e])).length - 1
        = (A ++ ([MoveToCmd, p0.X, p0.Y, MoveToCmd] ++ serSegs pre)).length + 5 from by
      rw [serSegs_concat]
      simp only [List.length_append, List.length_cons, List.length_nil, serSeg]
      omega]
    rw [getD_in_slot _ (serSeg (Seg.quad cp e)) rest' 5 (by simp [serSeg])]
    rfl
  | cube cp1 cp2 e =>
    refine ⟨CubeToCmd, ?_, by norm_num [CubeToCmd, MoveToCmd]⟩
    rw [show A.length + 4 + (serSegs (pre ++ [Seg.cube cp1 cp2 e])).length - 1
        = (A ++ ([MoveToCmd, p0.X, p0.Y, MoveToCmd] ++ serSegs pre)).length + 7 from by
      rw [serSegs_concat]
      simp only [List.length_append, List.length_cons, List.length_nil, serSeg]
      omega]
    rw [getD_in_slot _ (serSeg (Seg.cube cp1 cp2 e)) rest' 7 (by simp [serSeg])]
    rfl
  | arc rx ry phi la sw e =>
    refine ⟨ArcToCmd, ?_, by norm_num [ArcToCmd, MoveToCmd]⟩
    rw [show A.length + 4 + (serSegs (pre ++ [Seg.arc rx ry phi la sw e])).length - 1
        = (A ++ ([MoveToCmd, p0.X, p0.Y, MoveToCmd] ++ serSegs pre)).length + 7 from by
      rw [serSegs_concat]
      simp only [List.length_append, List.length_cons, List.length_nil, serSeg]
      omega]
    rw [getD_in_slot _ (serSeg (Seg.arc rx ry phi la sw e)) rest' 7 (by simp [serSeg])]
    rfl


/-- Peeling a run of segment slots in `reverseLoop` with `closed = True`: the
reversed segments are emitted, and a leading line segment is folded into the
emitted Close slot (dropping the closed flag). -/
lemma reverseLoop_segs_closed (d : List ℝ) (p0 : Point) (A : List ℝ)
    (segs : List Seg) :
    ∀ (rest : List ℝ),
    d = A ++ ([MoveToCmd, p0.X, p0.Y, MoveToCmd] ++ (serSegs segs ++ rest)) →
    segs ≠ [] →
    ∀ (first : Point) (acc : List ℝ),
    reverseLoop d (A.length + 4 + (serSegs segs).length) True first
        (segsEnd p0 segs) acc
      = if headIsLine segs = true then
          reverseLoop d (A.length + 4) False first p0
            (acc ++ serSegs ((revSegs p0 segs).dropLast) ++
              [CloseCmd, first.X, first.Y, CloseCmd])
        else
          reverseLoop d (A.length + 4) True first p0
            (acc ++ serSegs (revSegs p0 segs)) := by
  induction segs using List.reverseRecOn with
  | nil =>
    intro rest hd hne first acc
    exact absurd rfl hne
  | append_singleton init sg ih =>
    intro rest hd hne first acc
    have hd2 : d = (A ++ ([MoveToCmd, p0.X, p0.Y, MoveToCmd] ++ serSegs init)) ++
        (serSeg sg ++ rest) := by
      rw [hd, serSegs_concat]; simp
    have hd3 : d = A ++ (([MoveToCmd, p0.X, p0.Y, MoveToCmd] ++ serSegs init) ++
        (serSeg sg ++ rest)) := by
      rw [hd, serSegs_concat]; simp
    have hdi : d = A ++ ([MoveToCmd, p0.X, p0.Y, MoveToCmd] ++
        (serSegs init ++ (serSeg sg ++ rest))) := by
      rw [hd, serSegs_concat]; simp
    have hread := getD_prev_end A (serSeg sg ++ rest) p0 init
    rw [← hd3] at hread
    set A1 := A ++ ([MoveToCmd, p0.X, p0.Y, MoveToCmd] ++ serSegs init) with hA1
    have hA1len : A1.length = A.length + 4 + (serSegs init).length := by
      rw [hA1]; simp only [List.length_append, List.length_cons, List.length_nil]; omega
    rw [← hA1len] at hread
    by_cases hinit : init = []
    · subst hinit
      have h00 : (serSegs ([] : List Seg)).length = 0 := rfl
      cases sg with
      | line e =>
        have hi : A.length + 4 + (serSegs ([] ++ [Seg.line e])).length
            = A1.length + 4 := by
          rw [serSegs_concat]
          simp only [List.length_append, hA1len, serSeg, List.length_cons,
            List.length_nil]
          omega
        rw [hi]
        have hcmd : d.getD (A1.length + 4 - 1) 0 = LineToCmd := by
          rw [show A1.length + 4 - 1 = A1.length + 3 from by omega, hd2,
            getD_in_slot A1 (serSeg (Seg.line e)) rest 3 (by simp [serSeg])]
          rfl
        rw [reverseLoop, if_pos (show 0 < A1.length + 4 by omega)]
        simp only [hcmd, cmdLen_lineTo, Nat.add_sub_cancel]
        rw [if_neg (show ¬(LineToCmd = MoveToCmd) from by
            norm_num [LineToCmd, MoveToCmd]),
          if_neg (show ¬(LineToCmd = CloseCmd) from by
            norm_num [LineToCmd, CloseCmd]),
          if_pos trivial]
        have hM : d.getD (A1.length - 1) 0 = MoveToCmd := by
          rw [show A1.length - 1 = A.length + 3 from by omega, hd,
            getD_in_slot A [MoveToCmd, p0.X, p0.Y, MoveToCmd] _ 3 (by norm_num)]
          rfl
        rw [if_pos (show True ∧ (A1.length = 0 ∨ d.getD (A1.length - 1) 0 = MoveToCmd)
          from ⟨trivial, Or.inr hM⟩)]
        rw [if_pos (show 0 < A1.length from by omega)]
        rw [hread.1, hread.2]
        rw [show (⟨(segsEnd p0 ([] : List Seg)).X, (segsEnd p0 ([] : List Seg)).Y⟩ :
          Point) = segsEnd p0 ([] : List Seg) from rfl]
        rw [hA1len]
        rw [if_pos (show headIsLine ([] ++ [Seg.line e]) = true from rfl)]
        simp [revSegs, serSegs, serSeg, segsEnd, Seg.endPoint, List.dropLast]
      | quad cp e =>
        have hi : A.length + 4 + (serSegs ([] ++ [Seg.quad cp e])).length
            = A1.length + 6 := by
          rw [serSegs_concat]
          simp only [List.length_append, hA1len, serSeg, List.length_cons,
            List.length_nil]
          omega
        rw [hi]
        have hcmd : d.getD (A1.length + 6 - 1) 0 = QuadToCmd := by
          rw [show A1.length + 6 - 1 = A1.length + 5 from by omega, hd2,
            getD_in_slot A1 (serSeg (Seg.quad cp e)) rest 5 (by simp [serSeg])]
          rfl
        have hq1 : d.getD (A1.length + 1) 0 = cp.X := by
          rw [hd2, getD_in_slot A1 (serSeg (Seg.quad cp e)) rest 1 (by simp [serSeg])]
          rfl
        have hq2 : d.getD (A1.length + 2) 0 = cp.Y := by
          rw [hd2, getD_in_slot A1 (serSeg (Seg.quad cp e)) rest 2 (by simp [serSeg])]
          rfl
        rw [reverseLoop, if_pos (show 0 < A1.length + 6 by omega)]
        simp only [hcmd, cmdLen_quadTo, Nat.add_sub_cancel]
        rw [if_neg (show ¬(QuadToCmd = MoveToCmd) from by
            norm_num [QuadToCmd, MoveToCmd]),
          if_neg (show ¬(QuadToCmd = CloseCmd) from by
            norm_num [QuadToCmd, CloseCmd]),
          if_neg (show ¬(QuadToCmd = LineToCmd) from by
            norm_num [QuadToCmd, LineToCmd]),
          if_pos trivial]
        rw [if_pos (show 0 < A1.length from by omega)]
        rw [hread.1, hread.2, hq1, hq2]
        rw [show (⟨(segsEnd p0 ([] : List Seg)).X, (segsEnd p0 ([] : List Seg)).Y⟩ :
          Point) = segsEnd p0 ([] : List Seg) from rfl]
        rw [hA1len]
        rw [if_neg (show ¬(headIsLine ([] ++ [Seg.quad cp e]) = true) from by
          simp [headIsLine, Seg.isLine])]
        simp [revSegs, serSegs, serSeg, Seg.revWith, segsEnd, Seg.endPoint,
          List.append_assoc]
      | cube cp1 cp2 e =>
        have hi : A.length + 4 + (serSegs ([] ++ [Seg.cube cp1 cp2 e])).length
            = A1.length + 8 := by
          rw [serSegs_concat]
          simp only [List.length_append, hA1len, serSeg, List.length_cons,
            List.length_nil]
          omega
        rw [hi]
        have hcmd : d.getD (A1.length + 8 - 1) 0 = CubeToCmd := by
          rw [show A1.length + 8 - 1 = A1.length + 7 from by omega, hd2,
            getD_in_slot A1 (serSeg (Seg.cube cp1 cp2 e)) rest 7 (by simp [serSeg])]
          rfl
        have hc1 : d.getD (A1.length + 1) 0 = cp1.X := by
          rw [hd2, getD_in_slot A1 (serSeg (Seg.cube cp1 cp2 e)) rest 1
            (by simp [serSeg])]
          rfl
        have hc2 : d.getD (A1.length + 2) 0 = cp1.Y := by
          rw [hd2, getD_in_slot A1 (serSeg (Seg.cube cp1 cp2 e)) rest 2
            (by simp [serSeg])]
          rfl
        have hc3 : d.getD (A1.length + 3) 0 = cp2.X := by
          rw [hd2, getD_in_slot A1 (serSeg (Seg.cube cp1 cp2 e)) rest 3
            (by simp [serSeg])]
          rfl
        have hc4 : d.getD (A1.length + 4) 0 = cp2.Y := by
          rw [hd2, getD_in_slot A1 (serSeg (Seg.cube cp1 cp2 e)) rest 4
            (by simp [serSeg])]
          rfl
        rw [reverseLoop, if_pos (show 0 < A1.length + 8 by omega)]
        simp only [hcmd, cmdLen_cubeTo, Nat.add_sub_cancel]
        rw [if_neg (show ¬(CubeToCmd = MoveToCmd) from by
            norm_num [CubeToCmd, MoveToCmd]),
          if_neg (show ¬(CubeToCmd = CloseCmd) from by
            norm_num [CubeToCmd, CloseCmd]),
          if_neg (show ¬(CubeToCmd = LineToCmd) from by
            norm_num [CubeToCmd, LineToCmd]),
          if_neg (show ¬(CubeToCmd = QuadToCmd) from by
            norm_num [CubeToCmd, QuadToCmd]),
          if_pos trivial]
        rw [if_pos (show 0 < A1.length from by omega)]
        rw [hread.1, hread.2, hc1, hc2, hc3, hc4]
        rw [show (⟨(segsEnd p0 ([] : List Seg)).X, (segsEnd p0 ([] : List Seg)).Y⟩ :
          Point) = segsEnd p0 ([] : List Seg) from rfl]
        rw [hA1len]
        rw [if_neg (show ¬(headIsLine ([] ++ [Seg.cube cp1 cp2 e]) = true) from by
          simp [headIsLine, Seg.isLine])]
        simp [revSegs, serSegs, serSeg, Seg.revWith, segsEnd, Seg.endPoint,
          List.append_assoc]
      | arc rx ry phi la sw e =>
        have hi : A.length + 4 +
            (serSegs ([] ++ [Seg.arc rx ry phi la sw e])).length
            = A1.length + 8 := by
          rw [serSegs_concat]
          simp only [List.length_append, hA1len, serSeg, List.length_cons,
            List.length_nil]
          omega
        rw [hi]
        have hcmd : d.getD (A1.length + 8 - 1) 0 = ArcToCmd := by
          rw [show A1.length + 8 - 1 = A1.length + 7 from by omega, hd2,
            getD_in_slot A1 (serSeg (Seg.arc rx ry phi la sw e)) rest 7
              (by simp [serSeg])]
          rfl
        have ha1 : d.getD (A1.length + 1) 0 = rx := by
          rw [hd2, getD_in_slot A1 (serSeg (Seg.arc rx ry phi la sw e)) rest 1
            (by simp [serSeg])]
          rfl
        have ha2 : d.getD (A1.length + 2) 0 = ry := by
          rw [hd2, getD_in_slot A1 (serSeg (Seg.arc rx ry phi la sw e)) rest 2
            (by simp [serSeg])]
          rfl
        have ha3 : d.getD (A1.length + 3) 0 = phi := by
          rw [hd2, getD_in_slot A1 (serSeg (Seg.arc rx ry phi la sw e)) rest 3
            (by simp [serSeg])]
          rfl
        have ha4 : d.getD (A1.length + 4) 0 = fromArcFlags la sw := by
          rw [hd2, getD_in_slot A1 (serSeg (Seg.arc rx ry phi la sw e)) rest 4
            (by simp [serSeg])]
          rfl
        rw [reverseLoop, if_pos (show 0 < A1.length + 8 by omega)]
        simp only [hcmd, cmdLen_arcTo, Nat.add_sub_cancel]
        rw [if_neg (show ¬(ArcToCmd = MoveToCmd) from by
            norm_num [ArcToCmd, MoveToCmd]),
          if_neg (show ¬(ArcToCmd = CloseCmd) from by
            norm_num [ArcToCmd, CloseCmd]),
          if_neg (show ¬(ArcToCmd = LineToCmd) from by
            norm_num [ArcToCmd, LineToCmd]),
          if_neg (show ¬(ArcToCmd = QuadToCmd) from by
            norm_num [ArcToCmd, QuadToCmd]),
          if_neg (show ¬(ArcToCmd = CubeToCmd) from by
            norm_num [ArcToCmd, CubeToCmd]),
          if_pos trivial]
        rw [if_pos (show 0 < A1.length from by omega)]
        rw [hread.1, hread.2, ha1, ha2, ha3, ha4, toArcFlags_fromArcFlags]
        rw [show (⟨(segsEnd p0 ([] : List Seg)).X, (segsEnd p0 ([] : List Seg)).Y⟩ :
          Point) = segsEnd p0 ([] : List Seg) from rfl]
        rw [hA1len]
        rw [if_neg (show ¬(headIsLine ([] ++ [Seg.arc rx ry phi la sw e]) = true)
          from by simp [headIsLine, Seg.isLine])]
        simp [revSegs, serSegs, serSeg, Seg.revWith, segsEnd, Seg.endPoint,
          List.append_assoc]
    · have hrne : revSegs p0 init ≠ [] := by
        intro hc
        have h0 : init.length = 0 := by rw [← revSegs_length init p0, hc]; rfl
        exact hinit (List.length_eq_zero.mp h0)
      cases sg with
      | line e =>
        have hi : A.length + 4 + (serSegs (init ++ [Seg.line e])).length
            = A1.length + 4 := by
          rw [serSegs_concat]
          simp only [List.length_append, hA1len, serSeg, List.length_cons,
            List.length_nil]
          omega
        rw [hi]
        have hcmd : d.getD (A1.length + 4 - 1) 0 = LineToCmd := by
          rw [show A1.length + 4 - 1 = A1.length + 3 from by omega, hd2,
            getD_in_slot A1 (serSeg (Seg.line e)) rest 3 (by simp [serSeg])]
          rfl
        rw [reverseLoop, if_pos (show 0 < A1.length + 4 by omega)]
        simp only [hcmd, cmdLen_lineTo, Nat.add_sub_cancel]
        rw [if_neg (show ¬(LineToCmd = MoveToCmd) from by
            norm_num [LineToCmd, MoveToCmd]),
          if_neg (show ¬(LineToCmd = CloseCmd) from by
            norm_num [LineToCmd, CloseCmd]),
          if_pos trivial]
        obtain ⟨c, hc, hcne⟩ := getD_run_last_cmd A (serSeg (Seg.line e) ++ rest)
          p0 init hinit
        rw [← hd3, ← hA1len] at hc
        rw [if_neg (show ¬(True ∧ (A1.length = 0 ∨
            d.getD (A1.length - 1) 0 = MoveToCmd)) from by
          rintro ⟨-, h | h⟩
          · omega
          · rw [hc] at h; exact hcne h)]
        rw [if_pos (show 0 < A1.length from by omega)]
        rw [hread.1, hread.2]
        rw [show (⟨(segsEnd p0 init).X, (segsEnd p0 init).Y⟩ : Point)
          = segsEnd p0 init from rfl]
        rw [hA1len]
        rw [ih _ hdi hinit]
        rw [headIsLine_append init [Seg.line e] hinit]
        by_cases hHL : headIsLine init = true
        · rw [if_pos hHL, if_pos hHL]
          rw [revSegs_concat, dropLast_cons_ne _ _ hrne]
          simp [serSegs_cons, Seg.revWith, serSeg, List.append_assoc]
        · rw [if_neg hHL, if_neg hHL]
          rw [revSegs_concat]
          simp [serSegs_cons, Seg.revWith, serSeg, List.append_assoc]
      | quad cp e =>
        have hi : A.length + 4 + (serSegs (init ++ [Seg.quad cp e])).length
            = A1.length + 6 := by
          rw [serSegs_concat]
          simp only [List.length_append, hA1len, serSeg, List.length_cons,
            List.length_nil]
          omega
        rw [hi]
        have hcmd : d.getD (A1.length + 6 - 1) 0 = QuadToCmd := by
          rw [show A1.length + 6 - 1 = A1.length + 5 from by omega, hd2,
            getD_in_slot A1 (serSeg (Seg.quad cp e)) rest 5 (by simp [serSeg])]
          rfl
        have hq1 : d.getD (A1.length + 1) 0 = cp.X := by
          rw [hd2, getD_in_slot A1 (serSeg (Seg.quad cp e)) rest 1 (by simp [serSeg])]
          rfl
        have hq2 : d.getD (A1.length + 2) 0 = cp.Y := by
          rw [hd2, getD_in_slot A1 (serSeg (Seg.quad cp e)) rest 2 (by simp [serSeg])]
          rfl
        rw [reverseLoop, if_pos (show 0 < A1.length + 6 by omega)]
        simp only [hcmd, cmdLen_quadTo, Nat.add_sub_cancel]
        rw [if_neg (show ¬(QuadToCmd = MoveToCmd) from by
            norm_num [QuadToCmd, MoveToCmd]),
          if_neg (show ¬(QuadToCmd = CloseCmd) from by
            norm_num [QuadToCmd, CloseCmd]),
          if_neg (show ¬(QuadToCmd = LineToCmd) from by
            norm_num [QuadToCmd, LineToCmd]),
          if_pos trivial]
        rw [if_pos (show 0 < A1.length from by omega)]
        rw [hread.1, hread.2, hq1, hq2]
        rw [show (⟨(segsEnd p0 init).X, (segsEnd p0 init).Y⟩ : Point)
          = segsEnd p0 init from rfl]
        rw [hA1len]
        rw [ih _ hdi hinit]
        rw [headIsLine_append init [Seg.quad cp e] hinit]
        by_cases hHL : headIsLine init = true
        · rw [if_pos hHL, if_pos hHL]
          rw [revSegs_concat, dropLast_cons_ne _ _ hrne]
          simp [serSegs_cons, Seg.revWith, serSeg, List.append_assoc]
        · rw [if_neg hHL, if_neg hHL]
          rw [revSegs_concat]
          simp [serSegs_cons, Seg.revWith, serSeg, List.append_assoc]
      | cube cp1 cp2 e =>
        have hi : A.length + 4 + (serSegs (init ++ [Seg.cube cp1 cp2 e])).length
            = A1.length + 8 := by
          rw [serSegs_concat]
          simp only [List.length_append, hA1len, serSeg, List.length_cons,
            List.length_nil]
          omega
        rw [hi]
        have hcmd : d.getD (A1.length + 8 - 1) 0 = CubeToCmd := by
          rw [show A1.length + 8 - 1 = A1.length + 7 from by omega, hd2,
            getD_in_slot A1 (serSeg (Seg.cube cp1 cp2 e)) rest 7 (by simp [serSeg])]
          rfl
        have hc1 : d.getD (A1.length + 1) 0 = cp1.X := by
          rw [hd2, getD_in_slot A1 (serSeg (Seg.cube cp1 cp2 e)) rest 1
            (by simp [serSeg])]
          rfl
        have hc2 : d.getD (A1.length + 2) 0 = cp1.Y := by
          rw [hd2, getD_in_slot A1 (serSeg (Seg.cube cp1 cp2 e)) rest 2
            (by simp [serSeg])]
          rfl
        have hc3 : d.getD (A1.length + 3) 0 = cp2.X := by
          rw [hd2, getD_in_slot A1 (serSeg (Seg.cube cp1 cp2 e)) rest 3
            (by simp [serSeg])]
          rfl
        have hc4 : d.getD (A1.length + 4) 0 = cp2.Y := by
          rw [hd2, getD_in_slot A1 (serSeg (Seg.cube cp1 cp2 e)) rest 4
            (by simp [serSeg])]
          rfl
        rw [reverseLoop, if_pos (show 0 < A1.length + 8 by omega)]
        simp only [hcmd, cmdLen_cubeTo, Nat.add_sub_cancel]
        rw [if_neg (show ¬(CubeToCmd = MoveToCmd) from by
            norm_num [CubeToCmd, MoveToCmd]),
          if_neg (show ¬(CubeToCmd = CloseCmd) from by
            norm_num [CubeToCmd, CloseCmd]),
          if_neg (show ¬(CubeToCmd = LineToCmd) from by
            norm_num [CubeToCmd, LineToCmd]),
          if_neg (show ¬(CubeToCmd = QuadToCmd) from by
            norm_num [CubeToCmd, QuadToCmd]),
          if_pos trivial]
        rw [if_pos (show 0 < A1.length from by omega)]
        rw [hread.1, hread.2, hc1, hc2, hc3, hc4]
        rw [show (⟨(segsEnd p0 init).X, (segsEnd p0 init).Y⟩ : Point)
          = segsEnd p0 init from rfl]
        rw [hA1len]
        rw [ih _ hdi hinit]
        rw [headIsLine_append init [Seg.cube cp1 cp2 e] hinit]
        by_cases hHL : headIsLine init = true
        · rw [if_pos hHL, if_pos hHL]
          rw [revSegs_concat, dropLast_cons_ne _ _ hrne]
          simp [serSegs_cons, Seg.revWith, serSeg, List.append_assoc]
        · rw [if_neg hHL, if_neg hHL]
          rw [revSegs_concat]
          simp [serSegs_cons, Seg.revWith, serSeg, List.append_assoc]
      | arc rx ry phi la sw e =>
        have hi : A.length + 4 +
            (serSegs (init ++ [Seg.arc rx ry phi la sw e])).length
            = A1.length + 8 := by
          rw [serSegs_concat]
          simp only [List.length_append, hA1len, serSeg, List.length_cons,
            List.length_nil]
          omega
        rw [hi]
        have hcmd : d.getD (A1.length + 8 - 1) 0 = ArcToCmd := by
          rw [show A1.length + 8 - 1 = A1.length + 7 from by omega, hd2,
            getD_in_slot A1 (serSeg (Seg.arc rx ry phi la sw e)) rest 7
              (by simp [serSeg])]
          rfl
        have ha1 : d.getD (A1.length + 1) 0 = rx := by
          rw [hd2, getD_in_slot A1 (serSeg (Seg.arc rx ry phi la sw e)) rest 1
            (by simp [serSeg])]
          rfl
        have ha2 : d.getD (A1.length + 2) 0 = ry := by
          rw [hd2, getD_in_slot A1 (serSeg (Seg.arc rx ry phi la sw e)) rest 2
            (by simp [serSeg])]
          rfl
        have ha3 : d.getD (A1.length + 3) 0 = phi := by
          rw [hd2, getD_in_slot A1 (serSeg (Seg.arc rx ry phi la sw e)) rest 3
            (by simp [serSeg])]
          rfl
        have ha4 : d.getD (A1.length + 4) 0 = fromArcFlags la sw := by
          rw [hd2, getD_in_slot A1 (serSeg (Seg.arc rx ry phi la sw e)) rest 4
            (by simp [serSeg])]
          rfl
        rw [reverseLoop, if_pos (show 0 < A1.length + 8 by omega)]
        simp only [hcmd, cmdLen_arcTo, Nat.add_sub_cancel]
        rw [if_neg (show ¬(ArcToCmd = MoveToCmd) from by
            norm_num [ArcToCmd, MoveToCmd]),
          if_neg (show ¬(ArcToCmd = CloseCmd) from by
            norm_num [ArcToCmd, CloseCmd]),
          if_neg (show ¬(ArcToCmd = LineToCmd) from by
            norm_num [ArcToCmd, LineToCmd]),
          if_neg (show ¬(ArcToCmd = QuadToCmd) from by
            norm_num [ArcToCmd, QuadToCmd]),
          if_neg (show ¬(ArcToCmd = CubeToCmd) from by
            norm_num [ArcToCmd, CubeToCmd]),
          if_pos trivial]
        rw [if_pos (show 0 < A1.length from by omega)]
        rw [hread.1, hread.2, ha1, ha2, ha3, ha4, toArcFlags_fromArcFlags]
        rw [show (⟨(segsEnd p0 init).X, (segsEnd p0 init).Y⟩ : Point)
          = segsEnd p0 init from rfl]
        rw [hA1len]
        rw [ih _ hdi hinit]
        rw [headIsLine_append init [Seg.arc rx ry phi la sw e] hinit]
        by_cases hHL : headIsLine init = true
        · rw [if_pos hHL, if_pos hHL]
          rw [revSegs_concat, dropLast_cons_ne _ _ hrne]
          simp [serSegs_cons, Seg.revWith, serSeg, List.append_assoc]
        · rw [if_neg hHL, if_neg hHL]
          rw [revSegs_concat]
          simp [serSegs_cons, Seg.revWith, serSeg, List.append_assoc]


lemma drop4_cons (x y z w : ℝ) (l : List ℝ) : (x :: y :: z :: w :: l).drop 4 = l := rfl

/-- The MoveTo step of `reverseLoop` with `closed = False`: emits the MoveTo
slot for the previous subpath (read from the data), or stops at index 0. -/
lemma reverseLoop_M_step_false (d A rest2 : List ℝ) (p0 : Point)
    (hd : d = A ++ ([MoveToCmd, p0.X, p0.Y, MoveToCmd] ++ rest2))
    (first start : Point) (acc : List ℝ) :
    reverseLoop d (A.length + 4) False first start acc
      = if 0 < A.length then
          reverseLoop d A.length False
            ⟨d.getD (A.length - 3) 0, d.getD (A.length - 2) 0⟩
            ⟨d.getD (A.length - 3) 0, d.getD (A.length - 2) 0⟩
            (acc ++ [MoveToCmd, d.getD (A.length - 3) 0, d.getD (A.length - 2) 0,
              MoveToCmd])
        else acc := by
  have hcmd : d.getD (A.length + 4 - 1) 0 = MoveToCmd := by
    rw [show A.length + 4 - 1 = A.length + 3 from by omega, hd,
      getD_in_slot A [MoveToCmd, p0.X, p0.Y, MoveToCmd] rest2 3 (by norm_num)]
    rfl
  rw [reverseLoop, if_pos (show 0 < A.length + 4 by omega)]
  simp only [hcmd, cmdLen_moveTo, Nat.add_sub_cancel]
  rw [if_pos trivial]
  simp only [if_false]
  by_cases h0 : 0 < A.length
  · rw [if_pos (show A.length ≠ 0 from by omega), if_pos h0, if_pos h0]
  · rw [if_neg (show ¬(A.length ≠ 0) from by omega), if_neg h0, if_neg h0]
    rw [reverseLoop, if_neg h0]
    simp only [if_false]

/-- The MoveTo step of `reverseLoop` with `closed = True`: first emits the
Close slot back to `first`, then the MoveTo slot for the previous subpath. -/
lemma reverseLoop_M_step_true (d A rest2 : List ℝ) (p0 : Point)
    (hd : d = A ++ ([MoveToCmd, p0.X, p0.Y, MoveToCmd] ++ rest2))
    (first start : Point) (acc : List ℝ) :
    reverseLoop d (A.length + 4) True first start acc
      = if 0 < A.length then
          reverseLoop d A.length False
            ⟨d.getD (A.length - 3) 0, d.getD (A.length - 2) 0⟩
            ⟨d.getD (A.length - 3) 0, d.getD (A.length - 2) 0⟩
            ((acc ++ [CloseCmd, first.X, first.Y, CloseCmd]) ++
              [MoveToCmd, d.getD (A.length - 3) 0, d.getD (A.length - 2) 0,
                MoveToCmd])
        else acc ++ [CloseCmd, first.X, first.Y, CloseCmd] := by
  have hcmd : d.getD (A.length + 4 - 1) 0 = MoveToCmd := by
    rw [show A.length + 4 - 1 = A.length + 3 from by omega, hd,
      getD_in_slot A [MoveToCmd, p0.X, p0.Y, MoveToCmd] rest2 3 (by norm_num)]
    rfl
  rw [reverseLoop, if_pos (show 0 < A.length + 4 by omega)]
  simp only [hcmd, cmdLen_moveTo, Nat.add_sub_cancel]
  rw [if_pos trivial]
  rw [if_pos trivial]
  by_cases h0 : 0 < A.length
  · rw [if_pos (show A.length ≠ 0 from by omega), if_pos h0, if_pos h0]
  · rw [if_neg (show ¬(A.length ≠ 0) from by omega), if_neg h0, if_neg h0]
    rw [reverseLoop, if_neg h0]
    simp only [if_false]


/-- Processing one whole subpath in `reverseLoop`: from its end down through
its MoveTo slot, the reversed subpath's data (without its MoveTo slot) is
emitted, followed by the MoveTo slot of the previous subpath when one
exists. -/
lemma reverseLoop_one_sub (d A rest : List ℝ) (s : SubPath)
    (hd : d = A ++ (serSub s ++ rest)) (acc : List ℝ) :
    reverseLoop d (A.length + (serSub s).length) False s.lastPos s.lastPos acc
      = if 0 < A.length then
          reverseLoop d A.length False
            ⟨d.getD (A.length - 3) 0, d.getD (A.length - 2) 0⟩
            ⟨d.getD (A.length - 3) 0, d.getD (A.length - 2) 0⟩
            (acc ++ (serSub s.rev).drop 4 ++
              [MoveToCmd, d.getD (A.length - 3) 0, d.getD (A.length - 2) 0,
                MoveToCmd])
        else acc ++ (serSub s.rev).drop 4 := by
  obtain ⟨p0, segs, cl⟩ := s
  cases cl with
  | false =>
    have hlp : SubPath.lastPos ⟨p0, segs, false⟩ = segsEnd p0 segs := by
      simp [SubPath.lastPos]
    have hss : serSub ⟨p0, segs, false⟩
        = [MoveToCmd, p0.X, p0.Y, MoveToCmd] ++ serSegs segs := by
      simp [serSub]
    have hdr : d = A ++ ([MoveToCmd, p0.X, p0.Y, MoveToCmd] ++
        (serSegs segs ++ rest)) := by
      rw [hd, hss]; simp
    have hi : A.length + (serSub ⟨p0, segs, false⟩).length
        = A.length + 4 + (serSegs segs).length := by
      rw [hss]; simp only [List.length_append, List.length_cons, List.length_nil]
      omega
    rw [hi, hlp]
    rw [reverseLoop_segs_open d p0 A segs rest hdr]
    rw [reverseLoop_M_step_false d A (serSegs segs ++ rest) p0 hdr]
    have hrd : (serSub (SubPath.rev ⟨p0, segs, false⟩)).drop 4
        = serSegs (revSegs p0 segs) := by
      simp [SubPath.rev, serSub, drop4_cons]
    rw [hrd]
  | true =>
    have hlp : SubPath.lastPos ⟨p0, segs, true⟩ = p0 := by simp [SubPath.lastPos]
    rw [hlp]
    rcases List.eq_nil_or_concat segs with rfl | ⟨pre, lsg, hpre⟩
    · have hd2 : d = (A ++ [MoveToCmd, p0.X, p0.Y, MoveToCmd]) ++
          ([CloseCmd, p0.X, p0.Y, CloseCmd] ++ rest) := by
        rw [hd]; simp [serSub, serSegs]
      have hdm : d = A ++ ([MoveToCmd, p0.X, p0.Y, MoveToCmd] ++
          ([CloseCmd, p0.X, p0.Y, CloseCmd] ++ rest)) := by
        rw [hd]; simp [serSub, serSegs]
      set A1 := A ++ [MoveToCmd, p0.X, p0.Y, MoveToCmd] with hA1
      have hA1len : A1.length = A.length + 4 := by
        rw [hA1]; simp
      have hi : A.length + (serSub ⟨p0, ([] : List Seg), true⟩).length
          = A1.length + 4 := by
        rw [show (serSub ⟨p0, ([] : List Seg), true⟩).length = 8 from rfl]
        omega
      rw [hi]
      have hcmd : d.getD (A1.length + 4 - 1) 0 = CloseCmd := by
        rw [show A1.length + 4 - 1 = A1.length + 3 from by omega, hd2,
          getD_in_slot A1 [CloseCmd, p0.X, p0.Y, CloseCmd] rest 3 (by norm_num)]
        rfl
      rw [reverseLoop, if_pos (show 0 < A1.length + 4 by omega)]
      simp only [hcmd, cmdLen_close, Nat.add_sub_cancel]
      rw [if_neg (show ¬(CloseCmd = MoveToCmd) from by norm_num [CloseCmd, MoveToCmd]),
        if_pos trivial]
      have he1 : d.getD (A1.length - 3) 0 = p0.X := by
        rw [show A1.length - 3 = A.length + 1 from by omega, hdm,
          getD_in_slot A [MoveToCmd, p0.X, p0.Y, MoveToCmd] _ 1 (by norm_num)]
        rfl
      have he2 : d.getD (A1.length - 2) 0 = p0.Y := by
        rw [show A1.length - 2 = A.length + 2 from by omega, hdm,
          getD_in_slot A [MoveToCmd, p0.X, p0.Y, MoveToCmd] _ 2 (by norm_num)]
        rfl
      rw [if_pos (show 0 < A1.length from by omega)]
      rw [he1, he2]
      rw [show (⟨p0.X, p0.Y⟩ : Point) = p0 from rfl]
      rw [if_neg (show ¬¬Point.Equals p0 p0 from
        not_not_intro ⟨Equal_refl _, Equal_refl _⟩)]
      rw [hA1len]
      rw [reverseLoop_M_step_true d A ([CloseCmd, p0.X, p0.Y, CloseCmd] ++ rest)
        p0 hdm]
      by_cases h0 : 0 < A.length
      · rw [if_pos h0, if_pos h0]
        simp [SubPath.rev, serSub, serSegs, drop4_cons, List.append_assoc]
      · rw [if_neg h0, if_neg h0]
        simp [SubPath.rev, serSub, serSegs, drop4_cons]
    · rw [List.concat_eq_append] at hpre
      subst hpre
      have hsegsne : pre ++ [lsg] ≠ [] := by simp
      have hss : serSub ⟨p0, pre ++ [lsg], true⟩
          = [MoveToCmd, p0.X, p0.Y, MoveToCmd] ++ (serSegs (pre ++ [lsg]) ++
            [CloseCmd, p0.X, p0.Y, CloseCmd]) := by
        simp [serSub]
      have hdr : d = A ++ ([MoveToCmd, p0.X, p0.Y, MoveToCmd] ++
          (serSegs (pre ++ [lsg]) ++ ([CloseCmd, p0.X, p0.Y, CloseCmd] ++ rest))) := by
        rw [hd, hss]; simp
      have hd2 : d = (A ++ ([MoveToCmd, p0.X, p0.Y, MoveToCmd] ++
          serSegs (pre ++ [lsg]))) ++ ([CloseCmd, p0.X, p0.Y, CloseCmd] ++ rest) := by
        rw [hd, hss]; simp
      have hd3 : d = A ++ (([MoveToCmd, p0.X, p0.Y, MoveToCmd] ++
          serSegs (pre ++ [lsg])) ++ ([CloseCmd, p0.X, p0.Y, CloseCmd] ++ rest)) := by
        rw [hd, hss]; simp
      have hread := getD_prev_end A ([CloseCmd, p0.X, p0.Y, CloseCmd] ++ rest) p0
        (pre ++ [lsg])
      rw [← hd3] at hread
      set A1 := A ++ ([MoveToCmd, p0.X, p0.Y, MoveToCmd] ++ serSegs (pre ++ [lsg]))
        with hA1
      have hA1len : A1.length = A.length + 4 + (serSegs (pre ++ [lsg])).length := by
        rw [hA1]; simp only [List.length_append, List.length_cons, List.length_nil]
        omega
      rw [← hA1len] at hread
      have hi : A.length + (serSub ⟨p0, pre ++ [lsg], true⟩).length
          = A1.length + 4 := by
        rw [hss]
        simp only [List.length_append, List.length_cons, List.length_nil, hA1len]
        omega
      rw [hi]
      have hcmd : d.getD (A1.length + 4 - 1) 0 = CloseCmd := by
        rw [show A1.length + 4 - 1 = A1.length + 3 from by omega, hd2,
          getD_in_slot A1 [CloseCmd, p0.X, p0.Y, CloseCmd] rest 3 (by norm_num)]
        rfl
      rw [reverseLoop, if_pos (show 0 < A1.length + 4 by omega)]
      simp only [hcmd, cmdLen_close, Nat.add_sub_cancel]
      rw [if_neg (show ¬(CloseCmd = MoveToCmd) from by norm_num [CloseCmd, MoveToCmd]),
        if_pos trivial]
      rw [if_pos (show 0 < A1.length from by omega)]
      rw [hread.1, hread.2]
      rw [show (⟨(segsEnd p0 (pre ++ [lsg])).X, (segsEnd p0 (pre ++ [lsg])).Y⟩ : Point)
        = segsEnd p0 (pre ++ [lsg]) from rfl]
      by_cases hEq : Point.Equals p0 (segsEnd p0 (pre ++ [lsg]))
      · have hEq2 : Point.Equals p0 lsg.endPoint := by
          rw [segsEnd_concat] at hEq; exact hEq
        rw [if_neg (not_not_intro hEq)]
        rw [hA1len]
        rw [reverseLoop_segs_closed d p0 A (pre ++ [lsg]) _ hdr hsegsne]
        by_cases hHL : headIsLine (pre ++ [lsg]) = true
        · rw [if_pos hHL]
          rw [reverseLoop_M_step_false d A _ p0 hdr]
          by_cases h0 : 0 < A.length
          · rw [if_pos h0, if_pos h0]
            simp [SubPath.rev, serSub, List.getLast?_concat, hHL, hEq2, drop4_cons,
              serSegs_cons, serSeg, segsEnd_concat, List.append_assoc]
          · rw [if_neg h0, if_neg h0]
            simp [SubPath.rev, serSub, List.getLast?_concat, hHL, hEq2, drop4_cons,
              serSegs_cons, serSeg, segsEnd_concat, List.append_assoc]
        · rw [if_neg hHL]
          rw [reverseLoop_M_step_true d A _ p0 hdr]
          by_cases h0 : 0 < A.length
          · rw [if_pos h0, if_pos h0]
            simp [SubPath.rev, serSub, List.getLast?_concat, hHL, hEq2, drop4_cons,
              serSegs_cons, serSeg, segsEnd_concat, List.append_assoc]
          · rw [if_neg h0, if_neg h0]
            simp [SubPath.rev, serSub, List.getLast?_concat, hHL, hEq2, drop4_cons,
              serSegs_cons, serSeg, segsEnd_concat, List.append_assoc]
      · have hne2 : ¬Point.Equals p0 lsg.endPoint := by
          rw [segsEnd_concat] at hEq; exact hEq
        rw [if_pos hEq]
        rw [hA1len]
        rw [reverseLoop_segs_closed d p0 A (pre ++ [lsg]) _ hdr hsegsne]
        by_cases hHL : headIsLine (pre ++ [lsg]) = true
        · rw [if_pos hHL]
          rw [reverseLoop_M_step_false d A _ p0 hdr]
          by_cases h0 : 0 < A.length
          · rw [if_pos h0, if_pos h0]
            simp [SubPath.rev, serSub, List.getLast?_concat, hHL, hne2, drop4_cons,
              serSegs_cons, serSeg, segsEnd_concat, List.append_assoc]
          · rw [if_neg h0, if_neg h0]
            simp [SubPath.rev, serSub, List.getLast?_concat, hHL, hne2, drop4_cons,
              serSegs_cons, serSeg, segsEnd_concat, List.append_assoc]
        · rw [if_neg hHL]
          rw [reverseLoop_M_step_true d A _ p0 hdr]
          by_cases h0 : 0 < A.length
          · rw [if_pos h0, if_pos h0]
            simp [SubPath.rev, serSub, List.getLast?_concat, hHL, hne2, drop4_cons,
              serSegs_cons, serSeg, segsEnd_concat, List.append_assoc]
          · rw [if_neg h0, if_neg h0]
            simp [SubPath.rev, serSub, List.getLast?_concat, hHL, hne2, drop4_cons,
              serSegs_cons, serSeg, segsEnd_concat, List.append_assoc]


lemma endCoords_read0 {B : List ℝ} {p : Point} (h : EndCoords B p) (rest : List ℝ) :
    ((B ++ rest).getD (B.length - 3) 0 = p.X) ∧
    ((B ++ rest).getD (B.length - 2) 0 = p.Y) := by
  have h2 := endCoords_read h [] rest
  simpa using h2

lemma endCoords_read_self {B : List ℝ} {p : Point} (h : EndCoords B p) :
    (B.getD (B.length - 3) 0 = p.X) ∧ (B.getD (B.length - 2) 0 = p.Y) := by
  have h2 := endCoords_read0 h []
  simpa using h2

lemma serSub_length_pos (s : SubPath) : 0 < (serSub s).length := by
  rcases s with ⟨p0, segs, cl⟩
  cases cl
  · rw [show serSub ⟨p0, segs, false⟩
      = [MoveToCmd, p0.X, p0.Y, MoveToCmd] ++ serSegs segs from by simp [serSub]]
    simp only [List.length_append, List.length_cons, List.length_nil]
    omega
  · rw [show serSub ⟨p0, segs, true⟩
      = [MoveToCmd, p0.X, p0.Y, MoveToCmd] ++
        (serSegs segs ++ [CloseCmd, p0.X, p0.Y, CloseCmd]) from by simp [serSub]]
    simp only [List.length_append, List.length_cons, List.length_nil]
    omega

/-- Processing a whole serialized path in `reverseLoop`: starting from the end
with the last subpath's final position, the reversed subpaths' data is
emitted in `revTailAux` order. -/
lemma reverseLoop_path (d : List ℝ) (subs : List SubPath) :
    ∀ (rest : List ℝ), d = serPath subs ++ rest →
    ∀ (s : SubPath), subs.getLast? = some s →
    ∀ (acc : List ℝ),
    reverseLoop d (serPath subs).length False s.lastPos s.lastPos acc
      = acc ++ revTailAux subs.reverse := by
  induction subs using List.reverseRecOn with
  | nil =>
    intro rest hd s hs acc
    simp at hs
  | append_singleton front s0 ih =>
    intro rest hd s hs acc
    have hs0 : s = s0 := by
      rw [List.getLast?_concat] at hs
      exact (Option.some_injective _ hs).symm
    subst hs0
    have hd1 : d = serPath front ++ (serSub s ++ rest) := by
      rw [hd, serPath_concat]; simp
    have hilen : (serPath (front ++ [s])).length
        = (serPath front).length + (serSub s).length := by
      rw [serPath_concat]; simp
    rw [hilen]
    rw [reverseLoop_one_sub d (serPath front) rest s hd1 acc]
    rcases List.eq_nil_or_concat front with rfl | ⟨front2, prev, hf⟩
    · rw [if_neg (show ¬0 < (serPath ([] : List SubPath)).length from by
        simp [serPath])]
      simp [revTailAux]
    · rw [List.concat_eq_append] at hf
      subst hf
      have hpos : 0 < (serPath (front2 ++ [prev])).length := by
        rw [serPath_concat]
        simp only [List.length_append]
        have := serSub_length_pos prev
        omega
      rw [if_pos hpos]
      have hreads := endCoords_read0 (endCoords_serPath_concat front2 prev)
        (serSub s ++ rest)
      rw [← hd1] at hreads
      rw [hreads.1, hreads.2]
      rw [show (⟨prev.lastPos.X, prev.lastPos.Y⟩ : Point) = prev.lastPos from rfl]
      rw [ih (serSub s ++ rest) hd1 prev (by rw [List.getLast?_concat])]
      simp [revTailAux, List.append_assoc]


lemma rev_start (s : SubPath) : (SubPath.rev s).start = s.lastPos := by
  rcases s with ⟨p0, segs, cl⟩
  cases cl
  · simp [SubPath.rev]
  · simp [SubPath.rev, SubPath.lastPos]

lemma serSub_take4 (s : SubPath) :
    serSub s = [MoveToCmd, s.start.X, s.start.Y, MoveToCmd] ++ (serSub s).drop 4 := by
  rcases s with ⟨p0, segs, cl⟩
  have h : serSub ⟨p0, segs, cl⟩ = [MoveToCmd, p0.X, p0.Y, MoveToCmd] ++
      (serSegs segs ++ (if cl then [CloseCmd, p0.X, p0.Y, CloseCmd] else [])) := by
    cases cl <;> simp [serSub]
  rw [h]
  rfl

lemma serSub_rev_take4 (s : SubPath) :
    serSub (SubPath.rev s)
      = [MoveToCmd, s.lastPos.X, s.lastPos.Y, MoveToCmd] ++
        (serSub (SubPath.rev s)).drop 4 := by
  conv_lhs => rw [serSub_take4 (SubPath.rev s)]
  rw [rev_start]

/-- The serialization of the reversed subpath list is the MoveTo slot at the
original final position followed by `revTailAux` in processing order. -/
lemma serPath_revTail (subs : List SubPath) :
    ∀ (front : List SubPath) (s0 : SubPath), subs = front ++ [s0] →
    serPath (revPath subs)
      = [MoveToCmd, s0.lastPos.X, s0.lastPos.Y, MoveToCmd] ++
        revTailAux subs.reverse := by
  induction subs using List.reverseRecOn with
  | nil =>
    intro front s0 h
    exact absurd h (by simp)
  | append_singleton front2 s ih =>
    intro front s0 h
    have hs : s = s0 := by
      have h2 := congrArg List.getLast? h
      rw [List.getLast?_concat, List.getLast?_concat] at h2
      exact Option.some_injective _ h2
    subst hs
    have hrp : revPath (front2 ++ [s]) = SubPath.rev s :: revPath front2 := by
      simp [revPath]
    rw [hrp, serPath_cons]
    rcases List.eq_nil_or_concat front2 with rfl | ⟨front3, prev, hf⟩
    · rw [serSub_rev_take4 s]
      simp [revPath, serPath, revTailAux, List.append_assoc]
    · rw [List.concat_eq_append] at hf
      subst hf
      rw [serSub_rev_take4 s, ih front3 prev rfl]
      simp [revTailAux, List.append_assoc]

/-- `Path.Reverse` on a serialized subpath list produces exactly the
serialization of the reversed subpath list. -/
lemma reverse_serPath (subs : List SubPath) :
    Path.Reverse ⟨serPath subs⟩ = ⟨serPath (revPath subs)⟩ := by
  rcases List.eq_nil_or_concat subs with rfl | ⟨front, s0, hc⟩
  · simp [Path.Reverse, serPath, revPath]
  · rw [List.concat_eq_append] at hc
    subst hc
    have hpos : 0 < (serPath (front ++ [s0])).length := by
      rw [serPath_concat]
      simp only [List.length_append]
      have := serSub_length_pos s0
      omega
    have hreads := endCoords_read_self (endCoords_serPath_concat front s0)
    simp only [Path.Reverse]
    rw [if_neg (show ¬(serPath (front ++ [s0])).length = 0 from by omega)]
    rw [hreads.1, hreads.2]
    rw [show (⟨s0.lastPos.X, s0.lastPos.Y⟩ : Point) = s0.lastPos from rfl]
    rw [reverseLoop_path (serPath (front ++ [s0])) (front ++ [s0]) [] (by simp)
      s0 (by rw [List.getLast?_concat])]
    rw [show serPath (revPath (front ++ [s0]))
      = [MoveToCmd, s0.lastPos.X, s0.lastPos.Y, MoveToCmd] ++
        revTailAux (front ++ [s0]).reverse
      from serPath_revTail (front ++ [s0]) front s0 rfl]


lemma revWith_endPoint (x : Seg) (p : Point) : (Seg.revWith x p).endPoint = p := by
  cases x <;> rfl

lemma revWith_revWith (x : Seg) (a : Point) :
    Seg.revWith (Seg.revWith x a) x.endPoint = x := by
  cases x <;> simp [Seg.revWith, Seg.endPoint]

lemma revSegs_concat_form (p0 : Point) (h : Seg) (t : List Seg) :
    revSegs p0 (h :: t) = revSegs h.endPoint t ++ [Seg.revWith h p0] := rfl

lemma segsEnd_cons (p0 : Point) (sg : Seg) (rest : List Seg) :
    segsEnd p0 (sg :: rest) = segsEnd sg.endPoint rest := by
  cases rest with
  | nil => simp [segsEnd]
  | cons b t =>
    cases hbt : (b :: t).getLast? with
    | none => simp [List.getLast?_eq_getLast] at hbt
    | some x => simp [segsEnd, List.getLast?_cons_cons, hbt]

lemma segsEnd_revSegs (p0 : Point) (segs : List Seg) :
    segsEnd (segsEnd p0 segs) (revSegs p0 segs) = p0 := by
  cases segs with
  | nil => rfl
  | cons sg rest =>
    rw [revSegs_concat_form, segsEnd_concat, revWith_endPoint]

lemma revSegs_revSegs (segs : List Seg) :
    ∀ p0, revSegs (segsEnd p0 segs) (revSegs p0 segs) = segs := by
  induction segs with
  | nil => intro p0; rfl
  | cons sg rest ih =>
    intro p0
    rw [revSegs_concat_form, revSegs_concat, segsEnd_cons,
      segsEnd_revSegs sg.endPoint rest, revWith_revWith, ih sg.endPoint]

lemma isLine_eq_line (sg : Seg) (h : sg.isLine = true) :
    sg = Seg.line sg.endPoint := by
  cases sg with
  | line e => rfl
  | quad cp e => simp [Seg.isLine] at h
  | cube cp1 cp2 e => simp [Seg.isLine] at h
  | arc rx ry phi la sw e => simp [Seg.isLine] at h

lemma rev_closed_eq (p0 : Point) (pre : List Seg) (lsg : Seg)
    (hne : ¬Point.Equals p0 lsg.endPoint) :
    SubPath.rev ⟨p0, pre ++ [lsg], true⟩
      = ⟨p0, Seg.line lsg.endPoint ::
          (if headIsLine (pre ++ [lsg]) = true
           then (revSegs p0 (pre ++ [lsg])).dropLast
           else revSegs p0 (pre ++ [lsg])), true⟩ := by
  simp [SubPath.rev, List.getLast?_concat, hne]

lemma rev_closed_eq_deg (p0 : Point) (pre : List Seg) (lsg : Seg)
    (heq : Point.Equals p0 lsg.endPoint) :
    SubPath.rev ⟨p0, pre ++ [lsg], true⟩
      = ⟨p0, (if headIsLine (pre ++ [lsg]) = true
           then (revSegs p0 (pre ++ [lsg])).dropLast
           else revSegs p0 (pre ++ [lsg])), true⟩ := by
  simp [SubPath.rev, List.getLast?_concat, heq]


/-- Reversing a subpath twice gives the subpath back, provided a closed
subpath's segments do not return to its start within tolerance and a leading
line segment does not span back to the start. -/
lemma rev_rev (s : SubPath) (hOK : SubOK2 s) :
    SubPath.rev (SubPath.rev s) = s := by
  rcases s with ⟨p0, segs, cl⟩
  cases cl
  · have h1 : SubPath.rev ⟨p0, segs, false⟩
        = ⟨segsEnd p0 segs, revSegs p0 segs, false⟩ := by
      simp [SubPath.rev, SubPath.lastPos]
    rw [h1]
    have h2 : SubPath.rev ⟨segsEnd p0 segs, revSegs p0 segs, false⟩
        = ⟨segsEnd (segsEnd p0 segs) (revSegs p0 segs),
            revSegs (segsEnd p0 segs) (revSegs p0 segs), false⟩ := by
      simp [SubPath.rev, SubPath.lastPos]
    rw [h2, segsEnd_revSegs, revSegs_revSegs]
  · rcases List.eq_nil_or_concat segs with rfl | ⟨pre, lsg, hc⟩
    · have h1 : SubPath.rev ⟨p0, ([] : List Seg), true⟩ = ⟨p0, [], true⟩ := by
        simp [SubPath.rev]
      rw [h1, h1]
    · rw [List.concat_eq_append] at hc
      subst hc
      obtain ⟨hlast, hhead⟩ := hOK rfl
      have hne : ¬Point.Equals p0 lsg.endPoint :=
        hlast lsg (by simp [List.getLast?_concat])
      have hrefl : Point.Equals p0 p0 := ⟨Equal_refl _, Equal_refl _⟩
      rw [rev_closed_eq p0 pre lsg hne]
      cases hpc : pre ++ [lsg] with
      | nil => exact absurd hpc (by simp)
      | cons sg0 rest0 =>
        by_cases hL : sg0.isLine = true
        · rw [if_pos (show headIsLine (sg0 :: rest0) = true from hL)]
          have hNEsg0 : ¬Point.Equals p0 sg0.endPoint :=
            hhead sg0 (by rw [hpc]; rfl) hL
          have hdl : (revSegs p0 (sg0 :: rest0)).dropLast
              = revSegs sg0.endPoint rest0 := by
            rw [revSegs_concat_form, List.dropLast_concat]
          rw [hdl]
          cases rest0 with
          | nil =>
            have hlsg : lsg = sg0 := by
              have h2 := congrArg List.getLast? hpc
              rw [List.getLast?_concat] at h2
              simpa using h2
            rw [← hlsg]
            rw [show revSegs lsg.endPoint ([] : List Seg) = [] from rfl]
            rw [show (⟨p0, [Seg.line lsg.endPoint], true⟩ : SubPath)
              = ⟨p0, [] ++ [Seg.line lsg.endPoint], true⟩ from rfl]
            rw [rev_closed_eq p0 [] (Seg.line lsg.endPoint)
              (by simpa [Seg.endPoint] using hne)]
            rw [if_pos (show headIsLine ([] ++ [Seg.line lsg.endPoint]) = true
              from by simp [headIsLine, Seg.isLine])]
            rw [show (revSegs p0 ([] ++ [Seg.line lsg.endPoint])).dropLast
              = [] from rfl]
            conv_rhs => rw [isLine_eq_line lsg (by rw [hlsg]; exact hL)]
            simp [Seg.endPoint]
          | cons r0 r1 =>
            rw [show revSegs sg0.endPoint (r0 :: r1)
              = revSegs r0.endPoint r1 ++ [Seg.revWith r0 sg0.endPoint] from rfl]
            rw [show (⟨p0, Seg.line lsg.endPoint ::
                (revSegs r0.endPoint r1 ++ [Seg.revWith r0 sg0.endPoint]),
                true⟩ : SubPath)
              = ⟨p0, (Seg.line lsg.endPoint :: revSegs r0.endPoint r1) ++
                  [Seg.revWith r0 sg0.endPoint], true⟩ from rfl]
            rw [rev_closed_eq p0 (Seg.line lsg.endPoint :: revSegs r0.endPoint r1)
              (Seg.revWith r0 sg0.endPoint) (by rw [revWith_endPoint]; exact hNEsg0)]
            rw [if_pos (show headIsLine ((Seg.line lsg.endPoint ::
                revSegs r0.endPoint r1) ++ [Seg.revWith r0 sg0.endPoint]) = true
              from by simp [headIsLine, Seg.isLine])]
            have hca : (Seg.line lsg.endPoint :: revSegs r0.endPoint r1) ++
                [Seg.revWith r0 sg0.endPoint]
              = Seg.line lsg.endPoint :: revSegs sg0.endPoint (r0 :: r1) := rfl
            rw [hca]
            rw [show revSegs p0 (Seg.line lsg.endPoint ::
                revSegs sg0.endPoint (r0 :: r1))
              = revSegs lsg.endPoint (revSegs sg0.endPoint (r0 :: r1)) ++
                  [Seg.line p0] from rfl]
            rw [revWith_endPoint]
            have hlast0 : segsEnd sg0.endPoint (r0 :: r1) = lsg.endPoint := by
              have h5 := congrArg List.getLast? hpc
              rw [List.getLast?_concat, List.getLast?_cons_cons] at h5
              rw [segsEnd, ← h5]
            rw [← hlast0]
            rw [revSegs_revSegs]
            rw [List.dropLast_concat]
            conv_rhs => rw [isLine_eq_line sg0 hL]
        · rw [if_neg (show ¬(headIsLine (sg0 :: rest0) = true) from hL)]
          rw [show (⟨p0, Seg.line lsg.endPoint :: revSegs p0 (sg0 :: rest0),
              true⟩ : SubPath)
            = ⟨p0, (Seg.line lsg.endPoint :: revSegs sg0.endPoint rest0) ++
                [Seg.revWith sg0 p0], true⟩ from rfl]
          rw [rev_closed_eq_deg p0
            (Seg.line lsg.endPoint :: revSegs sg0.endPoint rest0)
            (Seg.revWith sg0 p0) (by rw [revWith_endPoint]; exact hrefl)]
          rw [if_pos (show headIsLine ((Seg.line lsg.endPoint ::
              revSegs sg0.endPoint rest0) ++ [Seg.revWith sg0 p0]) = true
            from by simp [headIsLine, Seg.isLine])]
          have hca : (Seg.line lsg.endPoint :: revSegs sg0.endPoint rest0) ++
              [Seg.revWith sg0 p0]
            = Seg.line lsg.endPoint :: revSegs p0 (sg0 :: rest0) := rfl
          rw [hca]
          rw [show revSegs p0 (Seg.line lsg.endPoint :: revSegs p0 (sg0 :: rest0))
            = revSegs lsg.endPoint (revSegs p0 (sg0 :: rest0)) ++
                [Seg.line p0] from rfl]
          have hlsgE : segsEnd p0 (sg0 :: rest0) = lsg.endPoint := by
            rw [← hpc, segsEnd_concat]
          rw [← hlsgE]
          rw [revSegs_revSegs]
          rw [List.dropLast_concat]


lemma revPath_revPath (subs : List SubPath) (hOK : ∀ s ∈ subs, SubOK2 s) :
    revPath (revPath subs) = subs := by
  rw [revPath, revPath, List.map_reverse, List.reverse_reverse, List.map_map]
  have h : List.map (SubPath.rev ∘ SubPath.rev) subs = List.map id subs := by
    apply List.map_congr_left
    intro a ha
    exact rev_rev a (hOK a ha)
  rw [h, List.map_id]

lemma isLine_revWith (x : Seg) (a : Point) : (Seg.revWith x a).isLine = x.isLine := by
  cases x <;> rfl

lemma revWith_revWith_gen (x : Seg) (a b : Point) :
    Seg.revWith (Seg.revWith x a) b = Seg.withEnd x b := by
  cases x <;> simp [Seg.revWith, Seg.withEnd]

lemma withLast_concat (q : Point) (init : List Seg) (lsg : Seg) :
    withLast q (init ++ [lsg]) = init ++ [Seg.withEnd lsg q] := by
  induction init with
  | nil => rfl
  | cons a t ih =>
    cases t with
    | nil => rfl
    | cons b u =>
      rw [show (a :: b :: u) ++ [lsg] = a :: ((b :: u) ++ [lsg]) from rfl]
      rw [show withLast q (a :: ((b :: u) ++ [lsg]))
        = a :: withLast q ((b :: u) ++ [lsg]) from rfl]
      rw [ih]
      rfl

lemma headIsLine_revSegs_concat (p : Point) (pre : List Seg) (lsg : Seg) :
    headIsLine (revSegs p (pre ++ [lsg])) = lsg.isLine := by
  rw [revSegs_concat]
  rw [show headIsLine (Seg.revWith lsg (segsEnd p pre) :: revSegs p pre)
    = (Seg.revWith lsg (segsEnd p pre)).isLine from rfl]
  rw [isLine_revWith]

lemma revSegs_revSegs_gen (segs : List Seg) :
    ∀ p q, revSegs q (revSegs p segs) = withLast q segs := by
  induction segs with
  | nil => intro p q; rfl
  | cons sg rest ih =>
    intro p q
    rw [revSegs_concat_form]
    rw [revSegs_concat]
    cases rest with
    | nil =>
      rw [show segsEnd q (revSegs sg.endPoint []) = q from rfl]
      rw [revWith_revWith_gen]
      rfl
    | cons r rs =>
      rw [show segsEnd q (revSegs sg.endPoint (r :: rs)) = sg.endPoint from by
        rw [revSegs_concat_form, segsEnd_concat, revWith_endPoint]]
      rw [revWith_revWith]
      rw [ih sg.endPoint q]
      rfl

/-- Double-reversal of a closed subpath whose last segment is a non-line
returning to the start within tolerance: the subpath comes back with the last
segment's end point replaced by the cached start. -/
lemma rev_rev_deg (p0 : Point) (pre : List Seg) (lsg : Seg)
    (hEq : Point.Equals p0 lsg.endPoint) (hNL : lsg.isLine = false)
    (hhead : ∀ sg ∈ (pre ++ [lsg]).head?, sg.isLine = true →
      ¬Point.Equals p0 sg.endPoint) :
    SubPath.rev (SubPath.rev ⟨p0, pre ++ [lsg], true⟩)
      = ⟨p0, withLast p0 (pre ++ [lsg]), true⟩ := by
  rw [rev_closed_eq_deg p0 pre lsg hEq]
  cases pre with
  | nil =>
    rw [if_neg (show ¬headIsLine ([] ++ [lsg]) = true from by
      rw [show headIsLine ([] ++ [lsg]) = lsg.isLine from rfl, hNL]
      simp)]
    rw [show revSegs p0 ([] ++ [lsg]) = [] ++ [Seg.revWith lsg p0] from rfl]
    rw [rev_closed_eq_deg p0 [] (Seg.revWith lsg p0)
      (by rw [revWith_endPoint]; exact ⟨Equal_refl _, Equal_refl _⟩)]
    rw [if_neg (show ¬headIsLine ([] ++ [Seg.revWith lsg p0]) = true from by
      rw [show headIsLine ([] ++ [Seg.revWith lsg p0])
        = (Seg.revWith lsg p0).isLine from rfl, isLine_revWith, hNL]
      simp)]
    rw [show revSegs p0 ([] ++ [Seg.revWith lsg p0])
      = [Seg.revWith (Seg.revWith lsg p0) p0] from rfl]
    rw [revWith_revWith_gen]
    rfl
  | cons a pre2 =>
    by_cases hL : a.isLine = true
    · rw [if_pos (show headIsLine ((a :: pre2) ++ [lsg]) = true from hL)]
      rw [show (revSegs p0 ((a :: pre2) ++ [lsg])).dropLast
        = revSegs a.endPoint (pre2 ++ [lsg]) from by
          rw [show revSegs p0 ((a :: pre2) ++ [lsg])
            = revSegs a.endPoint (pre2 ++ [lsg]) ++ [Seg.revWith a p0] from rfl,
            List.dropLast_concat]]
      have hNE0 : ¬Point.Equals p0 a.endPoint := hhead a rfl hL
      cases pre2 with
      | nil =>
        rw [show revSegs a.endPoint ([] ++ [lsg])
          = [] ++ [Seg.revWith lsg a.endPoint] from rfl]
        rw [rev_closed_eq p0 [] (Seg.revWith lsg a.endPoint)
          (by rw [revWith_endPoint]; exact hNE0)]
        rw [if_neg (show ¬headIsLine ([] ++ [Seg.revWith lsg a.endPoint]) = true
          from by
            rw [show headIsLine ([] ++ [Seg.revWith lsg a.endPoint])
              = (Seg.revWith lsg a.endPoint).isLine from rfl, isLine_revWith, hNL]
            simp)]
        rw [show revSegs p0 ([] ++ [Seg.revWith lsg a.endPoint])
          = [Seg.revWith (Seg.revWith lsg a.endPoint) p0] from rfl]
        rw [revWith_revWith_gen, revWith_endPoint]
        rw [← isLine_eq_line a hL]
        rfl
      | cons b pre3 =>
        rw [show revSegs a.endPoint ((b :: pre3) ++ [lsg])
          = revSegs b.endPoint (pre3 ++ [lsg]) ++ [Seg.revWith b a.endPoint]
          from rfl]
        rw [rev_closed_eq p0 (revSegs b.endPoint (pre3 ++ [lsg]))
          (Seg.revWith b a.endPoint) (by rw [revWith_endPoint]; exact hNE0)]
        rw [if_neg (show ¬headIsLine (revSegs b.endPoint (pre3 ++ [lsg]) ++
            [Seg.revWith b a.endPoint]) = true from by
          rw [show revSegs b.endPoint (pre3 ++ [lsg]) ++ [Seg.revWith b a.endPoint]
            = revSegs a.endPoint ((b :: pre3) ++ [lsg]) from rfl,
            headIsLine_revSegs_concat, hNL]
          simp)]
        rw [show revSegs b.endPoint (pre3 ++ [lsg]) ++ [Seg.revWith b a.endPoint]
          = revSegs a.endPoint ((b :: pre3) ++ [lsg]) from rfl]
        rw [revSegs_revSegs_gen]
        rw [revWith_endPoint]
        rw [← isLine_eq_line a hL]
        rfl
    · rw [if_neg (show ¬headIsLine ((a :: pre2) ++ [lsg]) = true from hL)]
      rw [show revSegs p0 ((a :: pre2) ++ [lsg])
        = revSegs a.endPoint (pre2 ++ [lsg]) ++ [Seg.revWith a p0] from rfl]
      rw [rev_closed_eq_deg p0 (revSegs a.endPoint (pre2 ++ [lsg]))
        (Seg.revWith a p0)
        (by rw [revWith_endPoint]; exact ⟨Equal_refl _, Equal_refl _⟩)]
      rw [if_neg (show ¬headIsLine (revSegs a.endPoint (pre2 ++ [lsg]) ++
          [Seg.revWith a p0]) = true from by
        rw [show revSegs a.endPoint (pre2 ++ [lsg]) ++ [Seg.revWith a p0]
          = revSegs p0 ((a :: pre2) ++ [lsg]) from rfl,
          headIsLine_revSegs_concat, hNL]
        simp)]
      rw [show revSegs a.endPoint (pre2 ++ [lsg]) ++ [Seg.revWith a p0]
        = revSegs p0 ((a :: pre2) ++ [lsg]) from rfl]
      rw [revSegs_revSegs_gen]
lemma ListEqv_refl (a : List ℝ) : ListEqv a a := ⟨rfl, fun _ => Equal_refl _⟩

lemma listEqv_cons (x y : ℝ) (t1 t2 : List ℝ) (hxy : Equal x y)
    (h : ListEqv t1 t2) : ListEqv (x :: t1) (y :: t2) := by
  refine ⟨by simp [h.1], fun i => ?_⟩
  cases i with
  | zero => simpa using hxy
  | succ n => simpa using h.2 n

lemma ListEqv_append {a b c d : List ℝ} (h1 : ListEqv a b) (h2 : ListEqv c d) :
    ListEqv (a ++ c) (b ++ d) := by
  obtain ⟨hl1, he1⟩ := h1
  obtain ⟨hl2, he2⟩ := h2
  refine ⟨by simp [hl1, hl2], fun i => ?_⟩
  by_cases hi : i < a.length
  · rw [List.getD_append _ _ _ _ hi, List.getD_append _ _ _ _ (hl1 ▸ hi)]
    exact he1 i
  · rw [List.getD_append_right _ _ _ _ (not_lt.mp hi),
      List.getD_append_right _ _ _ _ (hl1 ▸ not_lt.mp hi)]
    rw [hl1]
    exact he2 (i - b.length)

lemma serSeg_withEnd_eqv (sg : Seg) (q : Point) (h : Point.Equals q sg.endPoint) :
    ListEqv (serSeg (Seg.withEnd sg q)) (serSeg sg) := by
  obtain ⟨hx, hy⟩ := h
  cases sg with
  | line e =>
    exact listEqv_cons _ _ _ _ (Equal_refl _) (listEqv_cons _ _ _ _ hx
      (listEqv_cons _ _ _ _ hy (listEqv_cons _ _ _ _ (Equal_refl _)
        (ListEqv_refl []))))
  | quad cp e =>
    exact listEqv_cons _ _ _ _ (Equal_refl _) (listEqv_cons _ _ _ _ (Equal_refl _)
      (listEqv_cons _ _ _ _ (Equal_refl _) (listEqv_cons _ _ _ _ hx
        (listEqv_cons _ _ _ _ hy (listEqv_cons _ _ _ _ (Equal_refl _)
          (ListEqv_refl []))))))
  | cube cp1 cp2 e =>
    exact listEqv_cons _ _ _ _ (Equal_refl _) (listEqv_cons _ _ _ _ (Equal_refl _)
      (listEqv_cons _ _ _ _ (Equal_refl _) (listEqv_cons _ _ _ _ (Equal_refl _)
        (listEqv_cons _ _ _ _ (Equal_refl _) (listEqv_cons _ _ _ _ hx
          (listEqv_cons _ _ _ _ hy (listEqv_cons _ _ _ _ (Equal_refl _)
            (ListEqv_refl []))))))))
  | arc rx ry phi la sw e =>
    exact listEqv_cons _ _ _ _ (Equal_refl _) (listEqv_cons _ _ _ _ (Equal_refl _)
      (listEqv_cons _ _ _ _ (Equal_refl _) (listEqv_cons _ _ _ _ (Equal_refl _)
        (listEqv_cons _ _ _ _ (Equal_refl _) (listEqv_cons _ _ _ _ hx
          (listEqv_cons _ _ _ _ hy (listEqv_cons _ _ _ _ (Equal_refl _)
            (ListEqv_refl []))))))))

lemma serSub_withLast_eqv (p0 : Point) (pre : List Seg) (lsg : Seg)
    (hEq : Point.Equals p0 lsg.endPoint) :
    ListEqv (serSub ⟨p0, withLast p0 (pre ++ [lsg]), true⟩)
      (serSub ⟨p0, pre ++ [lsg], true⟩) := by
  have hss : ∀ SEGS : List Seg, serSub ⟨p0, SEGS, true⟩
      = [MoveToCmd, p0.X, p0.Y, MoveToCmd] ++ serSegs SEGS ++
        [CloseCmd, p0.X, p0.Y, CloseCmd] := fun SEGS => rfl
  rw [hss, hss, withLast_concat, serSegs_concat, serSegs_concat]
  exact ListEqv_append
    (ListEqv_append (ListEqv_refl _) (ListEqv_append (ListEqv_refl _)
      (serSeg_withEnd_eqv lsg p0 hEq)))
    (ListEqv_refl _)

/-- Double-reversal of one valid subpath is slot-wise within tolerance of the
original. -/
lemma serSub_rev_rev_eqv (s : SubPath) (hOK : SubOK3 s) :
    ListEqv (serSub (SubPath.rev (SubPath.rev s))) (serSub s) := by
  rcases s with ⟨p0, segs, cl⟩
  cases cl
  · rw [rev_rev ⟨p0, segs, false⟩ (by intro h; simp at h)]
    exact ListEqv_refl _
  · rcases List.eq_nil_or_concat segs with rfl | ⟨pre, lsg, rfl⟩
    · rw [rev_rev ⟨p0, [], true⟩
        (by intro _; constructor <;> intro sg hsg <;> simp at hsg)]
      exact ListEqv_refl _
    · rw [List.concat_eq_append]
      obtain ⟨h1, h2⟩ := hOK rfl
      by_cases hEq : Point.Equals p0 lsg.endPoint
      · have hNL : lsg.isLine = false := by
          cases hLl : lsg.isLine
          · rfl
          · exact absurd hEq
              (h1 lsg (by simp [List.concat_eq_append, List.getLast?_concat]) hLl)
        have hhead : ∀ sg ∈ (pre ++ [lsg]).head?, sg.isLine = true →
            ¬Point.Equals p0 sg.endPoint := by
          intro sg hsg
          exact h2 sg (by simpa [List.concat_eq_append] using hsg)
        rw [rev_rev_deg p0 pre lsg hEq hNL hhead]
        exact serSub_withLast_eqv p0 pre lsg hEq
      · have hOK2 : SubOK2 ⟨p0, pre ++ [lsg], true⟩ := by
          intro _
          constructor
          · intro sg hsg
            have hh : lsg = sg := by simpa [List.getLast?_concat] using hsg
            subst hh
            exact hEq
          · intro sg hsg hl
            exact h2 sg (by simpa [List.concat_eq_append] using hsg) hl
        rw [rev_rev ⟨p0, pre ++ [lsg], true⟩ hOK2]
        exact ListEqv_refl _

lemma serPath_map_rev_rev_eqv (subs : List SubPath)
    (hOK : ∀ s ∈ subs, SubOK3 s) :
    ListEqv (serPath (subs.map (fun s => SubPath.rev (SubPath.rev s))))
      (serPath subs) := by
  induction subs with
  | nil => exact ListEqv_refl _
  | cons s rest ih =>
    rw [List.map_cons, serPath_cons, serPath_cons]
    exact ListEqv_append (serSub_rev_rev_eqv s (hOK s (by simp)))
      (ih (fun x hx => hOK x (by simp [hx])))

/-- C5: Reverse is an involution within tolerance. For every path assembled
from subpaths (any mix of open and closed ones, where in a closed subpath
neither the last segment, if it is a line, nor a leading line segment lands
back on the start point within tolerance), applying Reverse twice yields a
path that equals the original within tolerance Epsilon in the sense of
Equals; a closed subpath may well end in a curve returning to its start. The
excluded case genuinely fails: see the line-close counterexample, where
Reverse folds the redundant closing line into the Close and the double
reversal is strictly shorter than the original. -/
theorem C5_reverse_involution (subs : List SubPath)
    (hOK : ∀ s ∈ subs, SubOK3 s) :
    Path.Equals (Path.Reverse (Path.Reverse ⟨serPath subs⟩)) ⟨serPath subs⟩ := by
  rw [reverse_serPath, reverse_serPath]
  have hmap : revPath (revPath subs)
      = subs.map (fun s => SubPath.rev (SubPath.rev s)) := by
    rw [revPath, revPath, List.map_reverse, List.reverse_reverse, List.map_map]
    rfl
  rw [hmap]
  have h := serPath_map_rev_rev_eqv subs hOK
  exact ⟨h.1, fun i _ => h.2 i⟩

/-- The involution evaluated on a mixed path: the closed counter-clockwise
rectangle (0,0)-(10,0)-(10,10)-(0,10) followed by an open two-segment
polyline. -/
theorem C5_reverse_involution_witness :
    Path.Equals
      (Path.Reverse (Path.Reverse ⟨serPath
        [⟨⟨0, 0⟩, [Seg.line ⟨10, 0⟩, Seg.line ⟨10, 10⟩, Seg.line ⟨0, 10⟩], true⟩,
         ⟨⟨20, 0⟩, [Seg.line ⟨30, 0⟩, Seg.quad ⟨35, 5⟩ ⟨30, 10⟩], false⟩]⟩))
      ⟨serPath
        [⟨⟨0, 0⟩, [Seg.line ⟨10, 0⟩, Seg.line ⟨10, 10⟩, Seg.line ⟨0, 10⟩], true⟩,
         ⟨⟨20, 0⟩, [Seg.line ⟨30, 0⟩, Seg.quad ⟨35, 5⟩ ⟨30, 10⟩], false⟩]⟩ :=
  C5_reverse_involution
    [⟨⟨0, 0⟩, [Seg.line ⟨10, 0⟩, Seg.line ⟨10, 10⟩, Seg.line ⟨0, 10⟩], true⟩,
     ⟨⟨20, 0⟩, [Seg.line ⟨30, 0⟩, Seg.quad ⟨35, 5⟩ ⟨30, 10⟩], false⟩]
    (by
      intro s hs
      simp only [List.mem_cons, List.not_mem_nil, or_false] at hs
      rcases hs with h1 | h1
      · subst h1
        intro _
        constructor
        · intro sg hsg hl
          simp only [List.getLast?_cons_cons, List.getLast?_singleton,
            Option.mem_some_iff] at hsg
          subst hsg
          intro hc
          rcases hc with ⟨hx, hy⟩
          norm_num [Equal, Epsilon, Seg.endPoint] at hy
        · intro sg hsg hl
          simp only [List.head?_cons, Option.mem_some_iff] at hsg
          subst hsg
          intro hc
          rcases hc with ⟨hx, hy⟩
          norm_num [Equal, Epsilon, Seg.endPoint] at hx
      · subst h1
        intro hcl
        simp at hcl)

/-- Counterexample to the unrestricted involution claim: the closed triangle
run `M 0,0 L 1,0 L 0,0 Z` ends in a line segment back to its start, so
Reverse folds that redundant line into the emitted Close; the doubly reversed
path has 12 packed floats against the original 16 and is not Equals to it. -/
theorem C5_line_close_not_involutive :
    ¬Path.Equals
      (Path.Reverse (Path.Reverse
        ⟨serPath [⟨⟨0, 0⟩, [Seg.line ⟨1, 0⟩, Seg.line ⟨0, 0⟩], true⟩]⟩))
      ⟨serPath [⟨⟨0, 0⟩, [Seg.line ⟨1, 0⟩, Seg.line ⟨0, 0⟩], true⟩]⟩ := by
  rw [reverse_serPath, reverse_serPath]
  have hr1 : SubPath.rev ⟨⟨0, 0⟩, [Seg.line ⟨1, 0⟩, Seg.line ⟨0, 0⟩], true⟩
      = ⟨⟨0, 0⟩, [Seg.line ⟨1, 0⟩], true⟩ := by
    rw [show ([Seg.line ⟨1, 0⟩, Seg.line ⟨0, 0⟩] : List Seg)
      = [Seg.line ⟨1, 0⟩] ++ [Seg.line ⟨0, 0⟩] from rfl]
    rw [rev_closed_eq_deg ⟨0, 0⟩ [Seg.line ⟨1, 0⟩] (Seg.line ⟨0, 0⟩)
      ⟨Equal_refl _, Equal_refl _⟩]
    rw [if_pos (show headIsLine ([Seg.line ⟨1, 0⟩] ++ [Seg.line ⟨0, 0⟩]) = true
      from rfl)]
    rfl
  have hr2 : SubPath.rev ⟨⟨0, 0⟩, [Seg.line ⟨1, 0⟩], true⟩
      = ⟨⟨0, 0⟩, [Seg.line ⟨1, 0⟩], true⟩ := by
    rw [show ([Seg.line ⟨1, 0⟩] : List Seg) = [] ++ [Seg.line ⟨1, 0⟩] from rfl]
    rw [rev_closed_eq ⟨0, 0⟩ [] (Seg.line ⟨1, 0⟩)
      (fun hc => @not_Equal_of_gap 0 1 (by norm_num) hc.1)]
    rw [if_pos (show headIsLine ([] ++ [Seg.line ⟨1, 0⟩]) = true from rfl)]
    rfl
  rw [show revPath (revPath [⟨⟨0, 0⟩, [Seg.line ⟨1, 0⟩, Seg.line ⟨0, 0⟩], true⟩])
    = [⟨⟨0, 0⟩, [Seg.line ⟨1, 0⟩], true⟩] from by
      simp [revPath, hr1, hr2]]
  intro hc
  have hlen := hc.1
  simp [serPath, serSub, serSegs, serSeg] at hlen

end Canvas
